import Mathlib

/-!
# Delta-Notch signalling: ODE right-hand side, SRN model and tracking modifier

A shallow embedding of `MyDeltaNotchOdeSystem.cpp`, `MyDeltaNotchSrnModel.cpp` and
`MyDeltaNotchTrackingModifier.cpp`.

Conventions of the embedding.

* A C++ `double` is a rational number and arithmetic is exact. Where rounding or a zero
  divisor decides a claim, the arithmetic of the same code is evaluated over `Double`, a
  model of IEEE-754 binary64, or over `Traced`, which records every divisor.
* A `std::vector<double>` is a `List ℚ`; reading or writing an element outside the
  vector is a failure (`Failure.outOfBounds`).
* Code that can fail (assertion, exception, element access outside a vector) returns
  `Except Failure`.
* Objects mutated in place are passed in and returned.
-/

set_option linter.unusedVariables false

namespace DeltaNotch

/-- Ways in which a call can fail. -/
inductive Failure where
  /-- An `assert(...)` did not hold. -/
  | assertion
  /-- An element of a `std::vector` outside its size was addressed. -/
  | outOfBounds
  /-- The store `CellData` holds no item of the given name. -/
  | missingItem (name : String)
  /-- The parameter name is not declared by the system information. -/
  | unknownParameter (name : String)
  /-- No cell sits at the given location index. -/
  | noCellAtLocation (index : Nat)
  /-- The vector handed to `SetStateVariables` has the wrong size. -/
  | wrongStateSize
  deriving DecidableEq, Repr

/-- Element read `rVec[index]` of a `std::vector<double>`. -/
def vecGet (rVec : List ℚ) (index : Nat) : Except Failure ℚ :=
  match rVec[index]? with
  | some v => .ok v
  | none => .error .outOfBounds

/-- Element write `rVec[index] = value` of a `std::vector<double>`. -/
def vecSet (rVec : List ℚ) (index : Nat) (value : ℚ) : Except Failure (List ℚ) :=
  if index < rVec.length then .ok (rVec.set index value) else .error .outOfBounds

/-- Element read `rVec[index]` of a `std::vector`, for any element type. -/
def vecGetOver {α : Type} (rVec : List α) (index : Nat) : Except Failure α :=
  match rVec[index]? with
  | some v => .ok v
  | none => .error .outOfBounds

/-- Element write `rVec[index] = value` of a `std::vector`, for any element type. -/
def vecSetOver {α : Type} (rVec : List α) (index : Nat) (value : α) :
    Except Failure (List α) :=
  if index < rVec.length then .ok (rVec.set index value) else .error .outOfBounds

instance {ε α : Type} [DecidableEq ε] [DecidableEq α] : DecidableEq (Except ε α) := fun a b =>
  match a, b with
  | .ok x, .ok y =>
    if h : x = y then isTrue (by rw [h]) else isFalse (fun h' => h (Except.ok.inj h'))
  | .error x, .error y =>
    if h : x = y then isTrue (by rw [h]) else isFalse (fun h' => h (Except.error.inj h'))
  | .ok _, .error _ => isFalse (fun h => by cases h)
  | .error _, .ok _ => isFalse (fun h => by cases h)

/-! ## The type `double`: IEEE-754 binary64 -/

/-- A value of the C++ type `double`: a finite binary64 number (given by its rational
value), an infinity or a NaN. The two zeros +0 and -0 are not distinguished. -/
inductive Double where
  | finite (value : ℚ)
  | posInf
  | negInf
  | nan
  deriving DecidableEq, Repr

namespace Double

/-- The number of halvings that bring `n` below 2, at most `fuel` of them: with
`fuel = n` the integer part of the binary logarithm of `n`. -/
def log2Fuel : Nat → Nat → Nat
  | 0, _ => 0
  | fuel + 1, n => if n < 2 then 0 else log2Fuel fuel (n / 2) + 1

/-- The integer part of the binary logarithm of the positive rational `n / d`. -/
def floorLog2 (n d : Nat) : Int :=
  let k : Int := (log2Fuel n n : Int) - (log2Fuel d d : Int)
  if 0 ≤ k then (if n < d * 2 ^ k.toNat then k - 1 else k)
  else (if n * 2 ^ (-k).toNat < d then k - 1 else k)

/-- Rounding of a rational to binary64, to nearest with ties to even: 53 significant bits,
least exponent -1022 (below it the spacing stays `2^-1074`), overflow to an infinity from
`2^1024` on. -/
def round (q : ℚ) : Double :=
  if q.num = 0 then .finite 0 else
  let n := q.num.natAbs
  let d := q.den
  let e := max (floorLog2 n d) (-1022)
  let s : Int := 52 - e
  let N := if 0 ≤ s then n * 2 ^ s.toNat else n
  let D := if 0 ≤ s then d else d * 2 ^ (-s).toNat
  let f := N / D
  let r := N % D
  let m := if 2 * r < D then f else if D < 2 * r then f + 1 else if f % 2 = 0 then f else f + 1
  let v : ℚ :=
    if 0 ≤ s then (m : ℚ) / ((2 ^ s.toNat : Nat) : ℚ) else ((m * 2 ^ (-s).toNat : Nat) : ℚ)
  if (2 : ℚ) ^ 1024 ≤ v then (if 0 < q.num then .posInf else .negInf)
  else .finite (if 0 < q.num then v else -v)

/-- The sign of a value: 1, -1, or 0 for a zero and for NaN. -/
def sign : Double → Int
  | finite a => if 0 < a.num then 1 else if a.num < 0 then -1 else 0
  | posInf => 1
  | negInf => -1
  | nan => 0

/-- The infinity of the given sign; NaN for sign 0. -/
def ofSign (s : Int) : Double := if 0 < s then posInf else if s < 0 then negInf else nan

/-- Negation. -/
def neg : Double → Double
  | finite a => finite (-a)
  | posInf => negInf
  | negInf => posInf
  | nan => nan

/-- Addition `a + b` of two doubles. -/
def add : Double → Double → Double
  | finite a, finite b => round (a + b)
  | nan, _ => nan
  | _, nan => nan
  | posInf, negInf => nan
  | negInf, posInf => nan
  | posInf, _ => posInf
  | _, posInf => posInf
  | negInf, _ => negInf
  | _, negInf => negInf

/-- Subtraction `a - b` of two doubles. -/
def sub (a b : Double) : Double := add a (neg b)

/-- Multiplication `a * b` of two doubles. -/
def mul : Double → Double → Double
  | finite a, finite b => round (a * b)
  | nan, _ => nan
  | _, nan => nan
  | a, b => ofSign (sign a * sign b)

/-- Division `a / b` of two doubles; a finite non-zero value divided by zero is the
infinity of its sign, zero divided by zero is NaN. -/
def div : Double → Double → Double
  | finite a, finite b => if b = 0 then ofSign (sign (finite a)) else round (a / b)
  | nan, _ => nan
  | _, nan => nan
  | finite _, _ => finite 0
  | a, finite b => if b < 0 then neg a else a
  | _, _ => nan

instance : Add Double := ⟨add⟩

instance : Sub Double := ⟨sub⟩

instance : Mul Double := ⟨mul⟩

instance : Div Double := ⟨div⟩

/-- A decimal literal of the source is the double nearest to it. -/
instance : OfScientific Double := ⟨fun m s e => round (Rat.ofScientific m s e)⟩

/-- An integer literal of the source, converted to `double`. -/
instance (n : Nat) : OfNat Double n := ⟨round n⟩

/-- Conversion of an unsigned integer (`size()`) to `double`. -/
instance : NatCast Double := ⟨fun n => round n⟩

end Double

/-! ## Arithmetic that records its divisors -/

/-- A value together with the divisors of all divisions made to compute it, in the order
the divisions were made. -/
structure Traced (α : Type) where
  value : α
  divisors : List α

namespace Traced

/-- An input value: no division made yet. -/
def input {α : Type} (q : α) : Traced α := ⟨q, []⟩

instance {α : Type} [Add α] : Add (Traced α) :=
  ⟨fun a b => ⟨a.value + b.value, a.divisors ++ b.divisors⟩⟩

instance {α : Type} [Sub α] : Sub (Traced α) :=
  ⟨fun a b => ⟨a.value - b.value, a.divisors ++ b.divisors⟩⟩

instance {α : Type} [Mul α] : Mul (Traced α) :=
  ⟨fun a b => ⟨a.value * b.value, a.divisors ++ b.divisors⟩⟩

/-- A division records its divisor after those of its operands. -/
instance {α : Type} [Div α] : Div (Traced α) :=
  ⟨fun a b => ⟨a.value / b.value, a.divisors ++ b.divisors ++ [b.value]⟩⟩

instance {α : Type} [OfScientific α] : OfScientific (Traced α) :=
  ⟨fun m s e => ⟨OfScientific.ofScientific m s e, []⟩⟩

instance {α : Type} (n : Nat) [OfNat α n] : OfNat (Traced α) n := ⟨⟨OfNat.ofNat n, []⟩⟩

end Traced

/-! ## `MyDeltaNotchOdeSystem` -/

/-- The ODE system object: current state variables, parameter vector `mParameters`, and
the default initial conditions kept by its system information. -/
structure MyDeltaNotchOdeSystem where
  mStateVariables : List ℚ
  mParameters : List ℚ
  mInitialConditions : List ℚ

/-- The names pushed to `mVariableNames` by
`CellwiseOdeSystemInformation<MyDeltaNotchOdeSystem>::Initialise`, in that order. -/
def mVariableNames : List String :=
  ["cell surface notch", "sudx dependent notch", "dx dependent early endosome notch",
   "dx dependent late endosome notch", "notch intracellular domain", "delta"]

/-- The names pushed to `mParameterNames` by
`CellwiseOdeSystemInformation<MyDeltaNotchOdeSystem>::Initialise`, in that order. -/
def mParameterNames : List String := ["mean delta", "x distance"]

namespace MyDeltaNotchOdeSystem

/-- The right-hand side `EvaluateYDerivatives(time, rY, rDY)`; the result is `rDY` after
the six assignments. -/
def EvaluateYDerivatives (sys : MyDeltaNotchOdeSystem) (time : ℚ) (rY rDY : List ℚ) :
    Except Failure (List ℚ) := do
  let cell_surface_notch ← vecGet rY 0
  let sudx_dependent_notch ← vecGet rY 1
  let dx_dependent_early_endosome_notch ← vecGet rY 2
  let dx_dependent_late_endosome_notch ← vecGet rY 3
  let notch_intracellular_domain ← vecGet rY 4
  let delta ← vecGet rY 5
  let mean_delta ← vecGet sys.mParameters 0
  let x_distance ← vecGet sys.mParameters 1
  let k_1 : ℚ := 14.0
  let k_2 : ℚ := 10.0
  let k_3 : ℚ := 240.0
  let k_4 : ℚ := 420.0
  let k_5 : ℚ := 100.0
  let k_6 : ℚ := 500.0
  let k_7 : ℚ := 15.0
  let k_8 : ℚ := 1.2
  let k_9 : ℚ := 108.0
  let k_10 : ℚ := 250.0
  let k_11 : ℚ := 1.0
  let k_12 : ℚ := 70.0
  let k_13 : ℚ := 0.06
  let c_3 : ℚ := 14.0
  let c_4 : ℚ := 14.0
  let c_8a : ℚ := 14.0
  let c_8b : ℚ := 14.0
  let c_9 : ℚ := 14.0
  let c_10 : ℚ := 14.0
  let beta_N : ℚ := 10.0
  let f : ℚ := 5.0
  let k_c : ℚ := 0.001
  let fb_D : ℚ := 10.0
  let fb_N : ℚ := 10.0
  let fb_5 : ℚ := 10.0
  let fb_10 : ℚ := 10.0
  let gamma : ℚ := 0.25
  let dx : ℚ := 10.0
  let sudx : ℚ := 10.0
  let beta_D := beta_N * x_distance * (1 - f / 12) * (fb_D / (fb_D + notch_intracellular_domain))
  let r_1 := k_1 * (2 - fb_N / (fb_N + notch_intracellular_domain))
  let r_2 := k_2 * cell_surface_notch
  let r_3 := (k_3 * sudx + c_3) * cell_surface_notch
  let r_4 := (k_4 * dx + c_4) * cell_surface_notch
  let r_5 := k_5 * sudx * (1 - fb_5 / (fb_5 + delta)) * dx_dependent_early_endosome_notch
  let r_6 := k_6 * mean_delta * cell_surface_notch
  let r_7 := k_7 * sudx_dependent_notch
  let r_8 := k_8 * dx_dependent_early_endosome_notch
    + (c_8a * dx_dependent_early_endosome_notch) / (c_8b + dx_dependent_early_endosome_notch)
  let r_9 := (k_9 * sudx + c_9) * dx_dependent_late_endosome_notch
  let r_10 := (k_10 * sudx + c_10) * (1 - fb_10 / (fb_10 + delta)) * sudx_dependent_notch
  let r_11 := k_11 * dx_dependent_early_endosome_notch
  let r_12 := k_12 * dx_dependent_late_endosome_notch
  let r_13 := k_13 * notch_intracellular_domain
  let r_c := cell_surface_notch * delta / k_c
  let rDY ← vecSet rDY 0 (r_1 - r_2 - r_3 - r_4 - r_6)
  let rDY ← vecSet rDY 1 (r_3 + r_5 + r_7 - r_10)
  let rDY ← vecSet rDY 2 (r_4 - r_5 - r_8 - r_11)
  let rDY ← vecSet rDY 3 (r_8 - r_9 - r_12)
  let rDY ← vecSet rDY 4 (r_6 + r_7 + r_9 - r_13)
  let rDY ← vecSet rDY 5 (beta_D - gamma * delta - r_6 - r_c)
  pure rDY

/-- The right-hand side `EvaluateYDerivatives(time, rY, rDY)` with the arithmetic of
`double` left open: the literals and the operations `+`, `-`, `*`, `/` of the source are
those of the type `α`; `mParameters` is the parameter vector of the object. Over `ℚ` this
is `EvaluateYDerivatives`. -/
def EvaluateYDerivativesOver {α : Type} [Add α] [Sub α] [Mul α] [Div α] [OfScientific α]
    [OfNat α 1] [OfNat α 2] [OfNat α 12]
    (mParameters : List α) (time : α) (rY rDY : List α) : Except Failure (List α) := do
  let cell_surface_notch ← vecGetOver rY 0
  let sudx_dependent_notch ← vecGetOver rY 1
  let dx_dependent_early_endosome_notch ← vecGetOver rY 2
  let dx_dependent_late_endosome_notch ← vecGetOver rY 3
  let notch_intracellular_domain ← vecGetOver rY 4
  let delta ← vecGetOver rY 5
  let mean_delta ← vecGetOver mParameters 0
  let x_distance ← vecGetOver mParameters 1
  let k_1 : α := 14.0
  let k_2 : α := 10.0
  let k_3 : α := 240.0
  let k_4 : α := 420.0
  let k_5 : α := 100.0
  let k_6 : α := 500.0
  let k_7 : α := 15.0
  let k_8 : α := 1.2
  let k_9 : α := 108.0
  let k_10 : α := 250.0
  let k_11 : α := 1.0
  let k_12 : α := 70.0
  let k_13 : α := 0.06
  let c_3 : α := 14.0
  let c_4 : α := 14.0
  let c_8a : α := 14.0
  let c_8b : α := 14.0
  let c_9 : α := 14.0
  let c_10 : α := 14.0
  let beta_N : α := 10.0
  let f : α := 5.0
  let k_c : α := 0.001
  let fb_D : α := 10.0
  let fb_N : α := 10.0
  let fb_5 : α := 10.0
  let fb_10 : α := 10.0
  let gamma : α := 0.25
  let dx : α := 10.0
  let sudx : α := 10.0
  let beta_D := beta_N * x_distance * (1 - f / 12) * (fb_D / (fb_D + notch_intracellular_domain))
  let r_1 := k_1 * (2 - fb_N / (fb_N + notch_intracellular_domain))
  let r_2 := k_2 * cell_surface_notch
  let r_3 := (k_3 * sudx + c_3) * cell_surface_notch
  let r_4 := (k_4 * dx + c_4) * cell_surface_notch
  let r_5 := k_5 * sudx * (1 - fb_5 / (fb_5 + delta)) * dx_dependent_early_endosome_notch
  let r_6 := k_6 * mean_delta * cell_surface_notch
  let r_7 := k_7 * sudx_dependent_notch
  let r_8 := k_8 * dx_dependent_early_endosome_notch
    + (c_8a * dx_dependent_early_endosome_notch) / (c_8b + dx_dependent_early_endosome_notch)
  let r_9 := (k_9 * sudx + c_9) * dx_dependent_late_endosome_notch
  let r_10 := (k_10 * sudx + c_10) * (1 - fb_10 / (fb_10 + delta)) * sudx_dependent_notch
  let r_11 := k_11 * dx_dependent_early_endosome_notch
  let r_12 := k_12 * dx_dependent_late_endosome_notch
  let r_13 := k_13 * notch_intracellular_domain
  let r_c := cell_surface_notch * delta / k_c
  let rDY ← vecSetOver rDY 0 (r_1 - r_2 - r_3 - r_4 - r_6)
  let rDY ← vecSetOver rDY 1 (r_3 + r_5 + r_7 - r_10)
  let rDY ← vecSetOver rDY 2 (r_4 - r_5 - r_8 - r_11)
  let rDY ← vecSetOver rDY 3 (r_8 - r_9 - r_12)
  let rDY ← vecSetOver rDY 4 (r_6 + r_7 + r_9 - r_13)
  let rDY ← vecSetOver rDY 5 (beta_D - gamma * delta - r_6 - r_c)
  pure rDY

/-- The initial conditions the system information holds after
`CellwiseOdeSystemInformation<MyDeltaNotchOdeSystem>::Initialise` pushed `0.0` once for
each of the six variables. -/
def systemInformationInitialConditions : List ℚ := [0.0, 0.0, 0.0, 0.0, 0.0, 0.0]

/-- Modelled from the spec: `SetDefaultInitialCondition(index, value)` of the base class
overwrites one default initial condition. -/
def SetDefaultInitialCondition (sys : MyDeltaNotchOdeSystem) (index : Nat) (value : ℚ) :
    Except Failure MyDeltaNotchOdeSystem := do
  let ic ← vecSet sys.mInitialConditions index value
  pure { sys with mInitialConditions := ic }

/-- Modelled from the spec: `SetStateVariables` of the base class installs a state vector
of the declared size 6 (`AbstractOdeSystem(6)`) and rejects any other size. -/
def SetStateVariables (sys : MyDeltaNotchOdeSystem) (rStateVariables : List ℚ) :
    Except Failure MyDeltaNotchOdeSystem :=
  if rStateVariables.length = 6 then .ok { sys with mStateVariables := rStateVariables }
  else .error .wrongStateSize

/-- Modelled from the spec: `GetParameterIndex(rName)` of the base class, the position of
the name in `mParameterNames`. -/
def GetParameterIndex (rName : String) : Except Failure Nat :=
  if rName ∈ mParameterNames then .ok (mParameterNames.indexOf rName)
  else .error (.unknownParameter rName)

/-- Modelled from the spec: `SetParameter(rName, value)` of the base class, direct
mutation of the element of `mParameters` at the index of the name. -/
def SetParameter (sys : MyDeltaNotchOdeSystem) (rName : String) (value : ℚ) :
    Except Failure MyDeltaNotchOdeSystem := do
  let index ← GetParameterIndex rName
  let p ← vecSet sys.mParameters index value
  pure { sys with mParameters := p }

/-- Modelled from the spec: `GetParameter(rName)` of the base class, the element of
`mParameters` at the index of the name. -/
def GetParameter (sys : MyDeltaNotchOdeSystem) (rName : String) : Except Failure ℚ := do
  let index ← GetParameterIndex rName
  vecGet sys.mParameters index

/-- The constructor `MyDeltaNotchOdeSystem(stateVariables)`; the empty vector stands for
the default argument `std::vector<double>()`. -/
def construct (stateVariables : List ℚ) : Except Failure MyDeltaNotchOdeSystem := do
  let sys : MyDeltaNotchOdeSystem := ⟨[], [], systemInformationInitialConditions⟩
  let sys ← sys.SetDefaultInitialCondition 0 1.0
  let sys ← sys.SetDefaultInitialCondition 1 1.0
  let sys ← sys.SetDefaultInitialCondition 2 1.0
  let sys ← sys.SetDefaultInitialCondition 4 1.0
  let sys ← sys.SetDefaultInitialCondition 3 1.0
  let sys ← sys.SetDefaultInitialCondition 5 1.0
  let sys := { sys with mParameters := sys.mParameters ++ [0.5] }
  if stateVariables ≠ [] then sys.SetStateVariables stateVariables else pure sys

end MyDeltaNotchOdeSystem

/-! ## The store `CellData` -/

/-- Modelled from the spec: the shared per-agent key/value store, a mapping from string
key to real number. -/
structure CellData where
  mCellData : String → Option ℚ

namespace CellData

/-- Modelled from the spec: `Set(agent, key, value)`, insert or overwrite one item. -/
def SetItem (d : CellData) (rVariableName : String) (data : ℚ) : CellData :=
  ⟨fun k => if k = rVariableName then some data else d.mCellData k⟩

/-- Modelled from the spec: `Get(agent, key)`; a missing key on read is an error. -/
def GetItem (d : CellData) (rVariableName : String) : Except Failure ℚ :=
  match d.mCellData rVariableName with
  | some v => .ok v
  | none => .error (.missingItem rVariableName)

end CellData

/-! ## `MyDeltaNotchSrnModel` -/

/-- The SRN model of one cell: the pointer `mpOdeSystem` to its ODE system, null before
initialisation. -/
structure MyDeltaNotchSrnModel where
  mpOdeSystem : Option MyDeltaNotchOdeSystem

namespace MyDeltaNotchSrnModel

/-- Modelled from the spec: `AbstractOdeSrnModel::Initialise(pOdeSystem)` takes ownership
of the fresh ODE system and sets its state to the default initial conditions. -/
def AbstractOdeSrnModel_Initialise (m : MyDeltaNotchSrnModel)
    (pOdeSystem : MyDeltaNotchOdeSystem) : Except Failure MyDeltaNotchSrnModel := do
  if m.mpOdeSystem.isSome then throw Failure.assertion
  let sys ← pOdeSystem.SetStateVariables pOdeSystem.mInitialConditions
  pure { m with mpOdeSystem := some sys }

/-- The method `Initialise()`: `AbstractOdeSrnModel::Initialise(new MyDeltaNotchOdeSystem)`. -/
def Initialise (m : MyDeltaNotchSrnModel) : Except Failure MyDeltaNotchSrnModel := do
  let pOdeSystem ← MyDeltaNotchOdeSystem.construct []
  m.AbstractOdeSrnModel_Initialise pOdeSystem

/-- The coupling refresh `UpdateDeltaNotch()`; `mpCell` is the store of the cell the model
is attached to, if any. -/
def UpdateDeltaNotch (m : MyDeltaNotchSrnModel) (mpCell : Option CellData) :
    Except Failure MyDeltaNotchSrnModel := do
  match m.mpOdeSystem with
  | none => throw Failure.assertion
  | some mpOdeSystem =>
    match mpCell with
    | none => throw Failure.assertion
    | some cellData =>
      let mean_delta ← cellData.GetItem "mean delta"
      let mpOdeSystem ← mpOdeSystem.SetParameter "mean delta" mean_delta
      let x_distance ← cellData.GetItem "x distance"
      let mpOdeSystem ← mpOdeSystem.SetParameter "x distance" x_distance
      pure { m with mpOdeSystem := some mpOdeSystem }

/-- The method `SimulateToCurrentTime()`: the coupling refresh, then the base-class
integration `AbstractOdeSrnModel::SimulateToCurrentTime`, taken as a parameter. -/
def SimulateToCurrentTime
    (AbstractOdeSrnModel_SimulateToCurrentTime :
      MyDeltaNotchSrnModel → Except Failure MyDeltaNotchSrnModel)
    (m : MyDeltaNotchSrnModel) (mpCell : Option CellData) :
    Except Failure MyDeltaNotchSrnModel := do
  let m ← m.UpdateDeltaNotch mpCell
  AbstractOdeSrnModel_SimulateToCurrentTime m

/-- The coupling refresh `UpdateDeltaNotch()` as it acts on the object: the model as the
call leaves it, with the outcome of the call. A step that fails leaves the writes made
before it; no step writes the state variables. -/
def UpdateDeltaNotchInPlace (m : MyDeltaNotchSrnModel) (mpCell : Option CellData) :
    MyDeltaNotchSrnModel × Except Failure Unit :=
  match m.mpOdeSystem with
  | none => (m, .error .assertion)
  | some mpOdeSystem =>
    match mpCell with
    | none => (m, .error .assertion)
    | some cellData =>
      match cellData.GetItem "mean delta" with
      | .error e => (m, .error e)
      | .ok mean_delta =>
        match mpOdeSystem.SetParameter "mean delta" mean_delta with
        | .error e => (m, .error e)
        | .ok mpOdeSystem =>
          match cellData.GetItem "x distance" with
          | .error e => ({ m with mpOdeSystem := some mpOdeSystem }, .error e)
          | .ok x_distance =>
            match mpOdeSystem.SetParameter "x distance" x_distance with
            | .error e => ({ m with mpOdeSystem := some mpOdeSystem }, .error e)
            | .ok mpOdeSystem => ({ m with mpOdeSystem := some mpOdeSystem }, .ok ())

/-- Modelled from the spec: the base-class step `AbstractOdeSrnModel::SimulateToCurrentTime()`
on a model paired with its internal time: "request the integrator to advance the owned
state from the current internal time to targetTime", "idempotent no-op if targetTime equals
current time". `integrate` is the external integrator
`Advance(stateVector, parameters, fromTime, toTime) -> newStateVector`. -/
def AbstractOdeSrnModel_SimulateToCurrentTime
    (integrate : List ℚ → List ℚ → ℚ → ℚ → Except Failure (List ℚ)) (currentTime : ℚ)
    (s : MyDeltaNotchSrnModel × ℚ) : (MyDeltaNotchSrnModel × ℚ) × Except Failure Unit :=
  match s.1.mpOdeSystem with
  | none => (s, .error .assertion)
  | some odeSystem =>
    if currentTime = s.2 then (s, .ok ())
    else
      match integrate odeSystem.mStateVariables odeSystem.mParameters s.2 currentTime with
      | .error e => (s, .error e)
      | .ok newStateVector =>
        ((⟨some { odeSystem with mStateVariables := newStateVector }⟩, currentTime), .ok ())

/-- The method `SimulateToCurrentTime()` as it acts on the object, a model paired with its
internal time: the coupling refresh, then, if it returned, the base-class step. -/
def SimulateToCurrentTimeInPlace
    (integrate : List ℚ → List ℚ → ℚ → ℚ → Except Failure (List ℚ)) (currentTime : ℚ)
    (s : MyDeltaNotchSrnModel × ℚ) (mpCell : Option CellData) :
    (MyDeltaNotchSrnModel × ℚ) × Except Failure Unit :=
  match UpdateDeltaNotchInPlace s.1 mpCell with
  | (m, .error e) => ((m, s.2), .error e)
  | (m, .ok _) => AbstractOdeSrnModel_SimulateToCurrentTime integrate currentTime (m, s.2)

/-- The result of a call on an object as a value: the object when the call returned, the
failure otherwise. -/
def returned {σ : Type} (r : σ × Except Failure Unit) : Except Failure σ :=
  match r.2 with
  | .ok _ => .ok r.1
  | .error e => .error e

/-- The accessor `GetCellSurfaceNotch()`. -/
def GetCellSurfaceNotch (m : MyDeltaNotchSrnModel) : Except Failure ℚ :=
  match m.mpOdeSystem with
  | none => .error .assertion
  | some mpOdeSystem => vecGet mpOdeSystem.mStateVariables 0

/-- The accessor `GetSudxDependentNotch()`. -/
def GetSudxDependentNotch (m : MyDeltaNotchSrnModel) : Except Failure ℚ :=
  match m.mpOdeSystem with
  | none => .error .assertion
  | some mpOdeSystem => vecGet mpOdeSystem.mStateVariables 1

/-- The accessor `GetDxDependentEarlyEndosomeNotch()`. -/
def GetDxDependentEarlyEndosomeNotch (m : MyDeltaNotchSrnModel) : Except Failure ℚ :=
  match m.mpOdeSystem with
  | none => .error .assertion
  | some mpOdeSystem => vecGet mpOdeSystem.mStateVariables 2

/-- The accessor `GetDxDependentLateEndosomeNotch()`. -/
def GetDxDependentLateEndosomeNotch (m : MyDeltaNotchSrnModel) : Except Failure ℚ :=
  match m.mpOdeSystem with
  | none => .error .assertion
  | some mpOdeSystem => vecGet mpOdeSystem.mStateVariables 3

/-- The accessor `GetNotchIntracellularDomain()`. -/
def GetNotchIntracellularDomain (m : MyDeltaNotchSrnModel) : Except Failure ℚ :=
  match m.mpOdeSystem with
  | none => .error .assertion
  | some mpOdeSystem => vecGet mpOdeSystem.mStateVariables 4

/-- The accessor `GetDelta()`. -/
def GetDelta (m : MyDeltaNotchSrnModel) : Except Failure ℚ :=
  match m.mpOdeSystem with
  | none => .error .assertion
  | some mpOdeSystem => vecGet mpOdeSystem.mStateVariables 5

/-- The accessor `GetMeanNeighbouringDelta()`. -/
def GetMeanNeighbouringDelta (m : MyDeltaNotchSrnModel) : Except Failure ℚ :=
  match m.mpOdeSystem with
  | none => .error .assertion
  | some mpOdeSystem => mpOdeSystem.GetParameter "mean delta"

/-- The copy constructor `MyDeltaNotchSrnModel(const MyDeltaNotchSrnModel& rModel)`: the
ODE system of the copy is the one handed to `SetOdeSystem`, a new system constructed from
the state variables of the system of `rModel`. -/
def copyConstruct (rModel : MyDeltaNotchSrnModel) : Except Failure MyDeltaNotchSrnModel := do
  match rModel.mpOdeSystem with
  | none => throw Failure.assertion
  | some odeSystem =>
    let newOdeSystem ← MyDeltaNotchOdeSystem.construct odeSystem.mStateVariables
    pure ⟨some newOdeSystem⟩

/-- The method `CreateSrnModel()`: `new MyDeltaNotchSrnModel(*this)`. -/
def CreateSrnModel (m : MyDeltaNotchSrnModel) : Except Failure MyDeltaNotchSrnModel :=
  copyConstruct m

end MyDeltaNotchSrnModel

/-! ## The cell population and `MyDeltaNotchTrackingModifier` -/

/-- One agent: its SRN model and its store. -/
structure Cell where
  srnModel : MyDeltaNotchSrnModel
  cellData : CellData

/-- Modelled from the spec: the population collaborator, as it stands once its geometry
is up to date. The cell at location index `i` is `mCells[i]`; the other fields are the
answers of `GetLocationOfCellCentre`, `GetCentroidOfCellPopulation` and
`GetNeighbouringLocationIndices` (the elements of the `std::set<unsigned>` in the order
its iterator yields them). -/
structure AbstractCellPopulation where
  mCells : List Cell
  mLocationOfCellCentre : Nat → ℚ × ℚ
  mCentroidOfCellPopulation : ℚ × ℚ
  mNeighbouringLocationIndices : Nat → List Nat

namespace AbstractCellPopulation

/-- Modelled from the spec: `Update()` (`EnsureGeometryUpToDate`); the record already
carries the current geometry, so cells, models and stores are returned as they are. -/
def Update (pop : AbstractCellPopulation) : AbstractCellPopulation := pop

/-- Modelled from the spec: `GetCentroidOfCellPopulation()`. -/
def GetCentroidOfCellPopulation (pop : AbstractCellPopulation) : ℚ × ℚ :=
  pop.mCentroidOfCellPopulation

/-- Modelled from the spec: `GetLocationOfCellCentre(cell)` for the cell at a location
index. -/
def GetLocationOfCellCentre (pop : AbstractCellPopulation) (index : Nat) : ℚ × ℚ :=
  pop.mLocationOfCellCentre index

/-- Modelled from the spec: `GetNeighbouringLocationIndices(cell)` for the cell at a
location index. -/
def GetNeighbouringLocationIndices (pop : AbstractCellPopulation) (index : Nat) : List Nat :=
  pop.mNeighbouringLocationIndices index

/-- Modelled from the spec: `GetCellUsingLocationIndex(index)`; fails when no cell sits
there. -/
def GetCellUsingLocationIndex (pop : AbstractCellPopulation) (index : Nat) :
    Except Failure Cell :=
  match pop.mCells[index]? with
  | some c => .ok c
  | none => .error (.noCellAtLocation index)

/-- The effect on the population of mutating, through its pointer, the cell at a location
index. -/
def setCell (pop : AbstractCellPopulation) (index : Nat) (c : Cell) : AbstractCellPopulation :=
  { pop with mCells := pop.mCells.set index c }

/-- Modelled from the spec: the cells visited from `Begin()` to `End()`
(`ForEachAgent`), every cell of the population once. -/
def Iterator (pop : AbstractCellPopulation) : List Nat := List.range pop.mCells.length

end AbstractCellPopulation

namespace MyDeltaNotchTrackingModifier

/-- Body of the first loop of `UpdateCellData`, for the cell `cell_iter` points to. -/
def firstLoopBody (population_centroid : ℚ × ℚ) (rCellPopulation : AbstractCellPopulation)
    (cell_iter : Nat) : Except Failure AbstractCellPopulation := do
  let cell ← rCellPopulation.GetCellUsingLocationIndex cell_iter
  let p_model := cell.srnModel
  let this_delta ← p_model.GetDelta
  let this_cell_surface_notch ← p_model.GetCellSurfaceNotch
  let this_sudx_dependent_notch ← p_model.GetSudxDependentNotch
  let this_dx_dependent_early_endosome_notch ← p_model.GetDxDependentEarlyEndosomeNotch
  let this_dx_dependent_late_endosome_notch ← p_model.GetDxDependentLateEndosomeNotch
  let this_notch_intracellular_domain ← p_model.GetNotchIntracellularDomain
  let this_centroid : ℚ × ℚ := rCellPopulation.GetLocationOfCellCentre cell_iter
  let this_distance_to_tissue_centre : ℚ × ℚ := (0.0, 0.0)
  let this_distance_to_tissue_centre : ℚ × ℚ := this_centroid - population_centroid
  let this_x_distance : ℚ := abs this_distance_to_tissue_centre.1
  let total_notch : ℚ := this_cell_surface_notch + this_sudx_dependent_notch +
    this_dx_dependent_early_endosome_notch + this_dx_dependent_late_endosome_notch +
    this_notch_intracellular_domain
  let d := cell.cellData
  let d := d.SetItem "cell surface notch" this_cell_surface_notch
  let d := d.SetItem "sudx dependent notch" this_sudx_dependent_notch
  let d := d.SetItem "dx dependent early endosome notch" this_dx_dependent_early_endosome_notch
  let d := d.SetItem "dx dependent late endosome notch" this_dx_dependent_late_endosome_notch
  let d := d.SetItem "notch intracellular domain" this_notch_intracellular_domain
  let d := d.SetItem "total notch" total_notch
  let d := d.SetItem "delta" this_delta
  let d := d.SetItem "x distance" this_x_distance
  pure (rCellPopulation.setCell cell_iter { cell with cellData := d })

/-- The first loop of `UpdateCellData`, over the cells in the order given. -/
def firstLoop (population_centroid : ℚ × ℚ) :
    List Nat → AbstractCellPopulation → Except Failure AbstractCellPopulation
  | [], rCellPopulation => pure rCellPopulation
  | cell_iter :: rest, rCellPopulation => do
    let rCellPopulation ← firstLoopBody population_centroid rCellPopulation cell_iter
    firstLoop population_centroid rest rCellPopulation

/-- The inner loop of the second pass: the running value of `mean_delta` over the
neighbour indices still to visit; `size` is `neighbour_indices.size()`. -/
def neighbourLoop (rCellPopulation : AbstractCellPopulation) (size : Nat) :
    List Nat → ℚ → Except Failure ℚ
  | [], mean_delta => pure mean_delta
  | iter :: rest, mean_delta => do
    let p_cell ← rCellPopulation.GetCellUsingLocationIndex iter
    let this_delta ← p_cell.cellData.GetItem "delta"
    neighbourLoop rCellPopulation size rest (mean_delta + this_delta / (size : ℚ))

/-- The arithmetic of the inner loop of the second pass with the arithmetic of `double`
left open: the list holds the values `this_delta` read for the neighbours, in iteration
order, and each step is `mean_delta += this_delta/neighbour_indices.size()`. Over `ℚ` this
is what `neighbourLoop` computes. -/
def neighbourLoopOver {α : Type} [Add α] [Div α] [NatCast α] (size : Nat) : List α → α → α
  | [], mean_delta => mean_delta
  | this_delta :: rest, mean_delta =>
    neighbourLoopOver size rest (mean_delta + this_delta / (size : α))

/-- Body of the second loop of `UpdateCellData`, for the cell `cell_iter` points to. -/
def secondLoopBody (rCellPopulation : AbstractCellPopulation) (cell_iter : Nat) :
    Except Failure AbstractCellPopulation := do
  let cell ← rCellPopulation.GetCellUsingLocationIndex cell_iter
  let neighbour_indices := rCellPopulation.GetNeighbouringLocationIndices cell_iter
  if !neighbour_indices.isEmpty then
    let mean_delta : ℚ := 0.0
    let mean_delta ← neighbourLoop rCellPopulation neighbour_indices.length
      neighbour_indices mean_delta
    pure (rCellPopulation.setCell cell_iter
      { cell with cellData := cell.cellData.SetItem "mean delta" mean_delta })
  else
    pure (rCellPopulation.setCell cell_iter
      { cell with cellData := cell.cellData.SetItem "mean delta" 0.0 })

/-- The second loop of `UpdateCellData`, over the cells in the order given. -/
def secondLoop : List Nat → AbstractCellPopulation → Except Failure AbstractCellPopulation
  | [], rCellPopulation => pure rCellPopulation
  | cell_iter :: rest, rCellPopulation => do
    let rCellPopulation ← secondLoopBody rCellPopulation cell_iter
    secondLoop rest rCellPopulation

/-- The method `UpdateCellData` with the order in which each of its two loops visits the
cells made explicit. -/
def UpdateCellDataVisiting (firstOrder secondOrder : List Nat)
    (rCellPopulation : AbstractCellPopulation) : Except Failure AbstractCellPopulation := do
  let rCellPopulation := rCellPopulation.Update
  let population_centroid := rCellPopulation.GetCentroidOfCellPopulation
  let rCellPopulation ← firstLoop population_centroid firstOrder rCellPopulation
  secondLoop secondOrder rCellPopulation

/-- The method `UpdateCellData(rCellPopulation)`: both loops run from `Begin()` to
`End()`. -/
def UpdateCellData (rCellPopulation : AbstractCellPopulation) :
    Except Failure AbstractCellPopulation :=
  UpdateCellDataVisiting rCellPopulation.Update.Iterator rCellPopulation.Update.Iterator
    rCellPopulation

/-- The method `SetupSolve(rCellPopulation, outputDirectory)`. -/
def SetupSolve (rCellPopulation : AbstractCellPopulation) (outputDirectory : String) :
    Except Failure AbstractCellPopulation :=
  UpdateCellData rCellPopulation

/-- The method `UpdateAtEndOfTimeStep(rCellPopulation)`. -/
def UpdateAtEndOfTimeStep (rCellPopulation : AbstractCellPopulation) :
    Except Failure AbstractCellPopulation :=
  UpdateCellData rCellPopulation

end MyDeltaNotchTrackingModifier

/-! ## Closed forms used in the proofs -/

/-- A cell whose model owns an ODE system with six state variables. -/
def Cell.Initialised (c : Cell) : Prop :=
  c.srnModel.mpOdeSystem.map (fun sys => sys.mStateVariables.length) = some 6

instance (c : Cell) : Decidable c.Initialised := by
  unfold Cell.Initialised; infer_instance

/-- State variable `k` of the cell's model (0 when there is none). -/
def Cell.stateD (c : Cell) (k : Nat) : ℚ :=
  ((c.srnModel.mpOdeSystem.map (fun sys => sys.mStateVariables)).getD []).getD k 0

/-- A population the modifier can run on: every cell has an initialised model and every
neighbour index refers to a cell of the population. -/
def AbstractCellPopulation.WellFormed (pop : AbstractCellPopulation) : Prop :=
  (∀ c ∈ pop.mCells, c.Initialised) ∧
  ∀ i, i < pop.mCells.length → ∀ j ∈ pop.mNeighbouringLocationIndices i, j < pop.mCells.length

/-- The store of a cell after the eight writes of the first loop. -/
def publishedData (population_centroid this_centroid : ℚ × ℚ) (c : Cell) : CellData :=
  ((((((((c.cellData.SetItem "cell surface notch" (c.stateD 0)).SetItem
    "sudx dependent notch" (c.stateD 1)).SetItem
    "dx dependent early endosome notch" (c.stateD 2)).SetItem
    "dx dependent late endosome notch" (c.stateD 3)).SetItem
    "notch intracellular domain" (c.stateD 4)).SetItem
    "total notch" (c.stateD 0 + c.stateD 1 + c.stateD 2 + c.stateD 3 + c.stateD 4)).SetItem
    "delta" (c.stateD 5)).SetItem
    "x distance" (abs (this_centroid - population_centroid).1))

/-- A cell after the first loop visited it. -/
def published (population_centroid this_centroid : ℚ × ℚ) (c : Cell) : Cell :=
  { c with cellData := publishedData population_centroid this_centroid c }

/-- The item "delta" in the store of the cell at a location index (0 when absent). -/
def storedDelta (pop : AbstractCellPopulation) (j : Nat) : ℚ :=
  ((pop.mCells[j]?).bind (fun c => c.cellData.mCellData "delta")).getD 0

/-- The mean of the stored "delta" items of the neighbours of the cell at index `i`. -/
def storedMean (pop : AbstractCellPopulation) (i : Nat) : ℚ :=
  ((pop.mNeighbouringLocationIndices i).map (storedDelta pop)).sum /
    ((pop.mNeighbouringLocationIndices i).length : ℚ)

/-- A cell after the second loop visited it. -/
def withMean (pop : AbstractCellPopulation) (i : Nat) (c : Cell) : Cell :=
  { c with cellData := c.cellData.SetItem "mean delta" (storedMean pop i) }

/-- The Delta state variable of the model of the cell at a location index. -/
def modelDelta (pop : AbstractCellPopulation) (j : Nat) : ℚ :=
  ((pop.mCells[j]?).map (fun c => c.stateD 5)).getD 0

/-- The mean of the Delta state variables of the neighbours of the cell at index `i`. -/
def neighbourMean (pop : AbstractCellPopulation) (i : Nat) : ℚ :=
  ((pop.mNeighbouringLocationIndices i).map (modelDelta pop)).sum /
    ((pop.mNeighbouringLocationIndices i).length : ℚ)

/-- A cell after both loops of `UpdateCellData`. -/
def updated (pop : AbstractCellPopulation) (i : Nat) (c : Cell) : Cell :=
  ⟨c.srnModel,
    (publishedData pop.mCentroidOfCellPopulation (pop.mLocationOfCellCentre i) c).SetItem
      "mean delta" (neighbourMean pop i)⟩

/-- The store of the cell at a location index holds an item "delta". -/
def HasDelta (pop : AbstractCellPopulation) (j : Nat) : Prop :=
  ∃ c d, pop.mCells[j]? = some c ∧ c.cellData.mCellData "delta" = some d

/-! ## Concrete inputs -/

/-- A cell with an allocated ODE system in the given state and a store holding stale
items. -/
def exampleCell (Y : List ℚ) (stale : ℚ) : Cell :=
  ⟨⟨some ⟨Y, [0.5], [1, 1, 1, 1, 1, 1]⟩⟩, ⟨fun _ => some stale⟩⟩

/-- Four cells on a line: cell 0 has the neighbours 1, 2 and 3 with Delta 0.2, 0.4 and
0.6, cell 3 is isolated. -/
def examplePopulation : AbstractCellPopulation where
  mCells := [exampleCell [1, 2, 3, 4, 5, 6] 7, exampleCell [1, 1, 1, 1, 1, 0.2] 7,
    exampleCell [0, 0, 0, 0, 0, 0.4] 7, exampleCell [2, 2, 2, 2, 2, 0.6] 7]
  mLocationOfCellCentre := fun i => ((i : ℚ), 0)
  mCentroidOfCellPopulation := (1.5, 0)
  mNeighbouringLocationIndices := fun i => if i = 0 then [1, 2, 3] else if i = 3 then [] else [0]

/-- The population `examplePopulation` with every store empty. -/
def examplePopulationEmptyStores : AbstractCellPopulation :=
  { examplePopulation with
    mCells := examplePopulation.mCells.map (fun c => { c with cellData := ⟨fun _ => none⟩ }) }

/-- The Delta state variables of the cells of `examplePopulation`. -/
def exampleDelta (j : Nat) : ℚ := [6, 0.2, 0.4, 0.6].getD j 0

/-- A store in which the tracking modifier has published "mean delta" and "x distance". -/
def exampleStore : CellData :=
  ((CellData.mk (fun _ => none)).SetItem "mean delta" 0.4).SetItem "x distance" 2

/-- The nine keys of the store named by the spec. -/
def storeKeys : List String :=
  ["cell surface notch", "sudx dependent notch", "dx dependent early endosome notch",
   "dx dependent late endosome notch", "notch intracellular domain", "total notch", "delta",
   "x distance", "mean delta"]

/-- The model `Initialise()` builds from a model without ODE system. -/
def initialisedModel : MyDeltaNotchSrnModel :=
  ⟨some ⟨[1, 1, 1, 1, 1, 1], [0.5], [1, 1, 1, 1, 1, 1]⟩⟩

/-- A store that defines "mean delta" but not "x distance". -/
def exampleStoreWithoutXDistance : CellData :=
  (CellData.mk (fun _ => none)).SetItem "mean delta" 0.4

/-- A model whose ODE system holds the parameters "mean delta" = 2 and "x distance" = 3,
as a parent at clone time. -/
def exampleParent : MyDeltaNotchSrnModel :=
  ⟨some ⟨[1, 2, 3, 4, 5, 6], [2, 3], [1, 1, 1, 1, 1, 1]⟩⟩

/-! ## Auxiliary lemmas -/

theorem vecGet_of_lt {l : List ℚ} {k : Nat} (h : k < l.length) :
    vecGet l k = .ok (l.getD k 0) := by
  simp [vecGet, List.getElem?_eq_getElem h, List.getD_eq_getElem?_getD]

theorem CellData.ext_iff' {a b : CellData} : a = b ↔ ∀ k, a.mCellData k = b.mCellData k := by
  constructor
  · rintro rfl k; rfl
  · intro h
    cases a; cases b
    simp only [CellData.mk.injEq]
    exact funext h

theorem Cell.Initialised.length {c : Cell} (h : c.Initialised) :
    ∃ sys, c.srnModel.mpOdeSystem = some sys ∧ sys.mStateVariables.length = 6 := by
  unfold Cell.Initialised at h
  cases hs : c.srnModel.mpOdeSystem with
  | none => simp [hs] at h
  | some sys => exact ⟨sys, rfl, by simpa [hs] using h⟩

theorem readState_eq {c : Cell} (h : c.Initialised) :
    c.srnModel.GetCellSurfaceNotch = .ok (c.stateD 0) ∧
    c.srnModel.GetSudxDependentNotch = .ok (c.stateD 1) ∧
    c.srnModel.GetDxDependentEarlyEndosomeNotch = .ok (c.stateD 2) ∧
    c.srnModel.GetDxDependentLateEndosomeNotch = .ok (c.stateD 3) ∧
    c.srnModel.GetNotchIntracellularDomain = .ok (c.stateD 4) ∧
    c.srnModel.GetDelta = .ok (c.stateD 5) := by
  obtain ⟨sys, hs, hl⟩ := h.length
  simp only [MyDeltaNotchSrnModel.GetCellSurfaceNotch, MyDeltaNotchSrnModel.GetSudxDependentNotch,
    MyDeltaNotchSrnModel.GetDxDependentEarlyEndosomeNotch,
    MyDeltaNotchSrnModel.GetDxDependentLateEndosomeNotch,
    MyDeltaNotchSrnModel.GetNotchIntracellularDomain, MyDeltaNotchSrnModel.GetDelta,
    Cell.stateD, hs, Option.map_some', Option.getD_some]
  refine ⟨?_, ?_, ?_, ?_, ?_, ?_⟩ <;> exact vecGet_of_lt (by omega)

theorem firstLoopBody_eq (cen : ℚ × ℚ) (pop : AbstractCellPopulation) (i : Nat) (c : Cell)
    (hc : pop.mCells[i]? = some c) (hi : c.Initialised) :
    MyDeltaNotchTrackingModifier.firstLoopBody cen pop i
      = .ok (pop.setCell i (published cen (pop.mLocationOfCellCentre i) c)) := by
  obtain ⟨h0, h1, h2, h3, h4, h5⟩ := readState_eq hi
  simp only [MyDeltaNotchTrackingModifier.firstLoopBody,
    AbstractCellPopulation.GetCellUsingLocationIndex, hc, bind, Except.bind, pure, Except.pure,
    h0, h1, h2, h3, h4, h5, AbstractCellPopulation.GetLocationOfCellCentre, published,
    publishedData]

theorem published_idem (cen loc : ℚ × ℚ) (c : Cell) :
    published cen loc (published cen loc c) = published cen loc c := by
  have hs : ∀ k, (published cen loc c).stateD k = c.stateD k := fun k => rfl
  simp only [published, Cell.mk.injEq, true_and]
  rw [CellData.ext_iff']
  intro k
  simp only [publishedData, CellData.SetItem, Cell.stateD]
  split_ifs <;> rfl

theorem published_initialised {cen loc : ℚ × ℚ} {c : Cell} (h : c.Initialised) :
    (published cen loc c).Initialised := h

theorem firstLoop_eq (cen : ℚ × ℚ) (order : List Nat) :
    ∀ pop : AbstractCellPopulation, (∀ c ∈ pop.mCells, c.Initialised) →
      (∀ i ∈ order, i < pop.mCells.length) →
      MyDeltaNotchTrackingModifier.firstLoop cen order pop
        = .ok { pop with mCells := pop.mCells.mapIdx (fun i c =>
            if i ∈ order then published cen (pop.mLocationOfCellCentre i) c else c) } := by
  induction order with
  | nil =>
    intro pop _ _
    have hl : pop.mCells.mapIdx (fun i c =>
        if i ∈ ([] : List Nat) then published cen (pop.mLocationOfCellCentre i) c else c)
        = pop.mCells := by
      apply List.ext_getElem?
      intro n
      simp
    simp only [MyDeltaNotchTrackingModifier.firstLoop, pure, Except.pure, hl]
  | cons x xs ih =>
    intro pop hinit hlt
    have hx : x < pop.mCells.length := hlt x (List.mem_cons_self _ _)
    have hcx : pop.mCells[x]? = some pop.mCells[x] := List.getElem?_eq_getElem hx
    have hix : (pop.mCells[x]).Initialised := hinit _ (List.getElem_mem hx)
    simp only [MyDeltaNotchTrackingModifier.firstLoop, bind, Except.bind,
      firstLoopBody_eq cen pop x _ hcx hix]
    have hinit1 : ∀ c ∈ (pop.setCell x (published cen (pop.mLocationOfCellCentre x)
        pop.mCells[x])).mCells, c.Initialised := by
      intro c hc
      simp only [AbstractCellPopulation.setCell] at hc
      rcases List.mem_or_eq_of_mem_set hc with h | h
      · exact hinit c h
      · rw [h]; exact published_initialised hix
    have hlt1 : ∀ i ∈ xs, i < (pop.setCell x (published cen (pop.mLocationOfCellCentre x)
        pop.mCells[x])).mCells.length := by
      intro i hi
      simp only [AbstractCellPopulation.setCell, List.length_set]
      exact hlt i (List.mem_cons_of_mem _ hi)
    rw [ih _ hinit1 hlt1]
    simp only [AbstractCellPopulation.setCell, Except.ok.injEq,
      AbstractCellPopulation.mk.injEq, and_true, true_and]
    apply List.ext_getElem?
    intro n
    simp only [List.getElem?_mapIdx, List.getElem?_set, List.mem_cons]
    by_cases hn : x = n
    · subst hn
      simp only [hx, if_true, true_or, Option.map_some', hcx]
      split_ifs
      · rw [published_idem]
      · rfl
    · have hn' : ¬ n = x := fun h => hn h.symm
      simp only [hn, hn', if_false, false_or]

theorem neighbourLoop_eq (pop : AbstractCellPopulation) (size : Nat) (l : List Nat) :
    ∀ acc : ℚ, (∀ j ∈ l, HasDelta pop j) →
      MyDeltaNotchTrackingModifier.neighbourLoop pop size l acc
        = .ok (acc + (l.map (storedDelta pop)).sum / (size : ℚ)) := by
  induction l with
  | nil => intro acc _; simp [MyDeltaNotchTrackingModifier.neighbourLoop, pure, Except.pure]
  | cons j js ih =>
    intro acc h
    obtain ⟨c, d, hc, hd⟩ := h j (List.mem_cons_self _ _)
    have hsd : storedDelta pop j = d := by simp [storedDelta, hc, hd]
    simp only [MyDeltaNotchTrackingModifier.neighbourLoop,
      AbstractCellPopulation.GetCellUsingLocationIndex, hc, CellData.GetItem, hd, bind,
      Except.bind]
    rw [ih _ (fun k hk => h k (List.mem_cons_of_mem _ hk))]
    simp only [List.map_cons, List.sum_cons, hsd, Except.ok.injEq]
    ring

theorem secondLoopBody_eq (pop : AbstractCellPopulation) (i : Nat) (c : Cell)
    (hc : pop.mCells[i]? = some c)
    (hd : ∀ j ∈ pop.mNeighbouringLocationIndices i, HasDelta pop j) :
    MyDeltaNotchTrackingModifier.secondLoopBody pop i = .ok (pop.setCell i (withMean pop i c)) := by
  simp only [MyDeltaNotchTrackingModifier.secondLoopBody,
    AbstractCellPopulation.GetCellUsingLocationIndex, hc, bind, Except.bind, pure, Except.pure,
    AbstractCellPopulation.GetNeighbouringLocationIndices]
  cases hn : pop.mNeighbouringLocationIndices i with
  | nil =>
    have h0 : (0.0 : ℚ) = 0 := by norm_num
    simp [withMean, storedMean, hn, h0]
  | cons j js =>
    rw [hn] at hd
    simp only [List.isEmpty_cons, Bool.not_false, if_true, neighbourLoop_eq pop _ _ _ hd,
      withMean, storedMean, hn]
    norm_num

theorem storedDelta_setCell_withMean (pop q : AbstractCellPopulation) (x i : Nat) (c : Cell)
    (hc : pop.mCells[x]? = some c) (j : Nat) :
    storedDelta (pop.setCell x (withMean q i c)) j = storedDelta pop j := by
  simp only [storedDelta, AbstractCellPopulation.setCell, List.getElem?_set]
  by_cases hj : x = j
  · subst hj
    have hx : x < pop.mCells.length := by
      by_contra hx
      rw [List.getElem?_eq_none (by omega)] at hc
      exact Option.noConfusion hc
    simp [hx, hc, withMean, CellData.SetItem]
  · simp [hj]

theorem withMean_idem (pop : AbstractCellPopulation) (i : Nat) (c : Cell) :
    withMean pop i (withMean pop i c) = withMean pop i c := by
  simp only [withMean, Cell.mk.injEq, true_and]
  rw [CellData.ext_iff']
  intro k
  simp only [CellData.SetItem]
  split_ifs <;> rfl

theorem secondLoop_eq (order : List Nat) :
    ∀ pop : AbstractCellPopulation, (∀ i ∈ order, i < pop.mCells.length) →
      (∀ i ∈ order, ∀ j ∈ pop.mNeighbouringLocationIndices i, HasDelta pop j) →
      MyDeltaNotchTrackingModifier.secondLoop order pop
        = .ok { pop with mCells := pop.mCells.mapIdx (fun i c =>
            if i ∈ order then withMean pop i c else c) } := by
  induction order with
  | nil =>
    intro pop _ _
    have hl : pop.mCells.mapIdx (fun i c =>
        if i ∈ ([] : List Nat) then withMean pop i c else c) = pop.mCells := by
      apply List.ext_getElem?
      intro n
      simp
    simp only [MyDeltaNotchTrackingModifier.secondLoop, pure, Except.pure, hl]
  | cons x xs ih =>
    intro pop hlt hd
    have hx : x < pop.mCells.length := hlt x (List.mem_cons_self _ _)
    have hcx : pop.mCells[x]? = some pop.mCells[x] := List.getElem?_eq_getElem hx
    simp only [MyDeltaNotchTrackingModifier.secondLoop, bind, Except.bind,
      secondLoopBody_eq pop x _ hcx (hd x (List.mem_cons_self _ _))]
    have hsd : ∀ j, storedDelta (pop.setCell x (withMean pop x pop.mCells[x])) j
        = storedDelta pop j := storedDelta_setCell_withMean pop pop x x _ hcx
    have hsm : ∀ i, storedMean (pop.setCell x (withMean pop x pop.mCells[x])) i
        = storedMean pop i := by
      intro i
      have hfun : storedDelta (pop.setCell x (withMean pop x pop.mCells[x])) = storedDelta pop :=
        funext hsd
      simp only [storedMean, hfun]
      rfl
    have hwm : ∀ i c, withMean (pop.setCell x (withMean pop x pop.mCells[x])) i c
        = withMean pop i c := by
      intro i c
      have h := hsm i
      unfold withMean at h ⊢
      rw [h]
    have hlt1 : ∀ i ∈ xs, i < (pop.setCell x (withMean pop x pop.mCells[x])).mCells.length := by
      intro i hi
      simp only [AbstractCellPopulation.setCell, List.length_set]
      exact hlt i (List.mem_cons_of_mem _ hi)
    have hd1 : ∀ i ∈ xs, ∀ j ∈ (pop.setCell x (withMean pop x
        pop.mCells[x])).mNeighbouringLocationIndices i,
        HasDelta (pop.setCell x (withMean pop x pop.mCells[x])) j := by
      intro i hi j hj
      obtain ⟨c, d, hc, hcd⟩ := hd i (List.mem_cons_of_mem _ hi) j hj
      simp only [HasDelta, AbstractCellPopulation.setCell, List.getElem?_set]
      by_cases hxj : x = j
      · subst hxj
        rw [hcx] at hc
        cases hc
        refine ⟨withMean pop x pop.mCells[x], d, ?_, ?_⟩
        · simp [hx]
        · simp [withMean, CellData.SetItem, hcd]
      · exact ⟨c, d, by simp [hxj, hc], hcd⟩
    rw [ih _ hlt1 hd1]
    simp only [hwm]
    simp only [AbstractCellPopulation.setCell, Except.ok.injEq,
      AbstractCellPopulation.mk.injEq, and_true, true_and]
    apply List.ext_getElem?
    intro n
    simp only [List.getElem?_mapIdx, List.getElem?_set, List.mem_cons]
    by_cases hn : x = n
    · subst hn
      simp only [hx, if_true, true_or, Option.map_some', hcx]
      split_ifs
      · rw [withMean_idem]
      · rfl
    · have hn' : ¬ n = x := fun h => hn h.symm
      simp only [hn, hn', if_false, false_or]

theorem storedDelta_published (pop : AbstractCellPopulation) (cen : ℚ × ℚ) (order : List Nat)
    (j : Nat) (hj : j ∈ order) (hlt : j < pop.mCells.length) :
    HasDelta { pop with mCells := pop.mCells.mapIdx (fun i c =>
        if i ∈ order then published cen (pop.mLocationOfCellCentre i) c else c) } j ∧
    storedDelta { pop with mCells := pop.mCells.mapIdx (fun i c =>
        if i ∈ order then published cen (pop.mLocationOfCellCentre i) c else c) } j
      = modelDelta pop j := by
  have hc : pop.mCells[j]? = some pop.mCells[j] := List.getElem?_eq_getElem hlt
  constructor
  · refine ⟨published cen (pop.mLocationOfCellCentre j) pop.mCells[j], (pop.mCells[j]).stateD 5,
      ?_, ?_⟩
    · simp [List.getElem?_mapIdx, hc, hj]
    · simp [published, publishedData, CellData.SetItem]
  · simp [storedDelta, modelDelta, List.getElem?_mapIdx, hc, hj, published, publishedData,
      CellData.SetItem]

theorem UpdateCellDataVisiting_eq (pop : AbstractCellPopulation) (hw : pop.WellFormed)
    (firstOrder secondOrder : List Nat)
    (h1 : ∀ i, i ∈ firstOrder ↔ i < pop.mCells.length)
    (h2 : ∀ i, i ∈ secondOrder ↔ i < pop.mCells.length) :
    MyDeltaNotchTrackingModifier.UpdateCellDataVisiting firstOrder secondOrder pop
      = .ok { pop with mCells := pop.mCells.mapIdx (updated pop) } := by
  obtain ⟨hinit, hnb⟩ := hw
  simp only [MyDeltaNotchTrackingModifier.UpdateCellDataVisiting, AbstractCellPopulation.Update,
    AbstractCellPopulation.GetCentroidOfCellPopulation, bind, Except.bind]
  rw [firstLoop_eq _ _ pop hinit (fun i hi => (h1 i).1 hi)]
  simp only []
  rw [secondLoop_eq]
  · simp only [Except.ok.injEq, AbstractCellPopulation.mk.injEq, and_true]
    apply List.ext_getElem?
    intro n
    simp only [List.getElem?_mapIdx]
    cases hn : pop.mCells[n]? with
    | none => rfl
    | some c =>
      have hlt : n < pop.mCells.length := by
        by_contra hx
        rw [List.getElem?_eq_none (by omega)] at hn
        exact Option.noConfusion hn
      simp only [Option.map_some', (h1 n).2 hlt, (h2 n).2 hlt, if_true, Option.some.injEq]
      have hmean : storedMean { pop with mCells := pop.mCells.mapIdx (fun i c =>
          if i ∈ firstOrder then published pop.mCentroidOfCellPopulation
            (pop.mLocationOfCellCentre i) c else c) } n = neighbourMean pop n := by
        simp only [storedMean, neighbourMean]
        congr 2
        apply List.map_congr_left
        intro j hj
        have hjl := hnb n hlt j hj
        exact (storedDelta_published pop _ firstOrder j ((h1 j).2 hjl) hjl).2
      unfold withMean
      rw [hmean]
      rfl
  · intro i hi
    simp only [List.length_mapIdx]
    exact (h2 i).1 hi
  · intro i hi j hj
    have hjl := hnb i ((h2 i).1 hi) j hj
    exact (storedDelta_published pop _ firstOrder j ((h1 j).2 hjl) hjl).1

theorem UpdateCellData_eq (pop : AbstractCellPopulation) (hw : pop.WellFormed) :
    MyDeltaNotchTrackingModifier.UpdateCellData pop
      = .ok { pop with mCells := pop.mCells.mapIdx (updated pop) } := by
  unfold MyDeltaNotchTrackingModifier.UpdateCellData
  apply UpdateCellDataVisiting_eq pop hw <;>
    simp [AbstractCellPopulation.Iterator, AbstractCellPopulation.Update]

theorem updated_getElem? (pop : AbstractCellPopulation) (hw : pop.WellFormed) :
    ∃ pop', MyDeltaNotchTrackingModifier.UpdateCellData pop = .ok pop' ∧
      ∀ i, pop'.mCells[i]? = (pop.mCells[i]?).map (updated pop i) :=
  ⟨_, UpdateCellData_eq pop hw, fun i => by simp only [List.getElem?_mapIdx]⟩

theorem modelDelta_eq_of_GetDelta (pop : AbstractCellPopulation) (δ : Nat → ℚ)
    (hδ : ∀ (j : Nat) (c : Cell), pop.mCells[j]? = some c → c.srnModel.GetDelta = .ok (δ j))
    (hinit : ∀ c ∈ pop.mCells, c.Initialised) (j : Nat) (hj : j < pop.mCells.length) :
    modelDelta pop j = δ j := by
  have hc : pop.mCells[j]? = some pop.mCells[j] := List.getElem?_eq_getElem hj
  have h1 := hδ j _ hc
  have h2 := (readState_eq (hinit _ (List.getElem_mem hj))).2.2.2.2.2
  rw [h2] at h1
  simp only [modelDelta, hc, Option.map_some', Option.getD_some]
  exact Except.ok.inj h1

theorem examplePopulation_wellFormed : examplePopulation.WellFormed := by
  constructor
  · intro c hc
    simp only [examplePopulation, List.mem_cons, List.mem_singleton, List.not_mem_nil,
      or_false] at hc
    rcases hc with h | h | h | h <;> subst h <;> decide
  · intro i hi j hj
    simp only [examplePopulation, List.length_cons, List.length_nil] at hi hj ⊢
    interval_cases i <;> simp at hj <;> omega

theorem examplePopulationEmptyStores_wellFormed : examplePopulationEmptyStores.WellFormed := by
  constructor
  · intro c hc
    simp only [examplePopulationEmptyStores, examplePopulation, List.map_cons, List.map_nil,
      List.mem_cons, List.mem_singleton, List.not_mem_nil, or_false] at hc
    rcases hc with h | h | h | h <;> subst h <;> decide
  · intro i hi j hj
    simp only [examplePopulationEmptyStores, examplePopulation, List.map_cons, List.map_nil,
      List.length_cons, List.length_nil] at hi hj ⊢
    interval_cases i <;> simp at hj <;> omega

theorem exampleDelta_spec : ∀ (j : Nat) (c : Cell), examplePopulation.mCells[j]? = some c →
    c.srnModel.GetDelta = .ok (exampleDelta j) := by
  intro j c hc
  rcases j with _ | _ | _ | _ | n
  all_goals simp only [examplePopulation, List.getElem?_cons_zero, List.getElem?_cons_succ,
    List.getElem?_nil, Option.some.injEq] at hc
  all_goals first
    | exact Option.noConfusion hc
    | (subst hc; simp [exampleCell, MyDeltaNotchSrnModel.GetDelta, vecGet, exampleDelta])

theorem stateD_of_state {c : Cell} {sys : MyDeltaNotchOdeSystem} {Y0 Y1 Y2 Y3 Y4 Y5 : ℚ}
    (hs : c.srnModel.mpOdeSystem = some sys) (hY : sys.mStateVariables = [Y0, Y1, Y2, Y3, Y4, Y5]) :
    c.stateD 0 = Y0 ∧ c.stateD 1 = Y1 ∧ c.stateD 2 = Y2 ∧ c.stateD 3 = Y3 ∧ c.stateD 4 = Y4 ∧
      c.stateD 5 = Y5 := by
  simp [Cell.stateD, hs, hY]

theorem modelDelta_congr (pop₁ pop₂ : AbstractCellPopulation)
    (hmodels : pop₁.mCells.map (fun c => c.srnModel) = pop₂.mCells.map (fun c => c.srnModel))
    (j : Nat) : modelDelta pop₁ j = modelDelta pop₂ j := by
  have h := congrArg (fun l => l[j]?) hmodels
  simp only [List.getElem?_map] at h
  simp only [modelDelta]
  cases h1 : pop₁.mCells[j]? with
  | none =>
    cases h2 : pop₂.mCells[j]? with
    | none => rfl
    | some c₂ => simp [h1, h2] at h
  | some c₁ =>
    cases h2 : pop₂.mCells[j]? with
    | none => simp [h1, h2] at h
    | some c₂ =>
      simp only [h1, h2, Option.map_some', Option.some.injEq] at h
      simp [Cell.stateD, h]

theorem wellFormed_congr (pop₁ pop₂ : AbstractCellPopulation) (hw : pop₁.WellFormed)
    (hmodels : pop₁.mCells.map (fun c => c.srnModel) = pop₂.mCells.map (fun c => c.srnModel))
    (hnb : pop₁.mNeighbouringLocationIndices = pop₂.mNeighbouringLocationIndices) :
    pop₂.WellFormed := by
  have hlen : pop₁.mCells.length = pop₂.mCells.length := by
    simpa using congrArg List.length hmodels
  constructor
  · intro c₂ hc₂
    have hm : c₂.srnModel ∈ pop₁.mCells.map (fun c => c.srnModel) := by
      rw [hmodels]; exact List.mem_map_of_mem _ hc₂
    obtain ⟨c₁, hc₁, he⟩ := List.mem_map.1 hm
    have h1 := hw.1 c₁ hc₁
    simp only [Cell.Initialised] at h1 ⊢
    rw [← he]; exact h1
  · intro i hi j hj
    rw [← hlen] at hi ⊢
    rw [← hnb] at hj
    exact hw.2 i hi j hj

theorem UpdateDeltaNotch_of_two_parameters (sys : MyDeltaNotchOdeSystem) (d : CellData)
    (p₀ p₁ m x : ℚ) (hp : sys.mParameters = [p₀, p₁])
    (hm : d.mCellData "mean delta" = some m) (hx : d.mCellData "x distance" = some x) :
    MyDeltaNotchSrnModel.UpdateDeltaNotch ⟨some sys⟩ (some d)
      = .ok ⟨some { sys with mParameters := [m, x] }⟩ := by
  simp [MyDeltaNotchSrnModel.UpdateDeltaNotch, CellData.GetItem, hm, hx,
    MyDeltaNotchOdeSystem.SetParameter, MyDeltaNotchOdeSystem.GetParameterIndex,
    mParameterNames, vecSet, hp, bind, Except.bind, pure, Except.pure]

theorem construct_nil :
    MyDeltaNotchOdeSystem.construct [] = .ok ⟨[], [0.5], [1, 1, 1, 1, 1, 1]⟩ := by
  have h1 : (1.0 : ℚ) = 1 := by norm_num
  simp [MyDeltaNotchOdeSystem.construct, MyDeltaNotchOdeSystem.SetDefaultInitialCondition,
    MyDeltaNotchOdeSystem.systemInformationInitialConditions, vecSet, bind, Except.bind,
    pure, Except.pure, h1]

theorem Initialise_eq :
    MyDeltaNotchSrnModel.Initialise ⟨none⟩
      = .ok ⟨some ⟨[1, 1, 1, 1, 1, 1], [0.5], [1, 1, 1, 1, 1, 1]⟩⟩ := by
  simp [MyDeltaNotchSrnModel.Initialise, construct_nil,
    MyDeltaNotchSrnModel.AbstractOdeSrnModel_Initialise,
    MyDeltaNotchOdeSystem.SetStateVariables, bind, Except.bind, pure, Except.pure]

theorem construct_six (Y0 Y1 Y2 Y3 Y4 Y5 : ℚ) :
    MyDeltaNotchOdeSystem.construct [Y0, Y1, Y2, Y3, Y4, Y5]
      = .ok ⟨[Y0, Y1, Y2, Y3, Y4, Y5], [0.5], [1, 1, 1, 1, 1, 1]⟩ := by
  have h1 : (1.0 : ℚ) = 1 := by norm_num
  simp [MyDeltaNotchOdeSystem.construct, MyDeltaNotchOdeSystem.SetDefaultInitialCondition,
    MyDeltaNotchOdeSystem.SetStateVariables,
    MyDeltaNotchOdeSystem.systemInformationInitialConditions, vecSet, bind, Except.bind,
    pure, Except.pure, h1]

theorem EvaluateYDerivatives_eq
    (sv ic : List ℚ) (mean_delta x_distance t Y0 Y1 Y2 Y3 Y4 Y5 D0 D1 D2 D3 D4 D5 : ℚ) :
    MyDeltaNotchOdeSystem.EvaluateYDerivatives ⟨sv, [mean_delta, x_distance], ic⟩ t
        [Y0, Y1, Y2, Y3, Y4, Y5] [D0, D1, D2, D3, D4, D5]
      = .ok [14 * (2 - 10 / (10 + Y4)) - 10 * Y0 - 2414 * Y0 - 4214 * Y0
            - 500 * mean_delta * Y0,
          2414 * Y0 + 1000 * (1 - 10 / (10 + Y5)) * Y2 + 15 * Y1
            - 2514 * (1 - 10 / (10 + Y5)) * Y1,
          4214 * Y0 - 1000 * (1 - 10 / (10 + Y5)) * Y2 - (6 / 5 * Y2 + 14 * Y2 / (14 + Y2)) - Y2,
          6 / 5 * Y2 + 14 * Y2 / (14 + Y2) - 1094 * Y3 - 70 * Y3,
          500 * mean_delta * Y0 + 15 * Y1 + 1094 * Y3 - 3 / 50 * Y4,
          10 * x_distance * (1 - 5 / 12) * (10 / (10 + Y4)) - 1 / 4 * Y5
            - 500 * mean_delta * Y0 - Y0 * Y5 / (1 / 1000)] := by
  simp only [MyDeltaNotchOdeSystem.EvaluateYDerivatives, vecGet, vecSet, bind, Except.bind,
    pure, Except.pure]
  norm_num

theorem UpdateDeltaNotch_of_one_parameter (sys : MyDeltaNotchOdeSystem) (d : CellData)
    (p₀ m x : ℚ) (hp : sys.mParameters = [p₀])
    (hm : d.mCellData "mean delta" = some m) (hx : d.mCellData "x distance" = some x) :
    MyDeltaNotchSrnModel.UpdateDeltaNotch ⟨some sys⟩ (some d) = .error .outOfBounds := by
  simp [MyDeltaNotchSrnModel.UpdateDeltaNotch, CellData.GetItem, hm, hx,
    MyDeltaNotchOdeSystem.SetParameter, MyDeltaNotchOdeSystem.GetParameterIndex,
    mParameterNames, vecSet, hp, bind, Except.bind, pure, Except.pure]

theorem SimulateToCurrentTime_of_two_parameters
    (base : MyDeltaNotchSrnModel → Except Failure MyDeltaNotchSrnModel)
    (sys : MyDeltaNotchOdeSystem) (d : CellData)
    (p₀ p₁ m x : ℚ) (hp : sys.mParameters = [p₀, p₁])
    (hm : d.mCellData "mean delta" = some m) (hx : d.mCellData "x distance" = some x) :
    MyDeltaNotchSrnModel.SimulateToCurrentTime base ⟨some sys⟩ (some d)
      = base ⟨some { sys with mParameters := [m, x] }⟩ := by
  simp only [MyDeltaNotchSrnModel.SimulateToCurrentTime,
    UpdateDeltaNotch_of_two_parameters sys d p₀ p₁ m x hp hm hx, bind, Except.bind]

theorem updated_storeKeys (pop : AbstractCellPopulation) (i : Nat) (c : Cell) :
    ∀ k ∈ storeKeys, ((updated pop i c).cellData.mCellData k).isSome = true := by
  intro k hk
  simp only [storeKeys, List.mem_cons, List.mem_singleton, List.not_mem_nil, or_false] at hk
  rcases hk with h | h | h | h | h | h | h | h | h <;> subst h <;>
    simp [updated, publishedData, CellData.SetItem]

theorem SetupSolve_populates (pop : AbstractCellPopulation) (hw : pop.WellFormed)
    (outputDirectory : String) :
    ∃ pop', MyDeltaNotchTrackingModifier.SetupSolve pop outputDirectory = .ok pop' ∧
      ∀ (i : Nat) (c : Cell), pop.mCells[i]? = some c →
        ∃ c' : Cell, pop'.mCells[i]? = some c' ∧ c'.srnModel = c.srnModel ∧
          ∀ k ∈ storeKeys, (c'.cellData.mCellData k).isSome = true := by
  obtain ⟨pop', hrun, hget⟩ := updated_getElem? pop hw
  refine ⟨pop', hrun, ?_⟩
  intro i c hc
  refine ⟨updated pop i c, ?_, rfl, updated_storeKeys pop i c⟩
  rw [hget, hc]; rfl

theorem length_mul_le_sum_map (f : Nat → ℚ) (lo : ℚ) :
    ∀ l : List Nat, (∀ j ∈ l, lo ≤ f j) → (l.length : ℚ) * lo ≤ (l.map f).sum := by
  intro l
  induction l with
  | nil => intro _; simp
  | cons a as ih =>
    intro h
    have ha := h a (List.mem_cons_self _ _)
    have has := ih (fun j hj => h j (List.mem_cons_of_mem _ hj))
    simp only [List.length_cons, List.map_cons, List.sum_cons, Nat.cast_succ]
    linarith

theorem sum_map_le_length_mul (f : Nat → ℚ) (hi : ℚ) :
    ∀ l : List Nat, (∀ j ∈ l, f j ≤ hi) → (l.map f).sum ≤ (l.length : ℚ) * hi := by
  intro l
  induction l with
  | nil => intro _; simp
  | cons a as ih =>
    intro h
    have ha := h a (List.mem_cons_self _ _)
    have has := ih (fun j hj => h j (List.mem_cons_of_mem _ hj))
    simp only [List.length_cons, List.map_cons, List.sum_cons, Nat.cast_succ]
    linarith

theorem mean_bounds (f : Nat → ℚ) (l : List Nat) (hl : l ≠ []) (lo hi : ℚ)
    (hlo : ∀ j ∈ l, lo ≤ f j) (hhi : ∀ j ∈ l, f j ≤ hi) :
    lo ≤ (l.map f).sum / (l.length : ℚ) ∧ (l.map f).sum / (l.length : ℚ) ≤ hi := by
  have hpos : (0 : ℚ) < (l.length : ℚ) := by
    have : 0 < l.length := List.length_pos.2 hl
    exact_mod_cast this
  constructor
  · rw [le_div_iff₀ hpos]
    have := length_mul_le_sum_map f lo l hlo
    linarith
  · rw [div_le_iff₀ hpos]
    have := sum_map_le_length_mul f hi l hhi
    linarith

theorem exists_min_of_ne_nil (f : Nat → ℚ) :
    ∀ l : List Nat, l ≠ [] → ∃ j ∈ l, ∀ k ∈ l, f j ≤ f k := by
  intro l
  induction l with
  | nil => intro h; exact absurd rfl h
  | cons a as ih =>
    intro _
    by_cases has : as = []
    · subst has
      exact ⟨a, List.mem_cons_self _ _, by simp⟩
    · obtain ⟨j, hj, hmin⟩ := ih has
      by_cases hle : f a ≤ f j
      · refine ⟨a, List.mem_cons_self _ _, ?_⟩
        intro k hk
        rcases List.mem_cons.1 hk with h | h
        · rw [h]
        · exact le_trans hle (hmin k h)
      · refine ⟨j, List.mem_cons_of_mem _ hj, ?_⟩
        intro k hk
        rcases List.mem_cons.1 hk with h | h
        · rw [h]; exact le_of_lt (not_le.1 hle)
        · exact hmin k h

theorem exists_max_of_ne_nil (f : Nat → ℚ) (l : List Nat) (hl : l ≠ []) :
    ∃ j ∈ l, ∀ k ∈ l, f k ≤ f j := by
  obtain ⟨j, hj, h⟩ := exists_min_of_ne_nil (fun n => - f n) l hl
  exact ⟨j, hj, fun k hk => neg_le_neg_iff.1 (h k hk)⟩

theorem vecGet_eq_Over (rVec : List ℚ) (index : Nat) :
    vecGet rVec index = vecGetOver rVec index := by
  unfold vecGet vecGetOver
  cases rVec[index]? <;> rfl

theorem vecSet_eq_Over (rVec : List ℚ) (index : Nat) (value : ℚ) :
    vecSet rVec index value = vecSetOver rVec index value := rfl

theorem EvaluateYDerivatives_eq_Over (sys : MyDeltaNotchOdeSystem) (time : ℚ)
    (rY rDY : List ℚ) :
    MyDeltaNotchOdeSystem.EvaluateYDerivatives sys time rY rDY
      = MyDeltaNotchOdeSystem.EvaluateYDerivativesOver sys.mParameters time rY rDY := by
  simp only [MyDeltaNotchOdeSystem.EvaluateYDerivatives,
    MyDeltaNotchOdeSystem.EvaluateYDerivativesOver, vecGet_eq_Over, vecSet_eq_Over]

theorem neighbourLoop_eq_Over (pop : AbstractCellPopulation) (size : Nat) (l : List Nat) :
    ∀ acc : ℚ, (∀ j ∈ l, HasDelta pop j) →
      MyDeltaNotchTrackingModifier.neighbourLoop pop size l acc
        = .ok (MyDeltaNotchTrackingModifier.neighbourLoopOver size
            (l.map (storedDelta pop)) acc) := by
  induction l with
  | nil =>
    intro acc _
    simp [MyDeltaNotchTrackingModifier.neighbourLoop,
      MyDeltaNotchTrackingModifier.neighbourLoopOver, pure, Except.pure]
  | cons j js ih =>
    intro acc h
    obtain ⟨c, d, hc, hd⟩ := h j (List.mem_cons_self _ _)
    have hsd : storedDelta pop j = d := by simp [storedDelta, hc, hd]
    simp only [MyDeltaNotchTrackingModifier.neighbourLoop,
      AbstractCellPopulation.GetCellUsingLocationIndex, hc, CellData.GetItem, hd, bind,
      Except.bind]
    rw [ih _ (fun k hk => h k (List.mem_cons_of_mem _ hk))]
    simp only [List.map_cons, MyDeltaNotchTrackingModifier.neighbourLoopOver, hsd]

theorem UpdateDeltaNotch_eq_returned (m : MyDeltaNotchSrnModel) (mpCell : Option CellData) :
    m.UpdateDeltaNotch mpCell
      = MyDeltaNotchSrnModel.returned (m.UpdateDeltaNotchInPlace mpCell) := by
  unfold MyDeltaNotchSrnModel.UpdateDeltaNotch MyDeltaNotchSrnModel.UpdateDeltaNotchInPlace
    MyDeltaNotchSrnModel.returned
  cases m.mpOdeSystem with
  | none => rfl
  | some sys =>
    cases mpCell with
    | none => rfl
    | some d =>
      simp only [bind, Except.bind, pure, Except.pure]
      cases d.GetItem "mean delta" with
      | error e => rfl
      | ok mv =>
        simp only []
        cases sys.SetParameter "mean delta" mv with
        | error e => rfl
        | ok sys1 =>
          simp only []
          cases d.GetItem "x distance" with
          | error e => rfl
          | ok xv =>
            simp only []
            cases sys1.SetParameter "x distance" xv with
            | error e => rfl
            | ok sys2 => rfl

theorem UpdateDeltaNotchInPlace_state (m : MyDeltaNotchSrnModel) (mpCell : Option CellData) :
    (m.UpdateDeltaNotchInPlace mpCell).1.mpOdeSystem.map (fun sys => sys.mStateVariables)
      = m.mpOdeSystem.map (fun sys => sys.mStateVariables) := by
  have hset : ∀ (sys sys' : MyDeltaNotchOdeSystem) (name : String) (v : ℚ),
      sys.SetParameter name v = .ok sys' → sys'.mStateVariables = sys.mStateVariables := by
    intro sys sys' name v h
    simp only [MyDeltaNotchOdeSystem.SetParameter, bind, Except.bind, pure, Except.pure] at h
    cases hi : MyDeltaNotchOdeSystem.GetParameterIndex name with
    | error e => simp [hi] at h
    | ok i =>
      cases hv : vecSet sys.mParameters i v with
      | error e => simp [hi, hv] at h
      | ok p =>
        simp only [hi, hv, Except.ok.injEq] at h
        rw [← h]
  unfold MyDeltaNotchSrnModel.UpdateDeltaNotchInPlace
  cases hs : m.mpOdeSystem with
  | none => simp [hs]
  | some sys =>
    cases mpCell with
    | none => simp [hs]
    | some d =>
      simp only []
      cases d.GetItem "mean delta" with
      | error e => simp [hs]
      | ok mv =>
        simp only []
        cases h1 : sys.SetParameter "mean delta" mv with
        | error e => simp [hs]
        | ok sys1 =>
          have e1 := hset _ _ _ _ h1
          simp only []
          cases d.GetItem "x distance" with
          | error e => simp [e1]
          | ok xv =>
            simp only []
            cases h2 : sys1.SetParameter "x distance" xv with
            | error e => simp [e1]
            | ok sys2 =>
              have e2 := hset _ _ _ _ h2
              simp [e1, e2]

theorem Traced.add_def {α : Type} [Add α] (a b : Traced α) :
    a + b = ⟨a.value + b.value, a.divisors ++ b.divisors⟩ := rfl

theorem Traced.sub_def {α : Type} [Sub α] (a b : Traced α) :
    a - b = ⟨a.value - b.value, a.divisors ++ b.divisors⟩ := rfl

theorem Traced.mul_def {α : Type} [Mul α] (a b : Traced α) :
    a * b = ⟨a.value * b.value, a.divisors ++ b.divisors⟩ := rfl

theorem Traced.div_def {α : Type} [Div α] (a b : Traced α) :
    a / b = ⟨a.value / b.value, a.divisors ++ b.divisors ++ [b.value]⟩ := rfl

theorem Traced.ofScientific_def {α : Type} [OfScientific α] (m : Nat) (s : Bool) (e : Nat) :
    (OfScientific.ofScientific m s e : Traced α) = ⟨OfScientific.ofScientific m s e, []⟩ :=
  rfl

theorem Traced.ofNat_def {α : Type} (n : Nat) [OfNat α n] :
    (OfNat.ofNat n : Traced α) = ⟨OfNat.ofNat n, []⟩ := rfl

theorem EvaluateYDerivativesOver_Traced
    (mean_delta x_distance t Y0 Y1 Y2 Y3 Y4 Y5 D0 D1 D2 D3 D4 D5 : ℚ) :
    MyDeltaNotchOdeSystem.EvaluateYDerivativesOver
        [Traced.input mean_delta, Traced.input x_distance] (Traced.input t)
        [Traced.input Y0, Traced.input Y1, Traced.input Y2, Traced.input Y3,
          Traced.input Y4, Traced.input Y5]
        [Traced.input D0, Traced.input D1, Traced.input D2, Traced.input D3,
          Traced.input D4, Traced.input D5]
      = .ok [
        ⟨14 * (2 - 10 / (10 + Y4)) - 10 * Y0 - 2414 * Y0 - 4214 * Y0
            - 500 * mean_delta * Y0, [10 + Y4]⟩,
        ⟨2414 * Y0 + 1000 * (1 - 10 / (10 + Y5)) * Y2 + 15 * Y1
            - 2514 * (1 - 10 / (10 + Y5)) * Y1, [10 + Y5, 10 + Y5]⟩,
        ⟨4214 * Y0 - 1000 * (1 - 10 / (10 + Y5)) * Y2 - (6 / 5 * Y2 + 14 * Y2 / (14 + Y2))
            - Y2, [10 + Y5, 14 + Y2]⟩,
        ⟨6 / 5 * Y2 + 14 * Y2 / (14 + Y2) - 1094 * Y3 - 70 * Y3, [14 + Y2]⟩,
        ⟨500 * mean_delta * Y0 + 15 * Y1 + 1094 * Y3 - 3 / 50 * Y4, []⟩,
        ⟨10 * x_distance * (1 - 5 / 12) * (10 / (10 + Y4)) - 1 / 4 * Y5
            - 500 * mean_delta * Y0 - Y0 * Y5 / (1 / 1000), [12, 10 + Y4, 1 / 1000]⟩] := by
  simp only [MyDeltaNotchOdeSystem.EvaluateYDerivativesOver, vecGetOver, vecSetOver, bind,
    Except.bind, pure, Except.pure, Traced.input, Traced.add_def, Traced.sub_def,
    Traced.mul_def, Traced.div_def, Traced.ofScientific_def, Traced.ofNat_def]
  norm_num

/-- Under any arithmetic, evaluation with the divisors recorded gives the values of the
plain evaluation, and divides by `fb_N + NICD`, `fb_5 + delta`, `fb_10 + delta`,
`c_8b +` early-endosome Notch, `12`, `fb_D + NICD` and `k_c`. -/
theorem EvaluateYDerivativesOver_Traced_values {α : Type} [Add α] [Sub α] [Mul α] [Div α]
    [OfScientific α] [OfNat α 1] [OfNat α 2] [OfNat α 12]
    (p0 p1 t Y0 Y1 Y2 Y3 Y4 Y5 D0 D1 D2 D3 D4 D5 : α) :
    MyDeltaNotchOdeSystem.EvaluateYDerivativesOver
        [Traced.input p0, Traced.input p1] (Traced.input t)
        [Traced.input Y0, Traced.input Y1, Traced.input Y2, Traced.input Y3,
          Traced.input Y4, Traced.input Y5]
        [Traced.input D0, Traced.input D1, Traced.input D2, Traced.input D3,
          Traced.input D4, Traced.input D5]
      = (MyDeltaNotchOdeSystem.EvaluateYDerivativesOver [p0, p1] t [Y0, Y1, Y2, Y3, Y4, Y5]
          [D0, D1, D2, D3, D4, D5]).map (fun rDY => List.zipWith Traced.mk rDY
            [[10.0 + Y4], [10.0 + Y5, 10.0 + Y5], [10.0 + Y5, 14.0 + Y2], [14.0 + Y2], [],
              [12, 10.0 + Y4, 0.001]]) := by
  simp only [MyDeltaNotchOdeSystem.EvaluateYDerivativesOver, vecGetOver, vecSetOver, bind,
    Except.bind, pure, Except.pure, Traced.input, Traced.add_def, Traced.sub_def,
    Traced.mul_def, Traced.div_def, Traced.ofScientific_def, Traced.ofNat_def]
  simp [Except.map]

/-- Under any arithmetic, the evaluation on six state components and two parameters
returns, with six derivative components. -/
theorem EvaluateYDerivativesOver_returns {α : Type} [Add α] [Sub α] [Mul α] [Div α]
    [OfScientific α] [OfNat α 1] [OfNat α 2] [OfNat α 12]
    (p0 p1 t Y0 Y1 Y2 Y3 Y4 Y5 D0 D1 D2 D3 D4 D5 : α) :
    ∃ rDY : List α,
      MyDeltaNotchOdeSystem.EvaluateYDerivativesOver [p0, p1] t [Y0, Y1, Y2, Y3, Y4, Y5]
          [D0, D1, D2, D3, D4, D5] = .ok rDY ∧ rDY.length = 6 := by
  simp [MyDeltaNotchOdeSystem.EvaluateYDerivativesOver, vecGetOver, vecSetOver, bind,
    Except.bind, pure, Except.pure]

theorem EvaluateYDerivativesOver_Double_ones :
    MyDeltaNotchOdeSystem.EvaluateYDerivativesOver (α := Double) [0.0, 0.0] 0.0
        [1.0, 1.0, 1.0, 1.0, 1.0, 1.0] [0.0, 0.0, 0.0, 0.0, 0.0, 0.0]
      = .ok [Double.finite (-910220705494109 / 137438953472),
          Double.finite (5038761923289833 / 2199023255552),
          Double.finite (4529941260489275 / 1099511627776),
          Double.finite (-5109943639701367 / 4398046511104),
          Double.finite (2438584849011835 / 2199023255552),
          Double.finite (-4001 / 4)] := by
  decide!

theorem EvaluateYDerivativesOver_Double_nicd :
    MyDeltaNotchOdeSystem.EvaluateYDerivativesOver (α := Double) [0.5, 1.0] 0.0
        [1.0, 1.0, 1.0, 1.0, Double.finite (-10), 1.0] [0.0, 0.0, 0.0, 0.0, 0.0, 0.0]
      = .ok [Double.negInf,
          Double.finite (5038761923289833 / 2199023255552),
          Double.finite (4529941260489275 / 1099511627776),
          Double.finite (-5109943639701367 / 4398046511104),
          Double.finite (2989792018248499 / 2199023255552),
          Double.posInf] := by
  decide!

theorem EvaluateYDerivativesOver_time_irrelevant {α : Type} [Add α] [Sub α] [Mul α] [Div α]
    [OfScientific α] [OfNat α 1] [OfNat α 2] [OfNat α 12]
    (p : List α) (t t' : α) (Y0 Y1 Y2 Y3 Y4 Y5 D0 D1 D2 D3 D4 D5 E0 E1 E2 E3 E4 E5 : α) :
    MyDeltaNotchOdeSystem.EvaluateYDerivativesOver p t [Y0, Y1, Y2, Y3, Y4, Y5]
        [D0, D1, D2, D3, D4, D5]
      = MyDeltaNotchOdeSystem.EvaluateYDerivativesOver p t' [Y0, Y1, Y2, Y3, Y4, Y5]
        [E0, E1, E2, E3, E4, E5] := by
  simp only [MyDeltaNotchOdeSystem.EvaluateYDerivativesOver, vecGetOver, vecSetOver, bind,
    Except.bind, pure, Except.pure]
  cases p[0]? <;> cases p[1]? <;> simp

theorem neighbourLoopOver_rat (size : Nat) (l : List ℚ) :
    ∀ acc : ℚ, MyDeltaNotchTrackingModifier.neighbourLoopOver size l acc
      = acc + l.sum / (size : ℚ) := by
  induction l with
  | nil => intro acc; simp [MyDeltaNotchTrackingModifier.neighbourLoopOver]
  | cons a as ih =>
    intro acc
    simp only [MyDeltaNotchTrackingModifier.neighbourLoopOver, ih, List.sum_cons]
    ring

theorem SimulateToCurrentTimeInPlace_same_time
    (integrate : List ℚ → List ℚ → ℚ → ℚ → Except Failure (List ℚ)) (t : ℚ)
    (m : MyDeltaNotchSrnModel) (mpCell : Option CellData) :
    MyDeltaNotchSrnModel.SimulateToCurrentTimeInPlace integrate t (m, t) mpCell
      = (((m.UpdateDeltaNotchInPlace mpCell).1, t),
          (m.UpdateDeltaNotchInPlace mpCell).2) ∨
    ∃ e, MyDeltaNotchSrnModel.SimulateToCurrentTimeInPlace integrate t (m, t) mpCell
      = (((m.UpdateDeltaNotchInPlace mpCell).1, t), .error e) := by
  unfold MyDeltaNotchSrnModel.SimulateToCurrentTimeInPlace
  rcases hr : m.UpdateDeltaNotchInPlace mpCell with ⟨m1, o⟩
  cases o with
  | error e => left; rfl
  | ok u =>
    simp only [MyDeltaNotchSrnModel.AbstractOdeSrnModel_SimulateToCurrentTime]
    cases m1.mpOdeSystem with
    | none => right; exact ⟨_, rfl⟩
    | some sys => left; simp

/-! ### The refresh made twice -/

theorem SetParameter_ok_iff (sys sys1 : MyDeltaNotchOdeSystem) (name : String) (v : ℚ) :
    sys.SetParameter name v = .ok sys1 ↔
      ∃ i, MyDeltaNotchOdeSystem.GetParameterIndex name = .ok i ∧ i < sys.mParameters.length ∧
        sys1 = { sys with mParameters := sys.mParameters.set i v } := by
  simp only [MyDeltaNotchOdeSystem.SetParameter, vecSet, bind, Except.bind, pure, Except.pure]
  cases hi : MyDeltaNotchOdeSystem.GetParameterIndex name with
  | error e => simp
  | ok i =>
    by_cases hlt : i < sys.mParameters.length
    · simp only [hlt, if_true, Except.ok.injEq]
      constructor
      · intro h; exact ⟨i, rfl, hlt, h.symm⟩
      · rintro ⟨j, hj, _, h⟩; cases hj; exact h.symm
    · simp only [hlt, if_false]
      constructor
      · intro h; cases h
      · rintro ⟨j, hj, hjl, _⟩; cases hj; exact absurd hjl hlt

/-- Setting a parameter that was just set changes nothing. -/
theorem SetParameter_again (sys sys1 : MyDeltaNotchOdeSystem) (name : String) (v : ℚ)
    (h : sys.SetParameter name v = .ok sys1) : sys1.SetParameter name v = .ok sys1 := by
  obtain ⟨i, hi, hlt, rfl⟩ := (SetParameter_ok_iff sys sys1 name v).mp h
  apply (SetParameter_ok_iff _ _ name v).mpr
  refine ⟨i, hi, by simpa using hlt, ?_⟩
  simp [List.set_set]

/-- Whether a parameter write changes nothing does not depend on the state variables. -/
theorem SetParameter_fixed_state (sys : MyDeltaNotchOdeSystem) (name : String) (v : ℚ)
    (h : sys.SetParameter name v = .ok sys) (Y : List ℚ) :
    ({ sys with mStateVariables := Y } : MyDeltaNotchOdeSystem).SetParameter name v
      = .ok { sys with mStateVariables := Y } := by
  obtain ⟨i, hi, hlt, he⟩ := (SetParameter_ok_iff sys sys name v).mp h
  apply (SetParameter_ok_iff _ _ name v).mpr
  refine ⟨i, hi, hlt, ?_⟩
  have hp : sys.mParameters = sys.mParameters.set i v := by
    have := congrArg MyDeltaNotchOdeSystem.mParameters he
    simpa using this
  simp only [← hp]

/-- Writing "x distance" does not undo a write of "mean delta". -/
theorem SetParameter_fixed_other (sys sys2 : MyDeltaNotchOdeSystem) (mv xv : ℚ)
    (h1 : sys.SetParameter "mean delta" mv = .ok sys)
    (h2 : sys.SetParameter "x distance" xv = .ok sys2) :
    sys2.SetParameter "mean delta" mv = .ok sys2 := by
  obtain ⟨i, hi, hlt, he⟩ := (SetParameter_ok_iff sys sys "mean delta" mv).mp h1
  obtain ⟨j, hj, hjl, rfl⟩ := (SetParameter_ok_iff sys sys2 "x distance" xv).mp h2
  have hi0 : i = 0 := by
    simp [MyDeltaNotchOdeSystem.GetParameterIndex, mParameterNames] at hi
    exact hi.symm
  have hj1 : j = 1 := by
    simp [MyDeltaNotchOdeSystem.GetParameterIndex, mParameterNames] at hj
    exact hj.symm
  subst hi0
  subst hj1
  have hp : sys.mParameters = sys.mParameters.set 0 mv := by
    have := congrArg MyDeltaNotchOdeSystem.mParameters he
    simpa using this
  apply (SetParameter_ok_iff _ _ "mean delta" mv).mpr
  refine ⟨0, hi, by simpa using hlt, ?_⟩
  have hc : ((sys.mParameters.set 1 xv).set 0 mv) = (sys.mParameters.set 1 xv) := by
    rw [List.set_comm _ _ _ (by decide : (1 : Nat) ≠ 0), ← hp]
  simp only [hc]

/-- A refresh that returned read both items and left a system on which writing them
again changes nothing. -/
theorem UpdateDeltaNotchInPlace_ok (m m1 : MyDeltaNotchSrnModel) (mpCell : Option CellData)
    (h : m.UpdateDeltaNotchInPlace mpCell = (m1, .ok ())) :
    ∃ sys d mv xv, m1 = ⟨some sys⟩ ∧ mpCell = some d ∧
      d.GetItem "mean delta" = .ok mv ∧ d.GetItem "x distance" = .ok xv ∧
      sys.SetParameter "mean delta" mv = .ok sys ∧
      sys.SetParameter "x distance" xv = .ok sys := by
  unfold MyDeltaNotchSrnModel.UpdateDeltaNotchInPlace at h
  cases hs : m.mpOdeSystem with
  | none => simp [hs] at h
  | some sys =>
    cases mpCell with
    | none => simp [hs] at h
    | some d =>
      simp only [hs] at h
      cases hg : d.GetItem "mean delta" with
      | error e => simp [hg] at h
      | ok mv =>
        simp only [hg] at h
        cases h1 : sys.SetParameter "mean delta" mv with
        | error e => simp [h1] at h
        | ok sys1 =>
          simp only [h1] at h
          cases hx : d.GetItem "x distance" with
          | error e => simp [hx] at h
          | ok xv =>
            simp only [hx] at h
            cases h2 : sys1.SetParameter "x distance" xv with
            | error e => simp [h2] at h
            | ok sys2 =>
              simp only [h2, Prod.mk.injEq, and_true] at h
              refine ⟨sys2, d, mv, xv, h.symm, rfl, hg, hx, ?_, ?_⟩
              · exact SetParameter_fixed_other sys1 sys2 mv xv
                  (SetParameter_again sys sys1 _ _ h1) h2
              · exact SetParameter_again sys1 sys2 _ _ h2

/-- On a system on which writing both items changes nothing, the refresh returns and
leaves the model as it was, whatever the state variables. -/
theorem UpdateDeltaNotchInPlace_of_fixed (sys : MyDeltaNotchOdeSystem) (d : CellData)
    (mv xv : ℚ) (hg : d.GetItem "mean delta" = .ok mv) (hx : d.GetItem "x distance" = .ok xv)
    (h1 : sys.SetParameter "mean delta" mv = .ok sys)
    (h2 : sys.SetParameter "x distance" xv = .ok sys) (Y : List ℚ) :
    MyDeltaNotchSrnModel.UpdateDeltaNotchInPlace ⟨some { sys with mStateVariables := Y }⟩
        (some d)
      = (⟨some { sys with mStateVariables := Y }⟩, .ok ()) := by
  simp only [MyDeltaNotchSrnModel.UpdateDeltaNotchInPlace, hg, hx,
    SetParameter_fixed_state sys _ _ h1 Y, SetParameter_fixed_state sys _ _ h2 Y]

/-- A refresh that failed fails in the same way, changing nothing, when made again. -/
theorem UpdateDeltaNotchInPlace_error_again (m m1 : MyDeltaNotchSrnModel)
    (mpCell : Option CellData) (e : Failure)
    (h : m.UpdateDeltaNotchInPlace mpCell = (m1, .error e)) :
    m1.UpdateDeltaNotchInPlace mpCell = (m1, .error e) := by
  unfold MyDeltaNotchSrnModel.UpdateDeltaNotchInPlace at h
  cases hs : m.mpOdeSystem with
  | none =>
    simp only [hs, Prod.mk.injEq, Except.error.injEq] at h
    obtain ⟨rfl, rfl⟩ := h
    simp only [MyDeltaNotchSrnModel.UpdateDeltaNotchInPlace, hs]
  | some sys =>
    cases mpCell with
    | none =>
      simp only [hs, Prod.mk.injEq, Except.error.injEq] at h
      obtain ⟨rfl, rfl⟩ := h
      simp only [MyDeltaNotchSrnModel.UpdateDeltaNotchInPlace, hs]
    | some d =>
      simp only [hs] at h
      cases hg : d.GetItem "mean delta" with
      | error e' =>
        simp only [hg, Prod.mk.injEq, Except.error.injEq] at h
        obtain ⟨rfl, rfl⟩ := h
        simp only [MyDeltaNotchSrnModel.UpdateDeltaNotchInPlace, hs, hg]
      | ok mv =>
        simp only [hg] at h
        cases h1 : sys.SetParameter "mean delta" mv with
        | error e' =>
          simp only [h1, Prod.mk.injEq, Except.error.injEq] at h
          obtain ⟨rfl, rfl⟩ := h
          simp only [MyDeltaNotchSrnModel.UpdateDeltaNotchInPlace, hs, hg, h1]
        | ok sys1 =>
          simp only [h1] at h
          have h1' := SetParameter_again sys sys1 _ _ h1
          cases hx : d.GetItem "x distance" with
          | error e' =>
            simp only [hx, Prod.mk.injEq, Except.error.injEq] at h
            obtain ⟨rfl, rfl⟩ := h
            simp only [MyDeltaNotchSrnModel.UpdateDeltaNotchInPlace, hg, h1', hx]
          | ok xv =>
            simp only [hx] at h
            cases h2 : sys1.SetParameter "x distance" xv with
            | error e' =>
              simp only [h2, Prod.mk.injEq, Except.error.injEq] at h
              obtain ⟨rfl, rfl⟩ := h
              simp only [MyDeltaNotchSrnModel.UpdateDeltaNotchInPlace, hg, h1', hx, h2]
            | ok sys2 => simp [h2] at h

/-- A second call of `SimulateToCurrentTime` at the same current time, with the same store,
leaves the object and the outcome as the first call left them. -/
theorem SimulateToCurrentTimeInPlace_twice
    (integrate : List ℚ → List ℚ → ℚ → ℚ → Except Failure (List ℚ)) (t : ℚ)
    (s : MyDeltaNotchSrnModel × ℚ) (mpCell : Option CellData) :
    MyDeltaNotchSrnModel.SimulateToCurrentTimeInPlace integrate t
        (MyDeltaNotchSrnModel.SimulateToCurrentTimeInPlace integrate t s mpCell).1 mpCell
      = MyDeltaNotchSrnModel.SimulateToCurrentTimeInPlace integrate t s mpCell := by
  rcases hr : s.1.UpdateDeltaNotchInPlace mpCell with ⟨m1, o⟩
  cases o with
  | error e =>
    have h1 : MyDeltaNotchSrnModel.SimulateToCurrentTimeInPlace integrate t s mpCell
        = ((m1, s.2), .error e) := by
      simp only [MyDeltaNotchSrnModel.SimulateToCurrentTimeInPlace, hr]
    rw [h1]
    simp only [MyDeltaNotchSrnModel.SimulateToCurrentTimeInPlace,
      UpdateDeltaNotchInPlace_error_again _ _ _ _ hr]
  | ok u =>
    obtain ⟨sys, d, mv, xv, rfl, rfl, hg, hx, hp1, hp2⟩ :=
      UpdateDeltaNotchInPlace_ok _ _ _ hr
    have hfix := UpdateDeltaNotchInPlace_of_fixed sys d mv xv hg hx hp1 hp2
    have hfix0 := hfix sys.mStateVariables
    by_cases ht : t = s.2
    · have h1 : MyDeltaNotchSrnModel.SimulateToCurrentTimeInPlace integrate t s (some d)
          = ((⟨some sys⟩, s.2), .ok ()) := by
        simp only [MyDeltaNotchSrnModel.SimulateToCurrentTimeInPlace, hr,
          MyDeltaNotchSrnModel.AbstractOdeSrnModel_SimulateToCurrentTime, ht, if_true]
      rw [h1]
      simp only [MyDeltaNotchSrnModel.SimulateToCurrentTimeInPlace, hfix0,
        MyDeltaNotchSrnModel.AbstractOdeSrnModel_SimulateToCurrentTime, ht, if_true]
    · cases hi : integrate sys.mStateVariables sys.mParameters s.2 t with
      | error e =>
        have h1 : MyDeltaNotchSrnModel.SimulateToCurrentTimeInPlace integrate t s (some d)
            = ((⟨some sys⟩, s.2), .error e) := by
          simp only [MyDeltaNotchSrnModel.SimulateToCurrentTimeInPlace, hr,
            MyDeltaNotchSrnModel.AbstractOdeSrnModel_SimulateToCurrentTime, ht, if_false, hi]
        rw [h1]
        simp only [MyDeltaNotchSrnModel.SimulateToCurrentTimeInPlace, hfix0,
          MyDeltaNotchSrnModel.AbstractOdeSrnModel_SimulateToCurrentTime, ht, if_false, hi]
      | ok Y =>
        have h1 : MyDeltaNotchSrnModel.SimulateToCurrentTimeInPlace integrate t s (some d)
            = ((⟨some { sys with mStateVariables := Y }⟩, t), .ok ()) := by
          simp only [MyDeltaNotchSrnModel.SimulateToCurrentTimeInPlace, hr,
            MyDeltaNotchSrnModel.AbstractOdeSrnModel_SimulateToCurrentTime, ht, if_false, hi]
        rw [h1]
        simp only [MyDeltaNotchSrnModel.SimulateToCurrentTimeInPlace, hfix Y,
          MyDeltaNotchSrnModel.AbstractOdeSrnModel_SimulateToCurrentTime, if_true]

/-! ### Rounding to `double` -/
namespace Double

theorem log2Fuel_spec : ∀ (fuel n : Nat), 1 ≤ n → n ≤ fuel →
    2 ^ log2Fuel fuel n ≤ n ∧ n < 2 ^ (log2Fuel fuel n + 1) := by
  intro fuel
  induction fuel with
  | zero => intro n h1 h2; omega
  | succ fuel ih =>
    intro n h1 h2
    unfold log2Fuel
    by_cases h : n < 2
    · simp only [h, if_true]
      constructor
      · simpa using h1
      · simpa using h
    · simp only [h, if_false]
      have hn : 1 ≤ n / 2 := by omega
      have hf : n / 2 ≤ fuel := by omega
      obtain ⟨ha, hb⟩ := ih (n / 2) hn hf
      constructor
      · rw [pow_succ]; omega
      · rw [pow_succ] at hb ⊢; omega

/-- Rounding the quotient `N / D` to the nearest integer moves it by at most one half. -/
theorem nearest_error (N D : Nat) (hD : 0 < D) :
    |(((if 2 * (N % D) < D then N / D else if D < 2 * (N % D) then N / D + 1
        else if (N / D) % 2 = 0 then N / D else N / D + 1 : Nat) : ℚ)) - (N : ℚ) / (D : ℚ)|
      ≤ 1 / 2 := by
  have hDq : (0 : ℚ) < (D : ℚ) := by exact_mod_cast hD
  have hdiv : (N : ℚ) = (D : ℚ) * ((N / D : Nat) : ℚ) + ((N % D : Nat) : ℚ) := by
    exact_mod_cast (Nat.div_add_mod N D).symm
  have hr : ((N % D : Nat) : ℚ) < (D : ℚ) := by exact_mod_cast Nat.mod_lt N hD
  have hr0 : (0 : ℚ) ≤ ((N % D : Nat) : ℚ) := by positivity
  have hq : (N : ℚ) / (D : ℚ) = ((N / D : Nat) : ℚ) + ((N % D : Nat) : ℚ) / (D : ℚ) := by
    rw [hdiv]; field_simp; ring
  rw [hq]
  by_cases h1 : 2 * (N % D) < D
  · simp only [h1, if_true]
    have h1q : 2 * ((N % D : Nat) : ℚ) < (D : ℚ) := by exact_mod_cast h1
    rw [abs_le]
    constructor
    · have : ((N % D : Nat) : ℚ) / (D : ℚ) ≤ 1 / 2 := by
        rw [div_le_iff₀ hDq]; linarith
      linarith
    · have : 0 ≤ ((N % D : Nat) : ℚ) / (D : ℚ) := by positivity
      linarith
  · simp only [h1, if_false]
    have hle : ∀ (m : Nat), (m = N / D ∨ m = N / D + 1) → 2 * (N % D) = D →
        |(m : ℚ) - (((N / D : Nat) : ℚ) + ((N % D : Nat) : ℚ) / (D : ℚ))| ≤ 1 / 2 := by
      intro m hm h2
      have h2q : 2 * ((N % D : Nat) : ℚ) = (D : ℚ) := by exact_mod_cast h2
      have : ((N % D : Nat) : ℚ) / (D : ℚ) = 1 / 2 := by
        rw [div_eq_iff hDq.ne']; linarith
      rw [this, abs_le]
      rcases hm with hm | hm <;> rw [hm] <;> push_cast <;> constructor <;> linarith
    by_cases h2 : D < 2 * (N % D)
    · simp only [h2, if_true]
      have h2q : (D : ℚ) < 2 * ((N % D : Nat) : ℚ) := by exact_mod_cast h2
      push_cast
      rw [abs_le]
      have ha : 1 / 2 ≤ ((N % D : Nat) : ℚ) / (D : ℚ) := by
        rw [le_div_iff₀ hDq]; linarith
      have hb : ((N % D : Nat) : ℚ) / (D : ℚ) ≤ 1 := by
        rw [div_le_iff₀ hDq]; linarith
      constructor <;> linarith
    · simp only [h2, if_false]
      have h3 : 2 * (N % D) = D := by omega
      by_cases h4 : (N / D) % 2 = 0
      · simp only [h4, if_true]
        exact hle _ (Or.inl rfl) h3
      · simp only [h4, if_false]
        exact hle _ (Or.inr rfl) h3

end Double

namespace Double

/-- The exponent that `round` uses for a positive rational. -/
theorem round_pos (q : ℚ) (hq : 0 < q) :
    ∃ v : ℚ, |v - q| ≤ (2 : ℚ) ^ (max (floorLog2 q.num.natAbs q.den) (-1022) - 53) ∧ 0 ≤ v ∧
      round q = if (2 : ℚ) ^ 1024 ≤ v then posInf else finite v := by
  have hnum : 0 < q.num := Rat.num_pos.mpr hq
  have hnum0 : q.num ≠ 0 := ne_of_gt hnum
  have hd : 0 < q.den := q.den_pos
  have hqeq : ((q.num.natAbs : Nat) : ℚ) / ((q.den : Nat) : ℚ) = q := by
    have h1 : ((q.num.natAbs : Nat) : ℤ) = q.num := Int.natAbs_of_nonneg (le_of_lt hnum)
    have h2 : ((q.num.natAbs : Nat) : ℚ) = (q.num : ℚ) := by
      rw [← Int.cast_natCast, h1]
    rw [h2]; exact Rat.num_div_den q
  unfold round
  rw [if_neg hnum0]
  simp only [hnum, if_true]
  generalize max (floorLog2 q.num.natAbs q.den) (-1022) = e
  generalize q.num.natAbs = n at hqeq ⊢
  generalize q.den = d at hqeq hd ⊢
  have hdq : (0 : ℚ) < (d : ℚ) := by exact_mod_cast hd
  by_cases hs : 0 ≤ 52 - e
  · simp only [hs, if_true]
    obtain ⟨S, hS⟩ : ∃ S : Nat, (S : ℤ) = 52 - e := ⟨(52 - e).toNat, Int.toNat_of_nonneg hs⟩
    have hS2 : (52 - e).toNat = S := by omega
    rw [hS2]
    have hne := nearest_error (n * 2 ^ S) d hd
    refine ⟨_, ?_, ?_, rfl⟩
    · have hp : (0 : ℚ) < ((2 ^ S : Nat) : ℚ) := by positivity
      have he : e - 53 = -((S : ℤ) + 1) := by omega
      rw [he, zpow_neg]
      have hz : (2 : ℚ) ^ ((S : ℤ) + 1) = ((2 ^ S : Nat) : ℚ) * 2 := by
        rw [zpow_add₀ (by norm_num), zpow_natCast, zpow_one]; push_cast; ring
      rw [hz]
      have hx : ((n * 2 ^ S : Nat) : ℚ) / (d : ℚ) = q * ((2 ^ S : Nat) : ℚ) := by
        rw [← hqeq]; push_cast; field_simp
      rw [hx] at hne
      set m : ℚ := (((if 2 * (n * 2 ^ S % d) < d then n * 2 ^ S / d
        else if d < 2 * (n * 2 ^ S % d) then n * 2 ^ S / d + 1
        else if (n * 2 ^ S / d) % 2 = 0 then n * 2 ^ S / d else n * 2 ^ S / d + 1 : Nat)) : ℚ)
        with hm
      have : m / ((2 ^ S : Nat) : ℚ) - q = (m - q * ((2 ^ S : Nat) : ℚ)) / ((2 ^ S : Nat) : ℚ) := by
        field_simp; ring
      rw [this, abs_div, abs_of_pos hp, div_le_iff₀ hp]
      have : (((2 ^ S : Nat) : ℚ) * 2)⁻¹ * ((2 ^ S : Nat) : ℚ) = 1 / 2 := by
        field_simp
      rw [this]; exact hne
    · positivity
  · simp only [hs, if_false]
    obtain ⟨T, hT⟩ : ∃ T : Nat, (T : ℤ) = -(52 - e) :=
      ⟨(-(52 - e)).toNat, Int.toNat_of_nonneg (by omega)⟩
    have hT2 : (-(52 - e)).toNat = T := by omega
    rw [hT2]
    have hne := nearest_error n (d * 2 ^ T) (by positivity)
    refine ⟨_, ?_, ?_, rfl⟩
    · have hp : (0 : ℚ) < ((2 ^ T : Nat) : ℚ) := by positivity
      have he : e - 53 = (T : ℤ) - 1 := by omega
      rw [he, zpow_sub₀ (by norm_num), zpow_natCast, zpow_one]
      have hx : (n : ℚ) / ((d * 2 ^ T : Nat) : ℚ) = q / ((2 ^ T : Nat) : ℚ) := by
        rw [← hqeq]; push_cast; field_simp
      rw [hx] at hne
      set m : ℚ := (((if 2 * (n % (d * 2 ^ T)) < d * 2 ^ T then n / (d * 2 ^ T)
        else if d * 2 ^ T < 2 * (n % (d * 2 ^ T)) then n / (d * 2 ^ T) + 1
        else if (n / (d * 2 ^ T)) % 2 = 0 then n / (d * 2 ^ T)
        else n / (d * 2 ^ T) + 1 : Nat)) : ℚ) with hm
      rw [Nat.cast_mul, ← hm]
      have : m * ((2 ^ T : Nat) : ℚ) - q
          = (m - q / ((2 ^ T : Nat) : ℚ)) * ((2 ^ T : Nat) : ℚ) := by
        field_simp
      rw [this, abs_mul, abs_of_pos hp]
      have h2 : (2 : ℚ) ^ T / 2 = 1 / 2 * ((2 ^ T : Nat) : ℚ) := by push_cast; ring
      rw [h2]
      exact mul_le_mul_of_nonneg_right hne (le_of_lt hp)
    · positivity

end Double

namespace Double

theorem floorLog2_le (n d : Nat) (hn : 0 < n) (hd : 0 < d) :
    (2 : ℚ) ^ floorLog2 n d * (d : ℚ) ≤ (n : ℚ) := by
  obtain ⟨hA, _⟩ := log2Fuel_spec n n hn (le_refl n)
  obtain ⟨_, hB⟩ := log2Fuel_spec d d hd (le_refl d)
  have hAq : (2 : ℚ) ^ (log2Fuel n n) ≤ (n : ℚ) := by exact_mod_cast hA
  have hBq : (d : ℚ) < (2 : ℚ) ^ (log2Fuel d d + 1) := by exact_mod_cast hB
  have hdq : (0 : ℚ) < (d : ℚ) := by exact_mod_cast hd
  have two : (2 : ℚ) ≠ 0 := by norm_num
  have hlow : (2 : ℚ) ^ ((log2Fuel n n : ℤ) - (log2Fuel d d : ℤ) - 1) * (d : ℚ) ≤ (n : ℚ) := by
    have hpos : (0 : ℚ) < (2 : ℚ) ^ ((log2Fuel n n : ℤ) - (log2Fuel d d : ℤ) - 1) := by
      positivity
    have h1 : (2 : ℚ) ^ ((log2Fuel n n : ℤ) - (log2Fuel d d : ℤ) - 1)
        * (2 : ℚ) ^ (log2Fuel d d + 1) = (2 : ℚ) ^ (log2Fuel n n) := by
      rw [← zpow_natCast, ← zpow_natCast, ← zpow_add₀ two]
      congr 1
      push_cast
      ring
    calc (2 : ℚ) ^ ((log2Fuel n n : ℤ) - (log2Fuel d d : ℤ) - 1) * (d : ℚ)
        ≤ (2 : ℚ) ^ ((log2Fuel n n : ℤ) - (log2Fuel d d : ℤ) - 1)
          * (2 : ℚ) ^ (log2Fuel d d + 1) := by
          exact mul_le_mul_of_nonneg_left (le_of_lt hBq) (le_of_lt hpos)
      _ = (2 : ℚ) ^ (log2Fuel n n) := h1
      _ ≤ (n : ℚ) := hAq
  unfold floorLog2
  simp only []
  generalize (log2Fuel n n : ℤ) - (log2Fuel d d : ℤ) = k at hlow ⊢
  by_cases hk : 0 ≤ k
  · simp only [hk, if_true]
    by_cases ht : n < d * 2 ^ k.toNat
    · simp only [ht, if_true]; exact hlow
    · simp only [ht, if_false]
      have h1 : d * 2 ^ k.toNat ≤ n := by omega
      have h2 : (d : ℚ) * (2 : ℚ) ^ k.toNat ≤ (n : ℚ) := by exact_mod_cast h1
      have h3 : (2 : ℚ) ^ k = (2 : ℚ) ^ k.toNat := by
        rw [← zpow_natCast, Int.toNat_of_nonneg hk]
      rw [h3]; linarith
  · simp only [hk, if_false]
    by_cases ht : n * 2 ^ (-k).toNat < d
    · simp only [ht, if_true]; exact hlow
    · simp only [ht, if_false]
      have h1 : d ≤ n * 2 ^ (-k).toNat := by omega
      have h2 : (d : ℚ) ≤ (n : ℚ) * (2 : ℚ) ^ (-k).toNat := by exact_mod_cast h1
      have hk2 : ((-k).toNat : ℤ) = -k := Int.toNat_of_nonneg (by omega)
      have h3 : (2 : ℚ) ^ k = ((2 : ℚ) ^ (-k).toNat)⁻¹ := by
        rw [← zpow_natCast, hk2, zpow_neg, inv_inv]
      have hp : (0 : ℚ) < (2 : ℚ) ^ (-k).toNat := by positivity
      rw [h3, inv_mul_le_iff₀ hp]
      linarith

/-- For a rational in the normal range the rounding error is relative: at most
`2^-53` times the value. -/
theorem round_normal (q : ℚ) (hq : (2 : ℚ) ^ (-1022 : ℤ) ≤ q) :
    ∃ v : ℚ, |v - q| ≤ q / 2 ^ 53 ∧ 0 ≤ v ∧
      round q = if (2 : ℚ) ^ 1024 ≤ v then posInf else finite v := by
  have hq0 : 0 < q := lt_of_lt_of_le (by positivity) hq
  obtain ⟨v, hv, hv0, hr⟩ := round_pos q hq0
  refine ⟨v, le_trans hv ?_, hv0, hr⟩
  have hnum : 0 < q.num := Rat.num_pos.mpr hq0
  have hn : 0 < q.num.natAbs := Int.natAbs_pos.mpr (ne_of_gt hnum)
  have hqeq : ((q.num.natAbs : Nat) : ℚ) / ((q.den : Nat) : ℚ) = q := by
    have h1 : ((q.num.natAbs : Nat) : ℤ) = q.num := Int.natAbs_of_nonneg (le_of_lt hnum)
    have h2 : ((q.num.natAbs : Nat) : ℚ) = (q.num : ℚ) := by
      rw [← Int.cast_natCast, h1]
    rw [h2]; exact Rat.num_div_den q
  have hdq : (0 : ℚ) < (q.den : ℚ) := by exact_mod_cast q.den_pos
  have hfl : (2 : ℚ) ^ floorLog2 q.num.natAbs q.den ≤ q := by
    have := floorLog2_le q.num.natAbs q.den hn q.den_pos
    calc (2 : ℚ) ^ floorLog2 q.num.natAbs q.den
        ≤ ((q.num.natAbs : Nat) : ℚ) / ((q.den : Nat) : ℚ) := by
          rw [le_div_iff₀ hdq]; exact this
      _ = q := hqeq
  have hE : (2 : ℚ) ^ max (floorLog2 q.num.natAbs q.den) (-1022) ≤ q := by
    rcases le_total (floorLog2 q.num.natAbs q.den) (-1022) with h | h
    · rw [max_eq_right h]; exact hq
    · rw [max_eq_left h]; exact hfl
  rw [zpow_sub₀ (by norm_num)]
  have : (2 : ℚ) ^ (53 : ℤ) = 2 ^ 53 := by norm_num
  rw [this]
  exact div_le_div_of_nonneg_right hE (by positivity)

end Double

namespace Double

/-- A count below `2^53` converts to `double` exactly. -/
theorem natCast_exact (n : Nat) (h1 : 1 ≤ n) (h2 : n < 2 ^ 53) :
    ((n : Nat) : Double) = finite (n : ℚ) := by
  show round (n : ℚ) = finite (n : ℚ)
  obtain ⟨hA, _⟩ := log2Fuel_spec n n h1 (le_refl n)
  have ha : log2Fuel n n ≤ 52 := by
    by_contra h
    have h53 : 53 ≤ log2Fuel n n := by omega
    have : 2 ^ 53 ≤ 2 ^ log2Fuel n n := Nat.pow_le_pow_right (by norm_num) h53
    omega
  have hfl : floorLog2 n 1 = (log2Fuel n n : ℤ) := by
    unfold floorLog2
    have h11 : log2Fuel 1 1 = 0 := by decide
    simp only [h11]
    have hk : (0 : ℤ) ≤ (log2Fuel n n : ℤ) - ((0 : Nat) : ℤ) := by simp
    have hk2 : ((log2Fuel n n : ℤ) - ((0 : Nat) : ℤ)).toNat = log2Fuel n n := by simp
    rw [if_pos hk, hk2]
    have : ¬ n < 1 * 2 ^ log2Fuel n n := by omega
    rw [if_neg this]; simp
  unfold round
  have hnum : ((n : ℚ)).num = (n : ℤ) := Rat.num_natCast n
  have hden : ((n : ℚ)).den = 1 := Rat.den_natCast n
  have hn0 : ((n : ℤ)) ≠ 0 := by omega
  have hnpos : (0 : ℤ) < (n : ℤ) := by omega
  rw [hnum, hden]
  simp only [hn0, if_false, Int.natAbs_ofNat, hfl, hnpos, if_true]
  have hmax : max (log2Fuel n n : ℤ) (-1022) = (log2Fuel n n : ℤ) := by
    apply max_eq_left; omega
  rw [hmax]
  have hs : (0 : ℤ) ≤ 52 - (log2Fuel n n : ℤ) := by omega
  simp only [hs, if_true, Nat.div_one, Nat.mod_one, Nat.mul_zero, Nat.zero_lt_one]
  have hp : ((2 ^ (52 - (log2Fuel n n : ℤ)).toNat : Nat) : ℚ) ≠ 0 := by positivity
  have hv : ((n * 2 ^ (52 - (log2Fuel n n : ℤ)).toNat : Nat) : ℚ)
      / ((2 ^ (52 - (log2Fuel n n : ℤ)).toNat : Nat) : ℚ) = (n : ℚ) := by
    rw [Nat.cast_mul]; field_simp
  rw [hv]
  have hlt : ¬ (2 : ℚ) ^ 1024 ≤ (n : ℚ) := by
    have h3 : (n : ℚ) < 2 ^ 53 := by exact_mod_cast h2
    have h4 : (2 : ℚ) ^ 53 ≤ 2 ^ 1024 := by norm_num
    linarith
  rw [if_neg hlt]

end Double

namespace Double

/-- In the normal range and below the overflow threshold, `round` returns a finite value
within the relative error `2^-53`. -/
theorem round_rel (q : ℚ) (hq : (2 : ℚ) ^ (-1022 : ℤ) ≤ q)
    (hfin : q * (1 + 1 / 2 ^ 53) < 2 ^ 1024) :
    ∃ v : ℚ, round q = finite v ∧ q * (1 - 1 / 2 ^ 53) ≤ v ∧ v ≤ q * (1 + 1 / 2 ^ 53) := by
  obtain ⟨v, hv, _, hr⟩ := round_normal q hq
  rw [abs_le] at hv
  generalize (2 : ℚ) ^ 1024 = big at hfin hr
  generalize (2 : ℚ) ^ 53 = w at hfin hv ⊢
  have hup : v ≤ q * (1 + 1 / w) := by
    have := hv.2
    have e : q * (1 + 1 / w) = q + q / w := by ring
    rw [e]; linarith
  have hdn : q * (1 - 1 / w) ≤ v := by
    have := hv.1
    have e : q * (1 - 1 / w) = q - q / w := by ring
    rw [e]; linarith
  refine ⟨v, ?_, hdn, hup⟩
  rw [hr, if_neg]
  intro h
  linarith

/-- Rounding a non-negative rational gives a non-negative double or `+inf`. -/
theorem round_nonneg (q : ℚ) (hq : 0 ≤ q) :
    round q = posInf ∨ ∃ v : ℚ, round q = finite v ∧ 0 ≤ v := by
  rcases eq_or_lt_of_le hq with h | h
  · right
    refine ⟨0, ?_, le_refl 0⟩
    rw [← h]; rfl
  · obtain ⟨v, _, hv0, hr⟩ := round_pos q h
    by_cases hc : (2 : ℚ) ^ 1024 ≤ v
    · left; rw [hr, if_pos hc]
    · right; exact ⟨v, by rw [hr, if_neg hc], hv0⟩

theorem zero_literal : (0.0 : Double) = finite 0 := by decide!

theorem div_count (x : ℚ) (n : Nat) (h1 : 1 ≤ n) (h2 : n < 2 ^ 53) :
    (finite x : Double) / ((n : Nat) : Double) = round (x / (n : ℚ)) := by
  rw [natCast_exact n h1 h2]
  show div (finite x) (finite (n : ℚ)) = _
  have hn : (n : ℚ) ≠ 0 := by
    have : (0 : ℚ) < (n : ℚ) := by exact_mod_cast h1
    exact ne_of_gt this
  simp only [div, hn, if_false]

theorem add_finite (a b : ℚ) : (finite a : Double) + finite b = round (a + b) := rfl

end Double

/-- The accumulation of the inner loop under any arithmetic whose operations have
relative error at most `u` between `tiny` and `big`. -/
theorem neighbourLoopOver_bounds_of_relative_error (u tiny big : ℚ) (hu0 : 0 < u)
    (hu1 : u ≤ 1 / 2) (htiny : 0 < tiny)
    (hround : ∀ q : ℚ, tiny ≤ q → q * (1 + u) < big →
      ∃ v : ℚ, Double.round q = Double.finite v ∧ q * (1 - u) ≤ v ∧ v ≤ q * (1 + u))
    (n : Nat) (h1 : 1 ≤ n)
    (hdiv : ∀ x : ℚ, (Double.finite x : Double) / ((n : Nat) : Double)
      = Double.round (x / (n : ℚ)))
    (lo hi : ℚ) (hlo : (n : ℚ) * (2 * tiny) ≤ lo)
    (hfin : hi * (1 + u) ^ (n + 1) < big) :
    ∀ (l : List ℚ) (k : Nat) (a : ℚ), k + l.length ≤ n →
      (∀ x ∈ l, lo ≤ x ∧ x ≤ hi) →
      (k : ℚ) * (lo / n * (1 - u)) * (1 - u) ^ k ≤ a →
      a ≤ (k : ℚ) * (hi / n * (1 + u)) * (1 + u) ^ k →
      ∃ r : ℚ, MyDeltaNotchTrackingModifier.neighbourLoopOver n (l.map Double.finite) (Double.finite a) = Double.finite r ∧
        ((k + l.length : Nat) : ℚ) * (lo / n * (1 - u)) * (1 - u) ^ (k + l.length) ≤ r ∧
        r ≤ ((k + l.length : Nat) : ℚ) * (hi / n * (1 + u)) * (1 + u) ^ (k + l.length) := by
  have hnq : (0 : ℚ) < (n : ℚ) := by exact_mod_cast h1
  have hm0 : (0 : ℚ) < 1 - u := by linarith
  have hmh : (1 : ℚ) / 2 ≤ 1 - u := by linarith
  have hm1 : (1 : ℚ) - u ≤ 1 := by linarith
  have hp1 : (1 : ℚ) ≤ 1 + u := by linarith
  have hp0 : (0 : ℚ) < 1 + u := by linarith
  have hlo0 : (0 : ℚ) < lo := lt_of_lt_of_le (by positivity) hlo
  have hlon : 2 * tiny ≤ lo / n := by
    rw [le_div_iff₀ hnq]; linarith
  have htl : tiny ≤ lo / n * (1 - u) := by
    have : 2 * tiny * (1 / 2) ≤ lo / n * (1 - u) :=
      mul_le_mul hlon hmh (by norm_num) (le_trans (by positivity) hlon)
    linarith
  have htl0 : (0 : ℚ) < lo / n * (1 - u) := lt_of_lt_of_le htiny htl
  intro l
  induction l with
  | nil =>
    intro k a _ _ ha1 ha2
    exact ⟨a, rfl, by simpa using ha1, by simpa using ha2⟩
  | cons x rest ih =>
    intro k a hk hx ha1 ha2
    simp only [List.length_cons] at hk
    obtain ⟨hx1, hx2⟩ := hx x (List.mem_cons_self x rest)
    have hlohi : lo ≤ hi := le_trans hx1 hx2
    have hhi0 : 0 ≤ hi := le_trans (le_of_lt hlo0) hlohi
    have hth0 : (0 : ℚ) ≤ hi / n * (1 + u) := by positivity
    -- every partial bound stays below the overflow threshold
    have hmono : ∀ j : Nat, 1 ≤ j → j ≤ n →
        (j : ℚ) * (hi / n * (1 + u)) * (1 + u) ^ j < big := by
      intro j hj1 hj
      have e : hi * (1 + u) ^ (n + 1) = (n : ℚ) * (hi / n * (1 + u)) * (1 + u) ^ n := by
        rw [pow_succ]; field_simp; ring
      rw [e] at hfin
      refine lt_of_le_of_lt ?_ hfin
      have hjn : (j : ℚ) ≤ (n : ℚ) := by exact_mod_cast hj
      have hp : (1 + u) ^ j ≤ (1 + u) ^ n := pow_le_pow_right₀ hp1 hj
      have hjq : (0 : ℚ) ≤ (j : ℚ) := by positivity
      apply mul_le_mul _ hp (by positivity) (by positivity)
      exact mul_le_mul_of_nonneg_right hjn hth0
    -- the division
    have hdivlo : tiny ≤ x / n := by
      have : lo / n ≤ x / n := div_le_div_of_nonneg_right hx1 (le_of_lt hnq)
      linarith
    have hxn : x / n ≤ hi / n := div_le_div_of_nonneg_right hx2 (le_of_lt hnq)
    have hdivfin : x / n * (1 + u) < big := by
      have h := hmono 1 (le_refl 1) h1
      have h3 : hi / n * (1 + u) ≤ ((1 : Nat) : ℚ) * (hi / n * (1 + u)) * (1 + u) ^ 1 := by
        rw [pow_one, Nat.cast_one, one_mul]
        nth_rewrite 1 [← mul_one (hi / n * (1 + u))]
        exact mul_le_mul_of_nonneg_left hp1 hth0
      have h4 : x / n * (1 + u) ≤ hi / n * (1 + u) :=
        mul_le_mul_of_nonneg_right hxn (le_of_lt hp0)
      linarith
    obtain ⟨t, ht, ht1, ht2⟩ := hround (x / n) hdivlo hdivfin
    have htlo : lo / n * (1 - u) ≤ t :=
      le_trans (mul_le_mul_of_nonneg_right
        (div_le_div_of_nonneg_right hx1 (le_of_lt hnq)) (le_of_lt hm0)) ht1
    have hthi : t ≤ hi / n * (1 + u) :=
      le_trans ht2 (mul_le_mul_of_nonneg_right hxn (le_of_lt hp0))
    -- the addition
    have hk0 : (0 : ℚ) ≤ (k : ℚ) := by positivity
    have hpl1 : (1 - u) ^ k ≤ 1 := pow_le_one₀ (le_of_lt hm0) hm1
    have hpl0 : (0 : ℚ) < (1 - u) ^ k := by positivity
    have hph1 : (1 : ℚ) ≤ (1 + u) ^ k := one_le_pow₀ hp1
    have ha0 : 0 ≤ a := le_trans (by positivity) ha1
    have hsumlo : ((k + 1 : Nat) : ℚ) * (lo / n * (1 - u)) * (1 - u) ^ k ≤ a + t := by
      have h5 : (lo / n * (1 - u)) * (1 - u) ^ k ≤ lo / n * (1 - u) := by
        nth_rewrite 2 [← mul_one (lo / n * (1 - u))]
        exact mul_le_mul_of_nonneg_left hpl1 (le_of_lt htl0)
      have e : ((k + 1 : Nat) : ℚ) * (lo / n * (1 - u)) * (1 - u) ^ k
          = (k : ℚ) * (lo / n * (1 - u)) * (1 - u) ^ k + (lo / n * (1 - u)) * (1 - u) ^ k := by
        push_cast; ring
      rw [e]; linarith
    have hsumhi : a + t ≤ ((k + 1 : Nat) : ℚ) * (hi / n * (1 + u)) * (1 + u) ^ k := by
      have h5 : hi / n * (1 + u) ≤ (hi / n * (1 + u)) * (1 + u) ^ k := by
        nth_rewrite 1 [← mul_one (hi / n * (1 + u))]
        exact mul_le_mul_of_nonneg_left hph1 hth0
      have e : ((k + 1 : Nat) : ℚ) * (hi / n * (1 + u)) * (1 + u) ^ k
          = (k : ℚ) * (hi / n * (1 + u)) * (1 + u) ^ k + (hi / n * (1 + u)) * (1 + u) ^ k := by
        push_cast; ring
      rw [e]; linarith
    have hsumtiny : tiny ≤ a + t := by linarith
    have hsumfin : (a + t) * (1 + u) < big := by
      have h := hmono (k + 1) (by omega) (by omega)
      have h6 : (a + t) * (1 + u)
          ≤ ((k + 1 : Nat) : ℚ) * (hi / n * (1 + u)) * (1 + u) ^ (k + 1) := by
        rw [pow_succ, ← mul_assoc]
        exact mul_le_mul_of_nonneg_right hsumhi (le_of_lt hp0)
      linarith
    obtain ⟨s, hs, hs1, hs2⟩ := hround (a + t) hsumtiny hsumfin
    have hnext1 : ((k + 1 : Nat) : ℚ) * (lo / n * (1 - u)) * (1 - u) ^ (k + 1) ≤ s := by
      rw [pow_succ, ← mul_assoc]
      exact le_trans (mul_le_mul_of_nonneg_right hsumlo (le_of_lt hm0)) hs1
    have hnext2 : s ≤ ((k + 1 : Nat) : ℚ) * (hi / n * (1 + u)) * (1 + u) ^ (k + 1) := by
      rw [pow_succ, ← mul_assoc]
      exact le_trans hs2 (mul_le_mul_of_nonneg_right hsumhi (le_of_lt hp0))
    obtain ⟨r, hr, hr1, hr2⟩ := ih (k + 1) s (by omega)
      (fun y hy => hx y (List.mem_cons_of_mem x hy)) hnext1 hnext2
    refine ⟨r, ?_, ?_, ?_⟩
    · simp only [List.map_cons, MyDeltaNotchTrackingModifier.neighbourLoopOver]
      rw [hdiv x, ht, Double.add_finite, hs]
      exact hr
    · have e : k + (x :: rest).length = k + 1 + rest.length := by
        simp only [List.length_cons]; omega
      rw [e]; exact hr1
    · have e : k + (x :: rest).length = k + 1 + rest.length := by
        simp only [List.length_cons]; omega
      rw [e]; exact hr2

/-- In `double` the accumulated mean of `n` values between `lo` and `hi`, all in the
normal range and far from overflow, is finite and within the relative error
`(1 ± 2^-53)^(n+1)` of the interval. -/
theorem neighbourLoopOver_Double_bounds (l : List ℚ) (lo hi : ℚ) (hne : l ≠ [])
    (hlen : l.length < 2 ^ 53) (hlo : (l.length : ℚ) / 2 ^ 1021 ≤ lo)
    (hx : ∀ x ∈ l, lo ≤ x ∧ x ≤ hi)
    (hfin : hi * (1 + 1 / 2 ^ 53) ^ (l.length + 1) < 2 ^ 1024) :
    ∃ r : ℚ, MyDeltaNotchTrackingModifier.neighbourLoopOver l.length (l.map Double.finite) (0.0 : Double)
        = Double.finite r ∧
      lo * (1 - 1 / 2 ^ 53) ^ (l.length + 1) ≤ r ∧
      r ≤ hi * (1 + 1 / 2 ^ 53) ^ (l.length + 1) := by
  have h1 : 1 ≤ l.length := by
    cases l with
    | nil => exact absurd rfl hne
    | cons a as => simp
  have hnq : (0 : ℚ) < (l.length : ℚ) := by exact_mod_cast h1
  have hlo2 : (l.length : ℚ) * (2 * (2 : ℚ) ^ (-1022 : ℤ)) ≤ lo := by
    have e : (l.length : ℚ) * (2 * (2 : ℚ) ^ (-1022 : ℤ)) = (l.length : ℚ) / 2 ^ 1021 := by
      have e1 : (-1022 : ℤ) = -(((1021 : Nat) : ℤ) + 1) := by norm_num
      have hw : (2 : ℚ) ^ 1021 ≠ 0 := by positivity
      rw [e1, zpow_neg, zpow_add_one₀ (by norm_num), zpow_natCast]
      generalize (2 : ℚ) ^ 1021 = w at hw
      field_simp; ring
    rw [e]; exact hlo
  have hu0 : (0 : ℚ) < 1 / 2 ^ 53 := by positivity
  have hu1 : (1 : ℚ) / 2 ^ 53 ≤ 1 / 2 := by
    apply div_le_div_of_nonneg_left (by norm_num) (by norm_num)
    exact le_self_pow₀ (by norm_num) (by norm_num)
  obtain ⟨r, hr, hr1, hr2⟩ := neighbourLoopOver_bounds_of_relative_error (1 / 2 ^ 53)
    ((2 : ℚ) ^ (-1022 : ℤ)) (2 ^ 1024) hu0 hu1 (by positivity) Double.round_rel l.length h1
    (fun x => Double.div_count x l.length h1 hlen) lo hi hlo2 hfin l 0 0 (by omega) hx
    (by simp) (by simp)
  have hn0 : (l.length : ℚ) ≠ 0 := ne_of_gt hnq
  refine ⟨r, ?_, ?_, ?_⟩
  · rw [Double.zero_literal]; exact hr
  · refine le_trans (le_of_eq ?_) hr1
    generalize (1 : ℚ) / 2 ^ 53 = u
    rw [Nat.zero_add, pow_succ]; field_simp; ring
  · refine le_trans hr2 (le_of_eq ?_)
    generalize (1 : ℚ) / 2 ^ 53 = u
    rw [Nat.zero_add, pow_succ]; field_simp; ring

/-- In `double` the accumulated mean of non-negative values is a non-negative double or
`+inf`, for every starting value that is one. -/
theorem neighbourLoopOver_Double_nonneg (n : Nat) (h1 : 1 ≤ n) (h2 : n < 2 ^ 53) :
    ∀ (l : List ℚ) (acc : Double), (∀ x ∈ l, 0 ≤ x) →
      (acc = Double.posInf ∨ ∃ a : ℚ, acc = Double.finite a ∧ 0 ≤ a) →
      (MyDeltaNotchTrackingModifier.neighbourLoopOver n (l.map Double.finite) acc = Double.posInf ∨
        ∃ r : ℚ, MyDeltaNotchTrackingModifier.neighbourLoopOver n (l.map Double.finite) acc = Double.finite r ∧ 0 ≤ r) := by
  intro l
  induction l with
  | nil => intro acc _ h; exact h
  | cons x rest ih =>
    intro acc hx hacc
    simp only [List.map_cons, MyDeltaNotchTrackingModifier.neighbourLoopOver]
    apply ih _ (fun y hy => hx y (List.mem_cons_of_mem x hy))
    rw [Double.div_count x n h1 h2]
    have hxn : 0 ≤ x / (n : ℚ) := div_nonneg (hx x (List.mem_cons_self x rest)) (by positivity)
    rcases Double.round_nonneg (x / n) hxn with ht | ⟨t, ht, ht0⟩
    · rw [ht]
      rcases hacc with ha | ⟨a, ha, _⟩
      · left; rw [ha]; rfl
      · left; rw [ha]; rfl
    · rw [ht]
      rcases hacc with ha | ⟨a, ha, ha0⟩
      · left; rw [ha]; rfl
      · rw [ha, Double.add_finite]
        exact Double.round_nonneg (a + t) (add_nonneg ha0 ht0)

namespace Double

/-- A rational in the normal range rounds to a strictly positive double or to `+inf`. -/
theorem sign_round_of_normal (q : ℚ) (hq : (2 : ℚ) ^ (-1022 : ℤ) ≤ q) :
    sign (round q) = 1 := by
  have hq0 : 0 < q := lt_of_lt_of_le (by positivity) hq
  obtain ⟨v, hv, _, hr⟩ := round_normal q hq
  rw [hr]
  by_cases hc : (2 : ℚ) ^ 1024 ≤ v
  · rw [if_pos hc]; rfl
  · rw [if_neg hc]
    have hlt : q / 2 ^ 53 < q := by
      have h53 : (1 : ℚ) < 2 ^ 53 := one_lt_pow₀ (by norm_num) (by norm_num)
      exact div_lt_self hq0 h53
    have hv0 : 0 < v := by
      have := (abs_le.mp hv).1
      linarith
    have hnum : 0 < v.num := Rat.num_pos.mpr hv0
    simp only [sign, hnum, if_true]

theorem literal_values :
    (10.0 : Double) = finite 10 ∧ (14.0 : Double) = finite 14 ∧ (12 : Double) = finite 12 ∧
      (0.001 : Double) = finite (1152921504606847 / 1152921504606846976) := by
  decide!

/-- The sums `fb + y` and `c_8b + y` of the source are strictly positive doubles (or
`+inf`) for every non-negative `y`. -/
theorem sign_divisor (y : ℚ) (hy : 0 ≤ y) :
    sign ((10.0 : Double) + finite y) = 1 ∧ sign ((14.0 : Double) + finite y) = 1 := by
  have h1 : (2 : ℚ) ^ (-1022 : ℤ) ≤ 1 := by
    have := zpow_le_zpow_right₀ (by norm_num : (1 : ℚ) ≤ 2) (by norm_num : (-1022 : ℤ) ≤ 0)
    simpa using this
  rw [literal_values.1, literal_values.2.1, add_finite, add_finite]
  exact ⟨sign_round_of_normal _ (by linarith), sign_round_of_normal _ (by linarith)⟩

end Double

/-! ## Theorems -/

/-- C1: for every time, state vector `[Y0..Y5]` and parameter pair, the first five
derivative components written by `EvaluateYDerivatives` are
`r_1 - r_2 - r_3 - r_4 - r_6`, `r_3 + r_5 + r_7 - r_10`, `r_4 - r_5 - r_8 - r_11`,
`r_8 - r_9 - r_12` and `r_6 + r_7 + r_9 - r_13`, in the order of the state components. -/
theorem C1_EvaluateYDerivatives_notch_components
    (sv ic : List ℚ) (mean_delta x_distance t Y0 Y1 Y2 Y3 Y4 Y5 D0 D1 D2 D3 D4 D5 : ℚ) :
    (MyDeltaNotchOdeSystem.EvaluateYDerivatives ⟨sv, [mean_delta, x_distance], ic⟩ t
        [Y0, Y1, Y2, Y3, Y4, Y5] [D0, D1, D2, D3, D4, D5]).map (List.take 5)
      = .ok (
        let r_1 : ℚ := 14 * (2 - 10 / (10 + Y4))
        let r_2 : ℚ := 10 * Y0
        let r_3 : ℚ := (240 * 10 + 14) * Y0
        let r_4 : ℚ := (420 * 10 + 14) * Y0
        let r_5 : ℚ := 100 * 10 * (1 - 10 / (10 + Y5)) * Y2
        let r_6 : ℚ := 500 * mean_delta * Y0
        let r_7 : ℚ := 15 * Y1
        let r_8 : ℚ := 1.2 * Y2 + 14 * Y2 / (14 + Y2)
        let r_9 : ℚ := (108 * 10 + 14) * Y3
        let r_10 : ℚ := (250 * 10 + 14) * (1 - 10 / (10 + Y5)) * Y1
        let r_11 : ℚ := Y2
        let r_12 : ℚ := 70 * Y3
        let r_13 : ℚ := 0.06 * Y4
        [r_1 - r_2 - r_3 - r_4 - r_6, r_3 + r_5 + r_7 - r_10, r_4 - r_5 - r_8 - r_11,
          r_8 - r_9 - r_12, r_6 + r_7 + r_9 - r_13]) := by
  simp only [MyDeltaNotchOdeSystem.EvaluateYDerivatives, vecGet, vecSet, bind, Except.bind,
    pure, Except.pure, Except.map]
  norm_num

/-- C2: for every state vector and parameter pair, the Delta derivative written by
`EvaluateYDerivatives` is `beta_D - gamma*Y5 - r_6 - r_c` with
`beta_D = beta_N * x_distance * (1 - f/12) * fb_D / (fb_D + NICD)`, where `x_distance` is
the second parameter of the pair, the one named "x distance". -/
theorem C2_EvaluateYDerivatives_delta_component
    (sv ic : List ℚ) (mean_delta x_distance t Y0 Y1 Y2 Y3 Y4 Y5 D0 D1 D2 D3 D4 D5 : ℚ) :
    (MyDeltaNotchOdeSystem.EvaluateYDerivatives ⟨sv, [mean_delta, x_distance], ic⟩ t
        [Y0, Y1, Y2, Y3, Y4, Y5] [D0, D1, D2, D3, D4, D5]).bind (fun rDY => vecGet rDY 5)
      = .ok (
        let beta_N : ℚ := 10
        let f : ℚ := 5
        let fb_D : ℚ := 10
        let gamma : ℚ := 0.25
        let NICD : ℚ := Y4
        let r_6 : ℚ := 500 * mean_delta * Y0
        let r_c : ℚ := Y0 * Y5 / 0.001
        let beta_D : ℚ := beta_N * x_distance * (1 - f / 12) * fb_D / (fb_D + NICD)
        beta_D - gamma * Y5 - r_6 - r_c) ∧
    MyDeltaNotchOdeSystem.GetParameter ⟨sv, [mean_delta, x_distance], ic⟩ "x distance"
      = .ok x_distance := by
  refine ⟨?_, ?_⟩
  · simp only [MyDeltaNotchOdeSystem.EvaluateYDerivatives, vecGet, vecSet, bind, Except.bind,
      pure, Except.pure]
    norm_num
    ring
  · simp [MyDeltaNotchOdeSystem.GetParameter, MyDeltaNotchOdeSystem.GetParameterIndex,
      mParameterNames, vecGet, bind, Except.bind]

/-- C3: on a well-formed population `UpdateCellData` returns, and for every agent with a
non-empty neighbour set the item "mean delta" of its store is then the sum of the Delta
state variables of its neighbours' models divided by the number of neighbours. -/
theorem C3_mean_delta_is_neighbour_mean (pop : AbstractCellPopulation) (hw : pop.WellFormed)
    (δ : Nat → ℚ)
    (hδ : ∀ (j : Nat) (c : Cell), pop.mCells[j]? = some c → c.srnModel.GetDelta = .ok (δ j)) :
    ∃ pop', MyDeltaNotchTrackingModifier.UpdateCellData pop = .ok pop' ∧
      ∀ i, i < pop.mCells.length → pop.GetNeighbouringLocationIndices i ≠ [] →
        ∃ c', pop'.mCells[i]? = some c' ∧
          c'.cellData.GetItem "mean delta"
            = .ok (((pop.GetNeighbouringLocationIndices i).map δ).sum /
                ((pop.GetNeighbouringLocationIndices i).length : ℚ)) := by
  obtain ⟨pop', hrun, hget⟩ := updated_getElem? pop hw
  refine ⟨pop', hrun, ?_⟩
  intro i hi _
  refine ⟨updated pop i pop.mCells[i], ?_, ?_⟩
  · rw [hget, List.getElem?_eq_getElem hi]; rfl
  · have hmap : (pop.mNeighbouringLocationIndices i).map (modelDelta pop)
        = (pop.mNeighbouringLocationIndices i).map δ := by
      apply List.map_congr_left
      intro j hj
      exact modelDelta_eq_of_GetDelta pop δ hδ hw.1 j (hw.2 i hi j hj)
    simp [updated, CellData.GetItem, CellData.SetItem, neighbourMean, hmap,
      AbstractCellPopulation.GetNeighbouringLocationIndices]

/-- C3, witness: in `examplePopulation` the neighbours of agent 0 hold Delta 0.2, 0.4 and
0.6, and the mean stored for agent 0 is 0.4. -/
theorem C3_mean_delta_is_neighbour_mean_witness :
    examplePopulation.WellFormed ∧
    ∃ pop', MyDeltaNotchTrackingModifier.UpdateCellData examplePopulation = .ok pop' ∧
      ∃ c', pop'.mCells[0]? = some c' ∧ c'.cellData.GetItem "mean delta" = .ok 0.4 := by
  refine ⟨examplePopulation_wellFormed, ?_⟩
  obtain ⟨pop', hrun, h⟩ := C3_mean_delta_is_neighbour_mean examplePopulation
    examplePopulation_wellFormed exampleDelta exampleDelta_spec
  refine ⟨pop', hrun, ?_⟩
  obtain ⟨c', hc, hm⟩ := h 0 (by decide) (by decide)
  refine ⟨c', hc, ?_⟩
  rw [hm]
  simp only [AbstractCellPopulation.GetNeighbouringLocationIndices, examplePopulation]
  norm_num [exampleDelta]

/-- C4: on a well-formed population `UpdateCellData` returns, and for every agent whose
neighbour set is empty the item "mean delta" of its store is then exactly 0, whatever the
store held before. -/
theorem C4_isolated_agent_mean_delta_zero (pop : AbstractCellPopulation)
    (hw : pop.WellFormed) :
    ∃ pop', MyDeltaNotchTrackingModifier.UpdateCellData pop = .ok pop' ∧
      ∀ i, i < pop.mCells.length → pop.GetNeighbouringLocationIndices i = [] →
        ∃ c', pop'.mCells[i]? = some c' ∧ c'.cellData.GetItem "mean delta" = .ok 0 := by
  obtain ⟨pop', hrun, hget⟩ := updated_getElem? pop hw
  refine ⟨pop', hrun, ?_⟩
  intro i hi hn
  refine ⟨updated pop i pop.mCells[i], ?_, ?_⟩
  · rw [hget, List.getElem?_eq_getElem hi]; rfl
  · simp only [AbstractCellPopulation.GetNeighbouringLocationIndices] at hn
    simp [updated, CellData.GetItem, CellData.SetItem, neighbourMean, hn]

/-- C4, witness: agent 3 of `examplePopulation` is isolated and its store, which held 7
under every key, holds 0 under "mean delta" afterwards. -/
theorem C4_isolated_agent_mean_delta_zero_witness :
    examplePopulation.WellFormed ∧
    examplePopulation.GetNeighbouringLocationIndices 3 = [] ∧
    (∀ c ∈ examplePopulation.mCells, c.cellData.GetItem "mean delta" = .ok 7) ∧
    ∃ pop', MyDeltaNotchTrackingModifier.UpdateCellData examplePopulation = .ok pop' ∧
      ∃ c', pop'.mCells[3]? = some c' ∧ c'.cellData.GetItem "mean delta" = .ok 0 := by
  refine ⟨examplePopulation_wellFormed, rfl, ?_, ?_⟩
  · intro c hc
    simp only [examplePopulation, List.mem_cons, List.mem_singleton, List.not_mem_nil,
      or_false] at hc
    rcases hc with h | h | h | h <;> subst h <;> rfl
  · obtain ⟨pop', hrun, h⟩ := C4_isolated_agent_mean_delta_zero examplePopulation
      examplePopulation_wellFormed
    exact ⟨pop', hrun, h 3 (by decide) rfl⟩

/-- C5: two runs of `UpdateCellData` on populations with the same models and the same
neighbour relation, whatever their stores held before, both return and leave the same
"mean delta" in the store of every agent. -/
theorem C5_mean_delta_independent_of_prior_stores (pop₁ pop₂ : AbstractCellPopulation)
    (hw : pop₁.WellFormed)
    (hmodels : pop₁.mCells.map (fun c => c.srnModel) = pop₂.mCells.map (fun c => c.srnModel))
    (hnb : pop₁.mNeighbouringLocationIndices = pop₂.mNeighbouringLocationIndices) :
    ∃ p₁ p₂, MyDeltaNotchTrackingModifier.UpdateCellData pop₁ = .ok p₁ ∧
      MyDeltaNotchTrackingModifier.UpdateCellData pop₂ = .ok p₂ ∧
      ∀ i, i < pop₁.mCells.length →
        ∃ c₁ c₂ m, p₁.mCells[i]? = some c₁ ∧ p₂.mCells[i]? = some c₂ ∧
          c₁.cellData.GetItem "mean delta" = .ok m ∧
          c₂.cellData.GetItem "mean delta" = .ok m := by
  have hw₂ := wellFormed_congr pop₁ pop₂ hw hmodels hnb
  have hlen : pop₁.mCells.length = pop₂.mCells.length := by
    simpa using congrArg List.length hmodels
  obtain ⟨p₁, hrun₁, hget₁⟩ := updated_getElem? pop₁ hw
  obtain ⟨p₂, hrun₂, hget₂⟩ := updated_getElem? pop₂ hw₂
  refine ⟨p₁, p₂, hrun₁, hrun₂, ?_⟩
  intro i hi
  have hi₂ : i < pop₂.mCells.length := hlen ▸ hi
  refine ⟨updated pop₁ i pop₁.mCells[i], updated pop₂ i pop₂.mCells[i], neighbourMean pop₁ i,
    ?_, ?_, ?_, ?_⟩
  · rw [hget₁, List.getElem?_eq_getElem hi]; rfl
  · rw [hget₂, List.getElem?_eq_getElem hi₂]; rfl
  · simp [updated, CellData.GetItem, CellData.SetItem]
  · have hmean : neighbourMean pop₂ i = neighbourMean pop₁ i := by
      have hfun : modelDelta pop₂ = modelDelta pop₁ :=
        funext fun j => (modelDelta_congr pop₁ pop₂ hmodels j).symm
      simp only [neighbourMean, hfun, hnb]
    simp [updated, CellData.GetItem, CellData.SetItem, hmean]

/-- C5, witness: `examplePopulation` (every store full of stale items) and the same
population with empty stores end with the same "mean delta" for every agent. -/
theorem C5_mean_delta_independent_of_prior_stores_witness :
    examplePopulation.WellFormed ∧
    ∃ p₁ p₂, MyDeltaNotchTrackingModifier.UpdateCellData examplePopulation = .ok p₁ ∧
      MyDeltaNotchTrackingModifier.UpdateCellData examplePopulationEmptyStores = .ok p₂ ∧
      ∀ i, i < examplePopulation.mCells.length →
        ∃ c₁ c₂ m, p₁.mCells[i]? = some c₁ ∧ p₂.mCells[i]? = some c₂ ∧
          c₁.cellData.GetItem "mean delta" = .ok m ∧
          c₂.cellData.GetItem "mean delta" = .ok m :=
  ⟨examplePopulation_wellFormed,
    C5_mean_delta_independent_of_prior_stores examplePopulation examplePopulationEmptyStores
      examplePopulation_wellFormed rfl rfl⟩

/-- C6: on a well-formed population, visiting the agents in any permutation of the
iteration order, in the first loop, in the second loop or in both, returns the same
population (hence the same store for every agent) as `UpdateCellData`. -/
theorem C6_iteration_order_independent (pop : AbstractCellPopulation) (hw : pop.WellFormed)
    (firstOrder secondOrder : List Nat)
    (h₁ : firstOrder.Perm pop.Update.Iterator) (h₂ : secondOrder.Perm pop.Update.Iterator) :
    ∃ pop', MyDeltaNotchTrackingModifier.UpdateCellData pop = .ok pop' ∧
      MyDeltaNotchTrackingModifier.UpdateCellDataVisiting firstOrder secondOrder pop
        = .ok pop' := by
  refine ⟨_, UpdateCellData_eq pop hw, ?_⟩
  apply UpdateCellDataVisiting_eq pop hw
  · intro i
    rw [h₁.mem_iff]
    simp [AbstractCellPopulation.Iterator, AbstractCellPopulation.Update]
  · intro i
    rw [h₂.mem_iff]
    simp [AbstractCellPopulation.Iterator, AbstractCellPopulation.Update]

/-- C6, witness: `examplePopulation` visited as 2, 0, 3, 1 in the first loop and as
3, 2, 1, 0 in the second. -/
theorem C6_iteration_order_independent_witness :
    examplePopulation.WellFormed ∧
    ∃ pop', MyDeltaNotchTrackingModifier.UpdateCellData examplePopulation = .ok pop' ∧
      MyDeltaNotchTrackingModifier.UpdateCellDataVisiting [2, 0, 3, 1] [3, 2, 1, 0]
        examplePopulation = .ok pop' :=
  ⟨examplePopulation_wellFormed,
    C6_iteration_order_independent examplePopulation examplePopulation_wellFormed
      [2, 0, 3, 1] [3, 2, 1, 0] (by decide) (by decide)⟩

/-- C7: on a well-formed population `UpdateCellData` returns, and for every agent whose
model state is `[Y0, .., Y5]` the item "total notch" of its store is then
`Y0 + Y1 + Y2 + Y3 + Y4`; Delta (`Y5`) is left out. -/
theorem C7_total_notch_is_sum (pop : AbstractCellPopulation) (hw : pop.WellFormed) :
    ∃ pop', MyDeltaNotchTrackingModifier.UpdateCellData pop = .ok pop' ∧
      ∀ (i : Nat) (c : Cell) (sys : MyDeltaNotchOdeSystem) (Y0 Y1 Y2 Y3 Y4 Y5 : ℚ),
        pop.mCells[i]? = some c → c.srnModel.mpOdeSystem = some sys →
        sys.mStateVariables = [Y0, Y1, Y2, Y3, Y4, Y5] →
        ∃ c', pop'.mCells[i]? = some c' ∧
          c'.cellData.GetItem "total notch" = .ok (Y0 + Y1 + Y2 + Y3 + Y4) := by
  obtain ⟨pop', hrun, hget⟩ := updated_getElem? pop hw
  refine ⟨pop', hrun, ?_⟩
  intro i c sys Y0 Y1 Y2 Y3 Y4 Y5 hc hs hY
  obtain ⟨h0, h1, h2, h3, h4, h5⟩ := stateD_of_state hs hY
  refine ⟨updated pop i c, ?_, ?_⟩
  · rw [hget, hc]; rfl
  · simp [updated, publishedData, CellData.GetItem, CellData.SetItem, h0, h1, h2, h3, h4]

/-- C7, witness: agent 0 of `examplePopulation` has state `[1, 2, 3, 4, 5, 6]`. -/
theorem C7_total_notch_is_sum_witness :
    examplePopulation.WellFormed ∧
    ∃ pop', MyDeltaNotchTrackingModifier.UpdateCellData examplePopulation = .ok pop' ∧
      ∃ c', pop'.mCells[0]? = some c' ∧
        c'.cellData.GetItem "total notch" = .ok (1 + 2 + 3 + 4 + 5) := by
  refine ⟨examplePopulation_wellFormed, ?_⟩
  obtain ⟨pop', hrun, h⟩ := C7_total_notch_is_sum examplePopulation
    examplePopulation_wellFormed
  exact ⟨pop', hrun, h 0 (exampleCell [1, 2, 3, 4, 5, 6] 7) ⟨[1, 2, 3, 4, 5, 6], [0.5],
    [1, 1, 1, 1, 1, 1]⟩ 1 2 3 4 5 6 rfl rfl rfl⟩

/-- C8: on a well-formed population `UpdateCellData` returns, and for every agent whose
model state is `[Y0, .., Y5]` each named accessor returns its state variable and the store
then holds `Y0` under "cell surface notch", `Y1` under "sudx dependent notch", `Y2` under
"dx dependent early endosome notch", `Y3` under "dx dependent late endosome notch", `Y4`
under "notch intracellular domain" and `Y5` under "delta". -/
theorem C8_store_holds_state_components (pop : AbstractCellPopulation)
    (hw : pop.WellFormed) :
    ∃ pop', MyDeltaNotchTrackingModifier.UpdateCellData pop = .ok pop' ∧
      ∀ (i : Nat) (c : Cell) (sys : MyDeltaNotchOdeSystem) (Y0 Y1 Y2 Y3 Y4 Y5 : ℚ),
        pop.mCells[i]? = some c → c.srnModel.mpOdeSystem = some sys →
        sys.mStateVariables = [Y0, Y1, Y2, Y3, Y4, Y5] →
        (c.srnModel.GetCellSurfaceNotch = .ok Y0 ∧
          c.srnModel.GetSudxDependentNotch = .ok Y1 ∧
          c.srnModel.GetDxDependentEarlyEndosomeNotch = .ok Y2 ∧
          c.srnModel.GetDxDependentLateEndosomeNotch = .ok Y3 ∧
          c.srnModel.GetNotchIntracellularDomain = .ok Y4 ∧
          c.srnModel.GetDelta = .ok Y5) ∧
        ∃ c', pop'.mCells[i]? = some c' ∧
          c'.cellData.GetItem "cell surface notch" = .ok Y0 ∧
          c'.cellData.GetItem "sudx dependent notch" = .ok Y1 ∧
          c'.cellData.GetItem "dx dependent early endosome notch" = .ok Y2 ∧
          c'.cellData.GetItem "dx dependent late endosome notch" = .ok Y3 ∧
          c'.cellData.GetItem "notch intracellular domain" = .ok Y4 ∧
          c'.cellData.GetItem "delta" = .ok Y5 := by
  obtain ⟨pop', hrun, hget⟩ := updated_getElem? pop hw
  refine ⟨pop', hrun, ?_⟩
  intro i c sys Y0 Y1 Y2 Y3 Y4 Y5 hc hs hY
  obtain ⟨h0, h1, h2, h3, h4, h5⟩ := stateD_of_state hs hY
  have hinit : c.Initialised := hw.1 c (List.getElem?_mem hc)
  have hread := readState_eq hinit
  rw [h0, h1, h2, h3, h4, h5] at hread
  refine ⟨hread, updated pop i c, ?_, ?_⟩
  · rw [hget, hc]; rfl
  · simp [updated, publishedData, CellData.GetItem, CellData.SetItem, h0, h1, h2, h3, h4, h5]

/-- C8, witness: the cells of `examplePopulation`. -/
theorem C8_store_holds_state_components_witness :
    examplePopulation.WellFormed ∧
    ∃ pop', MyDeltaNotchTrackingModifier.UpdateCellData examplePopulation = .ok pop' ∧
      ∃ c', pop'.mCells[0]? = some c' ∧
        c'.cellData.GetItem "cell surface notch" = .ok 1 ∧
        c'.cellData.GetItem "sudx dependent notch" = .ok 2 ∧
        c'.cellData.GetItem "dx dependent early endosome notch" = .ok 3 ∧
        c'.cellData.GetItem "dx dependent late endosome notch" = .ok 4 ∧
        c'.cellData.GetItem "notch intracellular domain" = .ok 5 ∧
        c'.cellData.GetItem "delta" = .ok 6 := by
  refine ⟨examplePopulation_wellFormed, ?_⟩
  obtain ⟨pop', hrun, h⟩ := C8_store_holds_state_components examplePopulation
    examplePopulation_wellFormed
  exact ⟨pop', hrun, (h 0 (exampleCell [1, 2, 3, 4, 5, 6] 7) ⟨[1, 2, 3, 4, 5, 6], [0.5],
    [1, 1, 1, 1, 1, 1]⟩ 1 2 3 4 5 6 rfl rfl rfl).2⟩

/-- C9: on a well-formed population `UpdateCellData` returns, and for every agent the item
"x distance" of its store is then the absolute value of the x-coordinate of its position
minus the x-coordinate of the population centroid, a non-negative number; the model
parameters and the previous store do not enter. -/
theorem C9_x_distance_is_abs_offset (pop : AbstractCellPopulation) (hw : pop.WellFormed) :
    ∃ pop', MyDeltaNotchTrackingModifier.UpdateCellData pop = .ok pop' ∧
      ∀ i, i < pop.mCells.length →
        ∃ c' x, pop'.mCells[i]? = some c' ∧ c'.cellData.GetItem "x distance" = .ok x ∧
          x = abs ((pop.Update.GetLocationOfCellCentre i).1
                - pop.Update.GetCentroidOfCellPopulation.1) ∧
          0 ≤ x := by
  obtain ⟨pop', hrun, hget⟩ := updated_getElem? pop hw
  refine ⟨pop', hrun, ?_⟩
  intro i hi
  refine ⟨updated pop i pop.mCells[i], _, ?_, ?_, rfl, abs_nonneg _⟩
  · rw [hget, List.getElem?_eq_getElem hi]; rfl
  · simp [updated, publishedData, CellData.GetItem, CellData.SetItem,
      AbstractCellPopulation.Update, AbstractCellPopulation.GetLocationOfCellCentre,
      AbstractCellPopulation.GetCentroidOfCellPopulation]

/-- C9, witness: agent 0 of `examplePopulation` sits at x = 0 and the centroid at
x = 1.5, so its "x distance" is 1.5. -/
theorem C9_x_distance_is_abs_offset_witness :
    examplePopulation.WellFormed ∧
    ∃ pop', MyDeltaNotchTrackingModifier.UpdateCellData examplePopulation = .ok pop' ∧
      ∃ c', pop'.mCells[0]? = some c' ∧ c'.cellData.GetItem "x distance" = .ok 1.5 := by
  refine ⟨examplePopulation_wellFormed, ?_⟩
  obtain ⟨pop', hrun, h⟩ := C9_x_distance_is_abs_offset examplePopulation
    examplePopulation_wellFormed
  obtain ⟨c', x, hc, hx, hval, _⟩ := h 0 (by decide)
  refine ⟨pop', hrun, c', hc, ?_⟩
  rw [hx, hval]
  simp only [AbstractCellPopulation.Update, AbstractCellPopulation.GetLocationOfCellCentre,
    AbstractCellPopulation.GetCentroidOfCellPopulation, examplePopulation]
  norm_num [abs_of_nonneg]

/-- C10, the code at a failing input: the model `Initialise()` builds has the one-element
parameter vector `[0.5]` the constructor pushed, and the coupling refresh on it, with a
store that defines "mean delta" and "x distance", stops at
`SetParameter("x distance", ..)`, which addresses element 1 of that vector. -/
theorem C10_refresh_on_initialised_model_fails :
    ∃ m sys, MyDeltaNotchSrnModel.Initialise ⟨none⟩ = .ok m ∧
      m.mpOdeSystem = some sys ∧
      sys.mStateVariables = [1, 1, 1, 1, 1, 1] ∧
      sys.mParameters = [0.5] ∧
      exampleStore.GetItem "mean delta" = .ok 0.4 ∧
      exampleStore.GetItem "x distance" = .ok 2 ∧
      m.UpdateDeltaNotch (some exampleStore) = .error .outOfBounds := by
  refine ⟨⟨some ⟨[1, 1, 1, 1, 1, 1], [0.5], [1, 1, 1, 1, 1, 1]⟩⟩,
    ⟨[1, 1, 1, 1, 1, 1], [0.5], [1, 1, 1, 1, 1, 1]⟩, ?_, rfl, rfl, rfl, ?_, ?_, ?_⟩
  · exact Initialise_eq
  · simp [exampleStore, CellData.GetItem, CellData.SetItem]
  · simp [exampleStore, CellData.GetItem, CellData.SetItem]
  · simp [MyDeltaNotchSrnModel.UpdateDeltaNotch, exampleStore, CellData.GetItem,
      CellData.SetItem, MyDeltaNotchOdeSystem.SetParameter,
      MyDeltaNotchOdeSystem.GetParameterIndex, mParameterNames, vecSet, bind, Except.bind,
      pure, Except.pure]

/-- C11, counterexample: the system constructed without an initial state has the parameter
vector `[0.5]`; its "mean delta" parameter is 0.5, not 1.0, and reading "x distance"
addresses an element outside the vector. -/
theorem C11_counterexample_default_parameters :
    MyDeltaNotchOdeSystem.construct [] = .ok ⟨[], [0.5], [1, 1, 1, 1, 1, 1]⟩ ∧
    MyDeltaNotchOdeSystem.GetParameter ⟨[], [0.5], [1, 1, 1, 1, 1, 1]⟩ "mean delta" = .ok 0.5 ∧
    MyDeltaNotchOdeSystem.GetParameter ⟨[], [0.5], [1, 1, 1, 1, 1, 1]⟩ "mean delta" ≠ .ok 1.0 ∧
    MyDeltaNotchOdeSystem.GetParameter ⟨[], [0.5], [1, 1, 1, 1, 1, 1]⟩ "x distance"
      = .error .outOfBounds := by
  refine ⟨construct_nil, ?_, ?_, ?_⟩
  · simp [MyDeltaNotchOdeSystem.GetParameter, MyDeltaNotchOdeSystem.GetParameterIndex,
      mParameterNames, vecGet, bind, Except.bind]
  · simp [MyDeltaNotchOdeSystem.GetParameter, MyDeltaNotchOdeSystem.GetParameterIndex,
      mParameterNames, vecGet, bind, Except.bind]
    norm_num
  · simp [MyDeltaNotchOdeSystem.GetParameter, MyDeltaNotchOdeSystem.GetParameterIndex,
      mParameterNames, vecGet, bind, Except.bind]

/-- C11, amended: the system constructed without an initial state has its "mean delta"
parameter defined and equal to 0.5 immediately after construction. -/
theorem C11_default_mean_delta_parameter :
    ∃ sys, MyDeltaNotchOdeSystem.construct [] = .ok sys ∧
      sys.GetParameter "mean delta" = .ok 0.5 := by
  refine ⟨_, construct_nil, ?_⟩
  simp [MyDeltaNotchOdeSystem.GetParameter, MyDeltaNotchOdeSystem.GetParameterIndex,
    mParameterNames, vecGet, bind, Except.bind]

/-- C12, counterexample: evaluated in `double` at the state with all six components 1.0
and the parameters 0, 0, `EvaluateYDerivatives` writes `-910220705494109/2^37`,
`5038761923289833/2^41`, `4529941260489275/2^40`, `-5109943639701367/2^42` and
`2438584849011835/2^41` in components 0 to 4; none of them is the exact-arithmetic value
`-72850/11`, `25205/11`, `679793/165`, `-17428/15`, `55447/50`. -/
theorem C12_counterexample_double_values :
    MyDeltaNotchOdeSystem.EvaluateYDerivativesOver (α := Double) [0.0, 0.0] 0.0
        [1.0, 1.0, 1.0, 1.0, 1.0, 1.0] [0.0, 0.0, 0.0, 0.0, 0.0, 0.0]
      = .ok [Double.finite (-910220705494109 / 2 ^ 37),
          Double.finite (5038761923289833 / 2 ^ 41),
          Double.finite (4529941260489275 / 2 ^ 40),
          Double.finite (-5109943639701367 / 2 ^ 42),
          Double.finite (2438584849011835 / 2 ^ 41),
          Double.finite (-4001 / 4)] ∧
    (-910220705494109 / 2 ^ 37 : ℚ) ≠ -72850 / 11 ∧
    (5038761923289833 / 2 ^ 41 : ℚ) ≠ 25205 / 11 ∧
    (4529941260489275 / 2 ^ 40 : ℚ) ≠ 679793 / 165 ∧
    (-5109943639701367 / 2 ^ 42 : ℚ) ≠ -17428 / 15 ∧
    (2438584849011835 / 2 ^ 41 : ℚ) ≠ 55447 / 50 := by
  refine ⟨?_, by norm_num, by norm_num, by norm_num, by norm_num, by norm_num⟩
  rw [EvaluateYDerivativesOver_Double_ones]
  norm_num

/-- C12, amended: for the state vector with all six components 1.0 and the parameters
`mean_delta = 0`, `x_distance = 0`, for every time, `EvaluateYDerivatives` gives in exact
arithmetic `-72850/11`, `25205/11`, `679793/165`, `-17428/15`, `55447/50` (1108.94) and
`-4001/4` (-1000.25); evaluated in `double` it writes finite values within `10^-12` of the
first five and exactly `-4001/4` in component 5. -/
theorem C12_golden_values_up_to_rounding (sv ic : List ℚ) (tq E0 E1 E2 E3 E4 E5 : ℚ)
    (t D0 D1 D2 D3 D4 D5 : Double) :
    MyDeltaNotchOdeSystem.EvaluateYDerivatives ⟨sv, [0, 0], ic⟩ tq
        [1.0, 1.0, 1.0, 1.0, 1.0, 1.0] [E0, E1, E2, E3, E4, E5]
      = .ok [-72850 / 11, 25205 / 11, 679793 / 165, -17428 / 15, 55447 / 50, -4001 / 4] ∧
    (55447 / 50 : ℚ) = 1108.94 ∧ (-4001 / 4 : ℚ) = -1000.25 ∧
    ∃ d0 d1 d2 d3 d4 : ℚ,
      MyDeltaNotchOdeSystem.EvaluateYDerivativesOver (α := Double) [0.0, 0.0] t
          [1.0, 1.0, 1.0, 1.0, 1.0, 1.0] [D0, D1, D2, D3, D4, D5]
        = .ok [Double.finite d0, Double.finite d1, Double.finite d2, Double.finite d3,
            Double.finite d4, Double.finite (-4001 / 4)] ∧
      |d0 - -72850 / 11| ≤ 1 / 10 ^ 12 ∧
      |d1 - 25205 / 11| ≤ 1 / 10 ^ 12 ∧
      |d2 - 679793 / 165| ≤ 1 / 10 ^ 12 ∧
      |d3 - -17428 / 15| ≤ 1 / 10 ^ 12 ∧
      |d4 - 55447 / 50| ≤ 1 / 10 ^ 12 := by
  refine ⟨?_, by norm_num, by norm_num, ?_⟩
  · simp only [MyDeltaNotchOdeSystem.EvaluateYDerivatives, vecGet, vecSet, bind, Except.bind,
      pure, Except.pure]
    norm_num
  · refine ⟨-910220705494109 / 137438953472, 5038761923289833 / 2199023255552,
      4529941260489275 / 1099511627776, -5109943639701367 / 4398046511104,
      2438584849011835 / 2199023255552, ?_, ?_, ?_, ?_, ?_, ?_⟩
    · rw [EvaluateYDerivativesOver_time_irrelevant _ t 0.0 _ _ _ _ _ _ D0 D1 D2 D3 D4 D5
        0.0 0.0 0.0 0.0 0.0 0.0]
      exact EvaluateYDerivativesOver_Double_ones
    all_goals rw [abs_le]; constructor <;> norm_num

/-- C14: for every model whose ODE system holds the state vector `[Y0, .., Y5]`,
`CreateSrnModel` returns a model whose ODE system holds exactly `[Y0, .., Y5]`. -/
theorem C14_clone_copies_state (p ic : List ℚ) (Y0 Y1 Y2 Y3 Y4 Y5 : ℚ) :
    ∃ clone sys, MyDeltaNotchSrnModel.CreateSrnModel ⟨some ⟨[Y0, Y1, Y2, Y3, Y4, Y5], p, ic⟩⟩
        = .ok clone ∧
      clone.mpOdeSystem = some sys ∧ sys.mStateVariables = [Y0, Y1, Y2, Y3, Y4, Y5] := by
  refine ⟨⟨some ⟨[Y0, Y1, Y2, Y3, Y4, Y5], [0.5], [1, 1, 1, 1, 1, 1]⟩⟩, _, ?_, rfl, rfl⟩
  simp [MyDeltaNotchSrnModel.CreateSrnModel, MyDeltaNotchSrnModel.copyConstruct,
    construct_six, bind, Except.bind, pure, Except.pure]

/-- C15: a model constructed with no initial state and then initialised holds the state
`[1.0, .., 1.0]`, and each of the six named accessors returns 1.0. -/
theorem C15_default_state_all_ones :
    ∃ m sys, MyDeltaNotchSrnModel.Initialise ⟨none⟩ = .ok m ∧
      m.mpOdeSystem = some sys ∧
      sys.mStateVariables = [1.0, 1.0, 1.0, 1.0, 1.0, 1.0] ∧
      m.GetCellSurfaceNotch = .ok 1.0 ∧
      m.GetSudxDependentNotch = .ok 1.0 ∧
      m.GetDxDependentEarlyEndosomeNotch = .ok 1.0 ∧
      m.GetDxDependentLateEndosomeNotch = .ok 1.0 ∧
      m.GetNotchIntracellularDomain = .ok 1.0 ∧
      m.GetDelta = .ok 1.0 := by
  have h1 : (1.0 : ℚ) = 1 := by norm_num
  refine ⟨_, _, Initialise_eq, rfl, ?_, ?_, ?_, ?_, ?_, ?_, ?_⟩ <;>
    simp [h1, MyDeltaNotchSrnModel.GetCellSurfaceNotch,
      MyDeltaNotchSrnModel.GetSudxDependentNotch,
      MyDeltaNotchSrnModel.GetDxDependentEarlyEndosomeNotch,
      MyDeltaNotchSrnModel.GetDxDependentLateEndosomeNotch,
      MyDeltaNotchSrnModel.GetNotchIntracellularDomain, MyDeltaNotchSrnModel.GetDelta, vecGet]

/-- C16: for every model, store, integrator and internal time, a second call of
`SimulateToCurrentTime` at the same current time leaves the state vector as the first call
left it; it leaves the whole object and the outcome of the call as they were. In
particular a call made when the internal time already equals the current time leaves the
state vector and the internal time as they were, whether the coupling refresh returns or
fails, and a call that returns leaves the internal time at the current time. Examples:
with an integrator that adds 1 to every state component, a model with two parameters in
the state `[1, 2, 3, 4, 5, 6]` at internal time 0 is taken to `[2, 3, 4, 5, 6, 7]` by a
first call at time 1 and left there by a second one; on the model built by `Initialise`
the refresh fails on "x distance" and the state vector stays `[1, 1, 1, 1, 1, 1]`. -/
theorem C16_second_call_leaves_state_unchanged
    (integrate : List ℚ → List ℚ → ℚ → ℚ → Except Failure (List ℚ)) (t : ℚ)
    (m : MyDeltaNotchSrnModel) (mpCell : Option CellData) :
    (∀ t₀ : ℚ,
      (MyDeltaNotchSrnModel.SimulateToCurrentTimeInPlace integrate t
          (MyDeltaNotchSrnModel.SimulateToCurrentTimeInPlace integrate t (m, t₀) mpCell).1
          mpCell).1.1.mpOdeSystem.map (fun sys => sys.mStateVariables)
        = (MyDeltaNotchSrnModel.SimulateToCurrentTimeInPlace integrate t (m, t₀)
            mpCell).1.1.mpOdeSystem.map (fun sys => sys.mStateVariables)) ∧
    (∀ t₀ : ℚ,
      MyDeltaNotchSrnModel.SimulateToCurrentTimeInPlace integrate t
          (MyDeltaNotchSrnModel.SimulateToCurrentTimeInPlace integrate t (m, t₀) mpCell).1
          mpCell
        = MyDeltaNotchSrnModel.SimulateToCurrentTimeInPlace integrate t (m, t₀) mpCell) ∧
    (MyDeltaNotchSrnModel.SimulateToCurrentTimeInPlace integrate t (m, t)
        mpCell).1.1.mpOdeSystem.map (fun sys => sys.mStateVariables)
      = m.mpOdeSystem.map (fun sys => sys.mStateVariables) ∧
    (MyDeltaNotchSrnModel.SimulateToCurrentTimeInPlace integrate t (m, t) mpCell).1.2 = t ∧
    (∀ (s s' : MyDeltaNotchSrnModel × ℚ) (c : Option CellData),
      MyDeltaNotchSrnModel.SimulateToCurrentTimeInPlace integrate t s c = (s', .ok ()) →
        s'.2 = t) ∧
    (∀ (t₀ : ℚ), MyDeltaNotchSrnModel.SimulateToCurrentTime
        (fun m' => (MyDeltaNotchSrnModel.returned
          (MyDeltaNotchSrnModel.AbstractOdeSrnModel_SimulateToCurrentTime integrate t
            (m', t₀))).map Prod.fst) m mpCell
      = (MyDeltaNotchSrnModel.returned
          (MyDeltaNotchSrnModel.SimulateToCurrentTimeInPlace integrate t (m, t₀)
            mpCell)).map Prod.fst) ∧
    MyDeltaNotchSrnModel.SimulateToCurrentTimeInPlace
        (fun Y _ _ _ => .ok (Y.map (fun y => y + 1))) 1 (exampleParent, 0) (some exampleStore)
      = ((⟨some ⟨[2, 3, 4, 5, 6, 7], [0.4, 2], [1, 1, 1, 1, 1, 1]⟩⟩, 1), .ok ()) ∧
    MyDeltaNotchSrnModel.SimulateToCurrentTimeInPlace
        (fun Y _ _ _ => .ok (Y.map (fun y => y + 1))) 1
        (⟨some ⟨[2, 3, 4, 5, 6, 7], [0.4, 2], [1, 1, 1, 1, 1, 1]⟩⟩, 1) (some exampleStore)
      = ((⟨some ⟨[2, 3, 4, 5, 6, 7], [0.4, 2], [1, 1, 1, 1, 1, 1]⟩⟩, 1), .ok ()) ∧
    MyDeltaNotchSrnModel.SimulateToCurrentTimeInPlace
        (fun Y _ _ _ => .ok (Y.map (fun y => y + 1))) 1 (initialisedModel, 0)
        (some exampleStore)
      = ((⟨some ⟨[1, 1, 1, 1, 1, 1], [0.4], [1, 1, 1, 1, 1, 1]⟩⟩, 0),
          .error .outOfBounds) := by
  have hstate := UpdateDeltaNotchInPlace_state m mpCell
  have hmd : exampleStore.GetItem "mean delta" = .ok 0.4 := by
    simp [exampleStore, CellData.GetItem, CellData.SetItem]
  have hxd : exampleStore.GetItem "x distance" = .ok 2 := by
    simp [exampleStore, CellData.GetItem, CellData.SetItem]
  refine ⟨fun t₀ => by rw [SimulateToCurrentTimeInPlace_twice],
    fun t₀ => SimulateToCurrentTimeInPlace_twice integrate t (m, t₀) mpCell, ?_, ?_, ?_, ?_,
    ?_, ?_, ?_⟩
  rotate_left 4
  · simp [MyDeltaNotchSrnModel.SimulateToCurrentTimeInPlace,
      MyDeltaNotchSrnModel.UpdateDeltaNotchInPlace, exampleParent, hmd, hxd,
      MyDeltaNotchOdeSystem.SetParameter, MyDeltaNotchOdeSystem.GetParameterIndex,
      mParameterNames, vecSet, bind, Except.bind, pure, Except.pure,
      MyDeltaNotchSrnModel.AbstractOdeSrnModel_SimulateToCurrentTime]
    norm_num
  · simp [MyDeltaNotchSrnModel.SimulateToCurrentTimeInPlace,
      MyDeltaNotchSrnModel.UpdateDeltaNotchInPlace, hmd, hxd,
      MyDeltaNotchOdeSystem.SetParameter, MyDeltaNotchOdeSystem.GetParameterIndex,
      mParameterNames, vecSet, bind, Except.bind, pure, Except.pure,
      MyDeltaNotchSrnModel.AbstractOdeSrnModel_SimulateToCurrentTime]
  · simp [MyDeltaNotchSrnModel.SimulateToCurrentTimeInPlace,
      MyDeltaNotchSrnModel.UpdateDeltaNotchInPlace, initialisedModel, hmd, hxd,
      MyDeltaNotchOdeSystem.SetParameter, MyDeltaNotchOdeSystem.GetParameterIndex,
      mParameterNames, vecSet, bind, Except.bind, pure, Except.pure,
      MyDeltaNotchSrnModel.AbstractOdeSrnModel_SimulateToCurrentTime]
  · rcases SimulateToCurrentTimeInPlace_same_time integrate t m mpCell with h | ⟨e, h⟩ <;>
      rw [h] <;> exact hstate
  · rcases SimulateToCurrentTimeInPlace_same_time integrate t m mpCell with h | ⟨e, h⟩ <;>
      rw [h]
  · intro s s' c h
    unfold MyDeltaNotchSrnModel.SimulateToCurrentTimeInPlace at h
    rcases hr : s.1.UpdateDeltaNotchInPlace c with ⟨m1, o⟩
    rw [hr] at h
    cases o with
    | error e => simp at h
    | ok u =>
      simp only [MyDeltaNotchSrnModel.AbstractOdeSrnModel_SimulateToCurrentTime] at h
      cases hs : m1.mpOdeSystem with
      | none => simp [hs] at h
      | some sys =>
        simp only [hs] at h
        by_cases ht : t = s.2
        · simp only [ht, if_true, Prod.mk.injEq, and_true] at h
          rw [← h, ht]
        · simp only [ht, if_false] at h
          cases hi : integrate sys.mStateVariables sys.mParameters s.2 t with
          | error e => simp [hi] at h
          | ok Y =>
            simp only [hi, Prod.mk.injEq, and_true] at h
            rw [← h]
  · intro t₀
    simp only [MyDeltaNotchSrnModel.SimulateToCurrentTime, UpdateDeltaNotch_eq_returned,
      MyDeltaNotchSrnModel.SimulateToCurrentTimeInPlace, MyDeltaNotchSrnModel.returned, bind,
      Except.bind]
    rcases hr : m.UpdateDeltaNotchInPlace mpCell with ⟨m1, o⟩
    cases o with
    | error e => rfl
    | ok u => rfl

/-- C17: for a model whose ODE system, when allocated, holds six state variables and a
non-empty parameter vector, each of the seven accessors fails if and only if no ODE system
is allocated; it then fails by the assertion, and otherwise it returns a value. -/
theorem C17_accessors_fail_iff_unallocated (m : MyDeltaNotchSrnModel)
    (hinv : ∀ sys, m.mpOdeSystem = some sys →
      sys.mStateVariables.length = 6 ∧ sys.mParameters ≠ []) :
    ∀ f ∈ [MyDeltaNotchSrnModel.GetCellSurfaceNotch, MyDeltaNotchSrnModel.GetSudxDependentNotch,
        MyDeltaNotchSrnModel.GetDxDependentEarlyEndosomeNotch,
        MyDeltaNotchSrnModel.GetDxDependentLateEndosomeNotch,
        MyDeltaNotchSrnModel.GetNotchIntracellularDomain, MyDeltaNotchSrnModel.GetDelta,
        MyDeltaNotchSrnModel.GetMeanNeighbouringDelta],
      ((∃ e, f m = .error e) ↔ m.mpOdeSystem = none) ∧
      (m.mpOdeSystem = none → f m = .error .assertion) ∧
      (m.mpOdeSystem ≠ none → ∃ v, f m = .ok v) := by
  intro f hf
  simp only [List.mem_cons, List.mem_singleton, List.not_mem_nil, or_false] at hf
  cases hs : m.mpOdeSystem with
  | none =>
    rcases hf with h | h | h | h | h | h | h <;> subst h <;>
      simp [MyDeltaNotchSrnModel.GetCellSurfaceNotch, MyDeltaNotchSrnModel.GetSudxDependentNotch,
        MyDeltaNotchSrnModel.GetDxDependentEarlyEndosomeNotch,
        MyDeltaNotchSrnModel.GetDxDependentLateEndosomeNotch,
        MyDeltaNotchSrnModel.GetNotchIntracellularDomain, MyDeltaNotchSrnModel.GetDelta,
        MyDeltaNotchSrnModel.GetMeanNeighbouringDelta, hs]
  | some sys =>
    obtain ⟨hlen, hpar⟩ := hinv sys hs
    obtain ⟨p₀, ps, hps⟩ := List.exists_cons_of_ne_nil hpar
    rcases hf with h | h | h | h | h | h | h <;> subst h <;>
      simp [MyDeltaNotchSrnModel.GetCellSurfaceNotch, MyDeltaNotchSrnModel.GetSudxDependentNotch,
        MyDeltaNotchSrnModel.GetDxDependentEarlyEndosomeNotch,
        MyDeltaNotchSrnModel.GetDxDependentLateEndosomeNotch,
        MyDeltaNotchSrnModel.GetNotchIntracellularDomain, MyDeltaNotchSrnModel.GetDelta,
        MyDeltaNotchSrnModel.GetMeanNeighbouringDelta, hs, vecGet_of_lt, hlen,
        MyDeltaNotchOdeSystem.GetParameter, MyDeltaNotchOdeSystem.GetParameterIndex,
        mParameterNames, vecGet, hps, bind, Except.bind]

/-- C17, witness: the model without ODE system and the model `Initialise()` builds. -/
theorem C17_accessors_fail_iff_unallocated_witness :
    (MyDeltaNotchSrnModel.mk none).GetDelta = .error .assertion ∧
    (∃ v, initialisedModel.GetDelta = .ok v) ∧
    ∃ v, initialisedModel.GetMeanNeighbouringDelta = .ok v :=
  ⟨(C17_accessors_fail_iff_unallocated ⟨none⟩ (fun _ h => Option.noConfusion h)
      MyDeltaNotchSrnModel.GetDelta (by simp)).2.1 rfl,
    (C17_accessors_fail_iff_unallocated initialisedModel
      (fun sys h => by
        have hs : sys = ⟨[1, 1, 1, 1, 1, 1], [0.5], [1, 1, 1, 1, 1, 1]⟩ :=
          (Option.some.inj h).symm
        subst hs
        exact ⟨rfl, by simp⟩)
      MyDeltaNotchSrnModel.GetDelta (by simp)).2.2 (by simp [initialisedModel]),
    (C17_accessors_fail_iff_unallocated initialisedModel
      (fun sys h => by
        have hs : sys = ⟨[1, 1, 1, 1, 1, 1], [0.5], [1, 1, 1, 1, 1, 1]⟩ :=
          (Option.some.inj h).symm
        subst hs
        exact ⟨rfl, by simp⟩)
      MyDeltaNotchSrnModel.GetMeanNeighbouringDelta (by simp)).2.2 (by simp [initialisedModel])⟩

/-- C18: for every model with an ODE system (holding at least the parameter the
constructor pushed) attached to a store that lacks "mean delta" or "x distance", the
coupling refresh fails with the missing-key error of that key, and
`SimulateToCurrentTime` returns that same error whatever the base-class integration would
do: no default value is substituted and integration is not started. -/
theorem C18_refresh_fails_on_missing_key (sys : MyDeltaNotchOdeSystem) (d : CellData)
    (hp : sys.mParameters ≠ [])
    (hmiss : d.mCellData "mean delta" = none ∨ d.mCellData "x distance" = none) :
    (MyDeltaNotchSrnModel.UpdateDeltaNotch ⟨some sys⟩ (some d)
        = .error (.missingItem "mean delta") ∨
      MyDeltaNotchSrnModel.UpdateDeltaNotch ⟨some sys⟩ (some d)
        = .error (.missingItem "x distance")) ∧
    ∀ base : MyDeltaNotchSrnModel → Except Failure MyDeltaNotchSrnModel,
      MyDeltaNotchSrnModel.SimulateToCurrentTime base ⟨some sys⟩ (some d)
        = MyDeltaNotchSrnModel.UpdateDeltaNotch ⟨some sys⟩ (some d) := by
  obtain ⟨p₀, ps, hps⟩ := List.exists_cons_of_ne_nil hp
  have hrefresh : MyDeltaNotchSrnModel.UpdateDeltaNotch ⟨some sys⟩ (some d)
        = .error (.missingItem "mean delta") ∨
      MyDeltaNotchSrnModel.UpdateDeltaNotch ⟨some sys⟩ (some d)
        = .error (.missingItem "x distance") := by
    cases hm : d.mCellData "mean delta" with
    | none =>
      left
      simp [MyDeltaNotchSrnModel.UpdateDeltaNotch, CellData.GetItem, hm, bind, Except.bind]
    | some mv =>
      have hx : d.mCellData "x distance" = none := by
        rcases hmiss with h | h
        · rw [hm] at h; exact Option.noConfusion h
        · exact h
      right
      simp [MyDeltaNotchSrnModel.UpdateDeltaNotch, CellData.GetItem, hm, hx,
        MyDeltaNotchOdeSystem.SetParameter, MyDeltaNotchOdeSystem.GetParameterIndex,
        mParameterNames, vecSet, hps, bind, Except.bind, pure, Except.pure]
  refine ⟨hrefresh, ?_⟩
  intro base
  rcases hrefresh with h | h <;>
    simp only [MyDeltaNotchSrnModel.SimulateToCurrentTime, h, bind, Except.bind]

/-- C18, witness: the model `Initialise()` builds, attached to a store that defines
"mean delta" but not "x distance". -/
theorem C18_refresh_fails_on_missing_key_witness :
    initialisedModel.UpdateDeltaNotch (some exampleStoreWithoutXDistance)
      = .error (.missingItem "x distance") ∧
    ∀ base : MyDeltaNotchSrnModel → Except Failure MyDeltaNotchSrnModel,
      MyDeltaNotchSrnModel.SimulateToCurrentTime base initialisedModel
        (some exampleStoreWithoutXDistance) = .error (.missingItem "x distance") := by
  have h := C18_refresh_fails_on_missing_key ⟨[1, 1, 1, 1, 1, 1], [0.5], [1, 1, 1, 1, 1, 1]⟩
    exampleStoreWithoutXDistance (by simp)
    (Or.inr (by simp [exampleStoreWithoutXDistance, CellData.SetItem]))
  have hr : initialisedModel.UpdateDeltaNotch (some exampleStoreWithoutXDistance)
      = .error (.missingItem "x distance") := by
    rcases h.1 with h1 | h1
    · simp [MyDeltaNotchSrnModel.UpdateDeltaNotch, CellData.GetItem,
        exampleStoreWithoutXDistance, CellData.SetItem, MyDeltaNotchOdeSystem.SetParameter,
        MyDeltaNotchOdeSystem.GetParameterIndex, mParameterNames, vecSet, bind, Except.bind,
        pure, Except.pure] at h1
    · exact h1
  exact ⟨hr, fun base => (h.2 base).trans hr⟩

/-- C19, the code at a failing input: on `examplePopulationEmptyStores` (initialised
models, valid neighbour indices, empty stores) `SetupSolve` returns and every store then
defines all nine keys, yet the coupling refresh of every agent fails at
`SetParameter("x distance", ..)`, which addresses element 1 of the one-element parameter
vector. -/
theorem C19_setup_populates_but_refresh_fails :
    examplePopulationEmptyStores.WellFormed ∧
    (∀ c ∈ examplePopulationEmptyStores.mCells, ∀ k, c.cellData.mCellData k = none) ∧
    ∃ pop', MyDeltaNotchTrackingModifier.SetupSolve examplePopulationEmptyStores "" = .ok pop' ∧
      ∀ i, i < 4 → ∃ c' : Cell, pop'.mCells[i]? = some c' ∧
        (∀ k ∈ storeKeys, (c'.cellData.mCellData k).isSome = true) ∧
        c'.srnModel.UpdateDeltaNotch (some c'.cellData) = .error .outOfBounds := by
  refine ⟨examplePopulationEmptyStores_wellFormed, ?_, ?_⟩
  · intro c hc k
    simp only [examplePopulationEmptyStores, examplePopulation, List.map_cons, List.map_nil,
      List.mem_cons, List.mem_singleton, List.not_mem_nil, or_false] at hc
    rcases hc with h | h | h | h <;> subst h <;> rfl
  · obtain ⟨pop', hrun, h⟩ := SetupSolve_populates examplePopulationEmptyStores
      examplePopulationEmptyStores_wellFormed ""
    refine ⟨pop', hrun, ?_⟩
    intro i hi
    have hcell : ∃ c : Cell, examplePopulationEmptyStores.mCells[i]? = some c ∧
        ∃ sys p₀, c.srnModel = ⟨some sys⟩ ∧ sys.mParameters = [p₀] := by
      interval_cases i <;>
        exact ⟨_, rfl, _, _, rfl, rfl⟩
    obtain ⟨c, hc, sys, p₀, hsys, hpar⟩ := hcell
    obtain ⟨c', hc', hmodel, hkeys⟩ := h i c hc
    refine ⟨c', hc', hkeys, ?_⟩
    have hm := hkeys "mean delta" (by simp [storeKeys])
    have hx := hkeys "x distance" (by simp [storeKeys])
    obtain ⟨mv, hmv⟩ := Option.isSome_iff_exists.1 hm
    obtain ⟨xv, hxv⟩ := Option.isSome_iff_exists.1 hx
    rw [hmodel, hsys]
    exact UpdateDeltaNotch_of_one_parameter sys c'.cellData p₀ mv xv hpar hmv hxv

/-- C20: evaluated with every divisor recorded, `EvaluateYDerivatives` returns the values
of the plain evaluation, and the divisors it divides by are `12`, `fb + NICD` (10 + Y4),
`fb + delta` (10 + Y5), `c_8b +` early-endosome Notch (14 + Y2) and `k_c` (0.001). They are
all strictly positive when the six state components are non-negative, in exact arithmetic
and also in `double`, where each sum is rounded; in exact arithmetic one of them is zero
exactly when NICD is -10, Delta is -10 or early-endosome Notch is -14. The code has no
check: it returns in every case, and in `double` the state with NICD = -10 yields the
infinities of a division by zero in components 0 and 5. -/
theorem C20_divisors_positive (sv ic : List ℚ)
    (mean_delta x_distance t Y0 Y1 Y2 Y3 Y4 Y5 D0 D1 D2 D3 D4 D5 : ℚ) :
    ∃ rDY : List (Traced ℚ),
      MyDeltaNotchOdeSystem.EvaluateYDerivativesOver
          [Traced.input mean_delta, Traced.input x_distance] (Traced.input t)
          [Traced.input Y0, Traced.input Y1, Traced.input Y2, Traced.input Y3,
            Traced.input Y4, Traced.input Y5]
          [Traced.input D0, Traced.input D1, Traced.input D2, Traced.input D3,
            Traced.input D4, Traced.input D5] = .ok rDY ∧
      MyDeltaNotchOdeSystem.EvaluateYDerivatives ⟨sv, [mean_delta, x_distance], ic⟩ t
          [Y0, Y1, Y2, Y3, Y4, Y5] [D0, D1, D2, D3, D4, D5] = .ok (rDY.map Traced.value) ∧
      (∀ d : ℚ, d ∈ rDY.flatMap Traced.divisors ↔
        d ∈ [12, 10 + Y4, 10 + Y5, 14 + Y2, 0.001]) ∧
      (0 ≤ Y0 → 0 ≤ Y1 → 0 ≤ Y2 → 0 ≤ Y3 → 0 ≤ Y4 → 0 ≤ Y5 →
        ∀ d ∈ rDY.flatMap Traced.divisors, 0 < d) ∧
      ((0 : ℚ) ∈ rDY.flatMap Traced.divisors ↔ Y4 = -10 ∨ Y5 = -10 ∨ Y2 = -14) ∧
      (0 ≤ Y0 → 0 ≤ Y1 → 0 ≤ Y2 → 0 ≤ Y3 → 0 ≤ Y4 → 0 ≤ Y5 →
        ∃ rD : List (Traced Double),
          MyDeltaNotchOdeSystem.EvaluateYDerivativesOver
              [Traced.input (Double.finite mean_delta), Traced.input (Double.finite x_distance)]
              (Traced.input (Double.finite t))
              [Traced.input (Double.finite Y0), Traced.input (Double.finite Y1),
                Traced.input (Double.finite Y2), Traced.input (Double.finite Y3),
                Traced.input (Double.finite Y4), Traced.input (Double.finite Y5)]
              [Traced.input (Double.finite D0), Traced.input (Double.finite D1),
                Traced.input (Double.finite D2), Traced.input (Double.finite D3),
                Traced.input (Double.finite D4), Traced.input (Double.finite D5)]
            = .ok rD ∧
          MyDeltaNotchOdeSystem.EvaluateYDerivativesOver
              [Double.finite mean_delta, Double.finite x_distance] (Double.finite t)
              [Double.finite Y0, Double.finite Y1, Double.finite Y2, Double.finite Y3,
                Double.finite Y4, Double.finite Y5]
              [Double.finite D0, Double.finite D1, Double.finite D2, Double.finite D3,
                Double.finite D4, Double.finite D5]
            = .ok (rD.map Traced.value) ∧
          rD.flatMap Traced.divisors
            = [10.0 + Double.finite Y4, 10.0 + Double.finite Y5, 10.0 + Double.finite Y5,
                10.0 + Double.finite Y5, 14.0 + Double.finite Y2, 14.0 + Double.finite Y2,
                12, 10.0 + Double.finite Y4, 0.001] ∧
          ∀ d ∈ rD.flatMap Traced.divisors, Double.sign d = 1) ∧
      MyDeltaNotchOdeSystem.EvaluateYDerivativesOver (α := Double) [0.5, 1.0] 0.0
          [1.0, 1.0, 1.0, 1.0, Double.finite (-10), 1.0] [0.0, 0.0, 0.0, 0.0, 0.0, 0.0]
        = .ok [Double.negInf,
            Double.finite (5038761923289833 / 2199023255552),
            Double.finite (4529941260489275 / 1099511627776),
            Double.finite (-5109943639701367 / 4398046511104),
            Double.finite (2989792018248499 / 2199023255552),
            Double.posInf] := by
  have hmem : ∀ d : ℚ,
      d ∈ List.flatMap
        [(⟨14 * (2 - 10 / (10 + Y4)) - 10 * Y0 - 2414 * Y0 - 4214 * Y0 - 500 * mean_delta * Y0,
            [10 + Y4]⟩ : Traced ℚ),
          ⟨2414 * Y0 + 1000 * (1 - 10 / (10 + Y5)) * Y2 + 15 * Y1
              - 2514 * (1 - 10 / (10 + Y5)) * Y1, [10 + Y5, 10 + Y5]⟩,
          ⟨4214 * Y0 - 1000 * (1 - 10 / (10 + Y5)) * Y2 - (6 / 5 * Y2 + 14 * Y2 / (14 + Y2))
              - Y2, [10 + Y5, 14 + Y2]⟩,
          ⟨6 / 5 * Y2 + 14 * Y2 / (14 + Y2) - 1094 * Y3 - 70 * Y3, [14 + Y2]⟩,
          ⟨500 * mean_delta * Y0 + 15 * Y1 + 1094 * Y3 - 3 / 50 * Y4, []⟩,
          ⟨10 * x_distance * (1 - 5 / 12) * (10 / (10 + Y4)) - 1 / 4 * Y5
              - 500 * mean_delta * Y0 - Y0 * Y5 / (1 / 1000), [12, 10 + Y4, 1 / 1000]⟩]
        Traced.divisors ↔
      d = 12 ∨ d = 10 + Y4 ∨ d = 10 + Y5 ∨ d = 14 + Y2 ∨ d = 1 / 1000 := by
    intro d
    simp only [List.flatMap_cons, List.flatMap_nil, List.mem_append, List.mem_cons,
      List.mem_singleton, List.not_mem_nil, or_false, false_or]
    tauto
  refine ⟨_, EvaluateYDerivativesOver_Traced mean_delta x_distance t Y0 Y1 Y2 Y3 Y4 Y5
    D0 D1 D2 D3 D4 D5, ?_, ?_, ?_, ?_, ?_, EvaluateYDerivativesOver_Double_nicd⟩
  · rw [EvaluateYDerivatives_eq]
    rfl
  · intro d
    rw [hmem d]
    have h : (0.001 : ℚ) = 1 / 1000 := by norm_num
    simp only [List.mem_cons, List.mem_singleton, List.not_mem_nil, or_false, h]
  · intro h0 h1 h2 h3 h4 h5 d hd
    rcases (hmem d).mp hd with h | h | h | h | h <;> rw [h] <;> positivity
  · rw [hmem 0]
    constructor
    · rintro (h | h | h | h | h)
      · norm_num at h
      · left; linarith
      · right; left; linarith
      · right; right; linarith
      · norm_num at h
    · rintro (h | h | h)
      · right; left; rw [h]; norm_num
      · right; right; left; rw [h]; norm_num
      · right; right; right; left; rw [h]; norm_num
  · intro h0 h1 h2 h3 h4 h5
    obtain ⟨l, hl, hlen⟩ := EvaluateYDerivativesOver_returns (Double.finite mean_delta)
      (Double.finite x_distance) (Double.finite t) (Double.finite Y0) (Double.finite Y1)
      (Double.finite Y2) (Double.finite Y3) (Double.finite Y4) (Double.finite Y5)
      (Double.finite D0) (Double.finite D1) (Double.finite D2) (Double.finite D3)
      (Double.finite D4) (Double.finite D5)
    have htr := EvaluateYDerivativesOver_Traced_values (Double.finite mean_delta)
      (Double.finite x_distance) (Double.finite t) (Double.finite Y0) (Double.finite Y1)
      (Double.finite Y2) (Double.finite Y3) (Double.finite Y4) (Double.finite Y5)
      (Double.finite D0) (Double.finite D1) (Double.finite D2) (Double.finite D3)
      (Double.finite D4) (Double.finite D5)
    rw [hl] at htr
    match l, hlen with
    | [v0, v1, v2, v3, v4, v5], _ =>
      have hdivs : List.flatMap (List.zipWith Traced.mk [v0, v1, v2, v3, v4, v5]
            [[10.0 + Double.finite Y4], [10.0 + Double.finite Y5, 10.0 + Double.finite Y5],
              [10.0 + Double.finite Y5, 14.0 + Double.finite Y2], [14.0 + Double.finite Y2],
              [], [12, 10.0 + Double.finite Y4, 0.001]]) Traced.divisors
          = [10.0 + Double.finite Y4, 10.0 + Double.finite Y5, 10.0 + Double.finite Y5,
              10.0 + Double.finite Y5, 14.0 + Double.finite Y2, 14.0 + Double.finite Y2,
              12, 10.0 + Double.finite Y4, 0.001] := by
        simp [List.zipWith, List.flatMap_cons]
      refine ⟨_, htr, ?_, hdivs, ?_⟩
      · rw [hl]; simp [List.zipWith]
      · intro d hd
        rw [hdivs] at hd
        simp only [List.mem_cons, List.mem_singleton, List.not_mem_nil, or_false] at hd
        have s4 := Double.sign_divisor Y4 h4
        have s5 := Double.sign_divisor Y5 h5
        have s2 := Double.sign_divisor Y2 h2
        have s12 : Double.sign (12 : Double) = 1 := by
          rw [Double.literal_values.2.2.1]; decide
        have sk : Double.sign (0.001 : Double) = 1 := by
          rw [Double.literal_values.2.2.2]; decide!
        rcases hd with h | h | h | h | h | h | h | h | h <;> rw [h]
        · exact s4.1
        · exact s5.1
        · exact s5.1
        · exact s5.1
        · exact s2.2
        · exact s2.2
        · exact s12
        · exact s4.1
        · exact sk

/-- C20, witness: at the state `[1, 2, 3, 4, 5, 6]` every recorded divisor is positive, in
exact arithmetic and in `double`. -/
theorem C20_divisors_positive_witness :
    (∃ rDY : List (Traced ℚ),
      MyDeltaNotchOdeSystem.EvaluateYDerivativesOver
          [Traced.input 0, Traced.input 0] (Traced.input 0)
          [Traced.input 1, Traced.input 2, Traced.input 3, Traced.input 4,
            Traced.input 5, Traced.input 6]
          [Traced.input 0, Traced.input 0, Traced.input 0, Traced.input 0,
            Traced.input 0, Traced.input 0] = .ok rDY ∧
      (∀ d : ℚ, d ∈ rDY.flatMap Traced.divisors ↔ d ∈ [12, 10 + 5, 10 + 6, 14 + 3, 0.001]) ∧
      ∀ d ∈ rDY.flatMap Traced.divisors, 0 < d) ∧
    ∃ rD : List (Traced Double),
      MyDeltaNotchOdeSystem.EvaluateYDerivativesOver
          [Traced.input (Double.finite 0), Traced.input (Double.finite 0)]
          (Traced.input (Double.finite 0))
          [Traced.input (Double.finite 1), Traced.input (Double.finite 2),
            Traced.input (Double.finite 3), Traced.input (Double.finite 4),
            Traced.input (Double.finite 5), Traced.input (Double.finite 6)]
          [Traced.input (Double.finite 0), Traced.input (Double.finite 0),
            Traced.input (Double.finite 0), Traced.input (Double.finite 0),
            Traced.input (Double.finite 0), Traced.input (Double.finite 0)] = .ok rD ∧
      ∀ d ∈ rD.flatMap Traced.divisors, Double.sign d = 1 := by
  obtain ⟨rDY, hrun, _, hdiv, hpos, _, hdbl, _⟩ :=
    C20_divisors_positive [] [] 0 0 0 1 2 3 4 5 6 0 0 0 0 0 0
  obtain ⟨rD, hrunD, _, _, hposD⟩ := hdbl (by norm_num) (by norm_num) (by norm_num)
    (by norm_num) (by norm_num) (by norm_num)
  exact ⟨⟨rDY, hrun, hdiv, hpos (by norm_num) (by norm_num) (by norm_num) (by norm_num)
    (by norm_num) (by norm_num)⟩, rD, hrunD, hposD⟩

/-- C21, counterexample: for three neighbours whose Delta is the double 0.9
(`8106479329266893/2^53`) the accumulation `mean_delta += this_delta/3` in `double` ends
at `2026619832316723/2^51` (0.8999999999999999), which is below the smallest neighbour
Delta and differs from the common value 0.9. -/
theorem C21_counterexample_double_accumulation :
    (0.9 : Double) = Double.finite (8106479329266893 / 2 ^ 53) ∧
    MyDeltaNotchTrackingModifier.neighbourLoopOver (α := Double) 3 [0.9, 0.9, 0.9] 0.0
      = Double.finite (2026619832316723 / 2 ^ 51) ∧
    (2026619832316723 / 2 ^ 51 : ℚ) < 8106479329266893 / 2 ^ 53 ∧
    (2026619832316723 / 2 ^ 51 : ℚ) ≠ 8106479329266893 / 2 ^ 53 := by
  refine ⟨?_, ?_, by norm_num, by norm_num⟩
  · have h : (0.9 : Double) = Double.finite (8106479329266893 / 9007199254740992) := by
      decide!
    rw [h]; norm_num
  · have h : MyDeltaNotchTrackingModifier.neighbourLoopOver (α := Double) 3 [0.9, 0.9, 0.9] 0.0
        = Double.finite (2026619832316723 / 2251799813685248) := by
      decide!
    rw [h]; norm_num

/-- C21, amended: on a well-formed population `UpdateCellData` returns, and for every agent
with a non-empty neighbour set the stored "mean delta" is the accumulation
`mean_delta += this_delta/size` over its neighbours' Delta values, started at 0.0.
Evaluated exactly, it lies between the smallest and the largest Delta of the neighbours
(both attained), hence above every lower and below every upper bound of them, is
non-negative when they all are, and equals `d` when they all equal `d`.
Evaluated in `double`, for fewer than `2^53` neighbours, it is a non-negative double or
`+inf` when all the Delta values are non-negative; and when they lie between `lo` and `hi`
with `size / 2^1021 ≤ lo` and `hi * (1 + 2^-53)^(size+1) < 2^1024`, it is a finite double
between `lo * (1 - 2^-53)^(size+1)` and `hi * (1 + 2^-53)^(size+1)`. -/
theorem C21_mean_delta_between_min_and_max (pop : AbstractCellPopulation)
    (hw : pop.WellFormed) (δ : Nat → ℚ)
    (hδ : ∀ (j : Nat) (c : Cell), pop.mCells[j]? = some c → c.srnModel.GetDelta = .ok (δ j)) :
    (∃ pop', MyDeltaNotchTrackingModifier.UpdateCellData pop = .ok pop' ∧
      ∀ i, i < pop.mCells.length → pop.GetNeighbouringLocationIndices i ≠ [] →
        ∃ (c' : Cell) (mean_delta : ℚ), pop'.mCells[i]? = some c' ∧
          c'.cellData.GetItem "mean delta" = .ok mean_delta ∧
          mean_delta = MyDeltaNotchTrackingModifier.neighbourLoopOver
            (pop.GetNeighbouringLocationIndices i).length
            ((pop.GetNeighbouringLocationIndices i).map δ) (0.0 : ℚ) ∧
          (∃ jmin ∈ pop.GetNeighbouringLocationIndices i,
            ∃ jmax ∈ pop.GetNeighbouringLocationIndices i,
              (∀ j ∈ pop.GetNeighbouringLocationIndices i, δ jmin ≤ δ j ∧ δ j ≤ δ jmax) ∧
              δ jmin ≤ mean_delta ∧ mean_delta ≤ δ jmax) ∧
          (∀ lo hi : ℚ, (∀ j ∈ pop.GetNeighbouringLocationIndices i, lo ≤ δ j ∧ δ j ≤ hi) →
            lo ≤ mean_delta ∧ mean_delta ≤ hi) ∧
          ((∀ j ∈ pop.GetNeighbouringLocationIndices i, 0 ≤ δ j) → 0 ≤ mean_delta) ∧
          (∀ d : ℚ, (∀ j ∈ pop.GetNeighbouringLocationIndices i, δ j = d) →
            mean_delta = d)) ∧
    (∀ i, pop.GetNeighbouringLocationIndices i ≠ [] →
      (pop.GetNeighbouringLocationIndices i).length < 2 ^ 53 →
        ((∀ j ∈ pop.GetNeighbouringLocationIndices i, 0 ≤ δ j) →
          (MyDeltaNotchTrackingModifier.neighbourLoopOver
              (pop.GetNeighbouringLocationIndices i).length
              (((pop.GetNeighbouringLocationIndices i).map δ).map Double.finite)
              (0.0 : Double) = Double.posInf ∨
            ∃ r : ℚ, MyDeltaNotchTrackingModifier.neighbourLoopOver
              (pop.GetNeighbouringLocationIndices i).length
              (((pop.GetNeighbouringLocationIndices i).map δ).map Double.finite)
              (0.0 : Double) = Double.finite r ∧ 0 ≤ r)) ∧
        (∀ lo hi : ℚ,
          ((pop.GetNeighbouringLocationIndices i).length : ℚ) / 2 ^ 1021 ≤ lo →
          (∀ j ∈ pop.GetNeighbouringLocationIndices i, lo ≤ δ j ∧ δ j ≤ hi) →
          hi * (1 + 1 / 2 ^ 53) ^ ((pop.GetNeighbouringLocationIndices i).length + 1)
            < 2 ^ 1024 →
          ∃ r : ℚ, MyDeltaNotchTrackingModifier.neighbourLoopOver
              (pop.GetNeighbouringLocationIndices i).length
              (((pop.GetNeighbouringLocationIndices i).map δ).map Double.finite)
              (0.0 : Double) = Double.finite r ∧
            lo * (1 - 1 / 2 ^ 53) ^ ((pop.GetNeighbouringLocationIndices i).length + 1) ≤ r ∧
            r ≤ hi * (1 + 1 / 2 ^ 53)
              ^ ((pop.GetNeighbouringLocationIndices i).length + 1))) := by
  constructor
  · obtain ⟨pop', hrun, hget⟩ := updated_getElem? pop hw
    refine ⟨pop', hrun, ?_⟩
    intro i hi hne
    have hmap : (pop.mNeighbouringLocationIndices i).map (modelDelta pop)
        = (pop.mNeighbouringLocationIndices i).map δ := by
      apply List.map_congr_left
      intro j hj
      exact modelDelta_eq_of_GetDelta pop δ hδ hw.1 j (hw.2 i hi j hj)
    simp only [AbstractCellPopulation.GetNeighbouringLocationIndices] at hne ⊢
    have hb := mean_bounds δ (pop.mNeighbouringLocationIndices i) hne
    obtain ⟨jmin, hjmin, hmin⟩ := exists_min_of_ne_nil δ _ hne
    obtain ⟨jmax, hjmax, hmax⟩ := exists_max_of_ne_nil δ _ hne
    refine ⟨updated pop i pop.mCells[i],
      ((pop.mNeighbouringLocationIndices i).map δ).sum /
        ((pop.mNeighbouringLocationIndices i).length : ℚ), ?_, ?_, ?_, ?_, ?_, ?_, ?_⟩
    · rw [hget, List.getElem?_eq_getElem hi]; rfl
    · simp [updated, CellData.GetItem, CellData.SetItem, neighbourMean, hmap]
    · rw [neighbourLoopOver_rat]; norm_num
    · exact ⟨jmin, hjmin, jmax, hjmax, fun j hj => ⟨hmin j hj, hmax j hj⟩,
        (hb (δ jmin) (δ jmax) hmin hmax).1, (hb (δ jmin) (δ jmax) hmin hmax).2⟩
    · intro lo hi h
      exact hb lo hi (fun j hj => (h j hj).1) (fun j hj => (h j hj).2)
    · intro h
      exact (hb 0 (δ jmax) h hmax).1
    · intro d h
      have := hb d d (fun j hj => le_of_eq (h j hj).symm) (fun j hj => le_of_eq (h j hj))
      exact le_antisymm this.2 this.1
  · intro i hne hlen
    have hlm : ((pop.GetNeighbouringLocationIndices i).map δ).length
        = (pop.GetNeighbouringLocationIndices i).length := List.length_map _ δ
    have h1 : 1 ≤ (pop.GetNeighbouringLocationIndices i).length :=
      Nat.pos_of_ne_zero (fun h => hne (List.length_eq_zero.mp h))
    constructor
    · intro h0
      apply neighbourLoopOver_Double_nonneg _ h1 hlen
      · intro x hx
        obtain ⟨j, hj, rfl⟩ := List.mem_map.mp hx
        exact h0 j hj
      · right; exact ⟨0, Double.zero_literal, le_refl 0⟩
    · intro lo hi hlo hb hfin
      have hne2 : (pop.GetNeighbouringLocationIndices i).map δ ≠ [] := by
        intro h
        exact hne (List.map_eq_nil_iff.mp h)
      have := neighbourLoopOver_Double_bounds ((pop.GetNeighbouringLocationIndices i).map δ)
        lo hi hne2 (by rw [hlm]; exact hlen) (by rw [hlm]; exact hlo)
        (by
          intro x hx
          obtain ⟨j, hj, rfl⟩ := List.mem_map.mp hx
          exact hb j hj)
        (by rw [hlm]; exact hfin)
      rw [hlm] at this
      exact this

/-- C21, witness: in `examplePopulation` the neighbours of agent 0 hold Delta 0.2, 0.4 and
0.6; the mean stored for agent 0 lies between 0.2 and 0.6, and the accumulation in
`double` over these three values is finite and within `(1 ± 2^-53)^4` of that interval. -/
theorem C21_mean_delta_between_min_and_max_witness :
    examplePopulation.WellFormed ∧
    (∃ pop', MyDeltaNotchTrackingModifier.UpdateCellData examplePopulation = .ok pop' ∧
      ∃ (c' : Cell) (mean_delta : ℚ), pop'.mCells[0]? = some c' ∧
        c'.cellData.GetItem "mean delta" = .ok mean_delta ∧
        0.2 ≤ mean_delta ∧ mean_delta ≤ 0.6) ∧
    ∃ r : ℚ, MyDeltaNotchTrackingModifier.neighbourLoopOver
        (examplePopulation.GetNeighbouringLocationIndices 0).length
        (((examplePopulation.GetNeighbouringLocationIndices 0).map exampleDelta).map
          Double.finite) (0.0 : Double) = Double.finite r ∧
      0.2 * (1 - 1 / 2 ^ 53)
          ^ ((examplePopulation.GetNeighbouringLocationIndices 0).length + 1) ≤ r ∧
      r ≤ 0.6 * (1 + 1 / 2 ^ 53)
          ^ ((examplePopulation.GetNeighbouringLocationIndices 0).length + 1) := by
  obtain ⟨⟨pop', hrun, h⟩, hdbl⟩ := C21_mean_delta_between_min_and_max examplePopulation
    examplePopulation_wellFormed exampleDelta exampleDelta_spec
  have hmem : ∀ j ∈ examplePopulation.GetNeighbouringLocationIndices 0,
      (0.2 : ℚ) ≤ exampleDelta j ∧ exampleDelta j ≤ 0.6 := by
    intro j hj
    simp only [AbstractCellPopulation.GetNeighbouringLocationIndices, examplePopulation,
      if_true, List.mem_cons, List.mem_singleton, List.not_mem_nil, or_false] at hj
    rcases hj with h | h | h <;> subst h <;> norm_num [exampleDelta]
  refine ⟨examplePopulation_wellFormed, ?_, ?_⟩
  · obtain ⟨c', mv, hc, hm, _, _, hb, _, _⟩ := h 0 (by decide) (by decide)
    exact ⟨pop', hrun, c', mv, hc, hm, hb 0.2 0.6 hmem⟩
  · have hlen : (examplePopulation.GetNeighbouringLocationIndices 0).length = 3 := by decide
    refine (hdbl 0 (by decide) (by rw [hlen]; norm_num)).2 0.2 0.6 ?_ hmem ?_
    · rw [hlen]
      have h4 : (2 : ℚ) ^ 4 ≤ 2 ^ 1021 := pow_le_pow_right₀ (by norm_num) (by norm_num)
      have h5 : ((3 : Nat) : ℚ) / 2 ^ 1021 ≤ 3 / 2 ^ 4 := by
        push_cast
        exact div_le_div_of_nonneg_left (by norm_num) (by norm_num) h4
      refine le_trans h5 ?_
      norm_num
    · rw [hlen]
      have h4 : (2 : ℚ) ^ 4 ≤ 2 ^ 1024 := pow_le_pow_right₀ (by norm_num) (by norm_num)
      have h5 : (0.6 : ℚ) * (1 + 1 / 2 ^ 53) ^ (3 + 1) < 2 ^ 4 := by norm_num
      exact lt_of_lt_of_le h5 h4

/-- C22: for every source model, whatever its parameter vector holds at clone time,
`CreateSrnModel` returns a model whose ODE system has the parameters of a freshly
constructed system, the single pushed value 0.5; the clone does not depend on the parent's
parameters, and its "mean delta" differs from the parent's whenever the parent's is not
0.5. -/
theorem C22_clone_has_default_parameters (p ic : List ℚ) (Y0 Y1 Y2 Y3 Y4 Y5 : ℚ) :
    ∃ clone sys fresh,
      MyDeltaNotchSrnModel.CreateSrnModel ⟨some ⟨[Y0, Y1, Y2, Y3, Y4, Y5], p, ic⟩⟩ = .ok clone ∧
      clone.mpOdeSystem = some sys ∧
      MyDeltaNotchOdeSystem.construct [] = .ok fresh ∧
      sys.mParameters = fresh.mParameters ∧
      sys.mParameters = [0.5] ∧
      clone.GetMeanNeighbouringDelta = .ok 0.5 ∧
      (∀ p' ic' : List ℚ,
        MyDeltaNotchSrnModel.CreateSrnModel ⟨some ⟨[Y0, Y1, Y2, Y3, Y4, Y5], p', ic'⟩⟩
          = .ok clone) ∧
      (∀ (m : ℚ) (rest : List ℚ), p = m :: rest → m ≠ 0.5 →
        MyDeltaNotchSrnModel.GetMeanNeighbouringDelta
            ⟨some ⟨[Y0, Y1, Y2, Y3, Y4, Y5], p, ic⟩⟩ = .ok m ∧
        clone.GetMeanNeighbouringDelta ≠ .ok m) := by
  have hclone : ∀ q jc : List ℚ,
      MyDeltaNotchSrnModel.CreateSrnModel ⟨some ⟨[Y0, Y1, Y2, Y3, Y4, Y5], q, jc⟩⟩
        = .ok ⟨some ⟨[Y0, Y1, Y2, Y3, Y4, Y5], [0.5], [1, 1, 1, 1, 1, 1]⟩⟩ := by
    intro q jc
    simp [MyDeltaNotchSrnModel.CreateSrnModel, MyDeltaNotchSrnModel.copyConstruct,
      construct_six, bind, Except.bind, pure, Except.pure]
  have hmean : MyDeltaNotchSrnModel.GetMeanNeighbouringDelta
      ⟨some ⟨[Y0, Y1, Y2, Y3, Y4, Y5], [0.5], [1, 1, 1, 1, 1, 1]⟩⟩ = .ok 0.5 := by
    simp [MyDeltaNotchSrnModel.GetMeanNeighbouringDelta, MyDeltaNotchOdeSystem.GetParameter,
      MyDeltaNotchOdeSystem.GetParameterIndex, mParameterNames, vecGet, bind, Except.bind]
  refine ⟨_, _, _, hclone p ic, rfl, construct_nil, rfl, rfl, hmean, hclone, ?_⟩
  intro m rest hp hm
  subst hp
  refine ⟨?_, ?_⟩
  · simp [MyDeltaNotchSrnModel.GetMeanNeighbouringDelta, MyDeltaNotchOdeSystem.GetParameter,
      MyDeltaNotchOdeSystem.GetParameterIndex, mParameterNames, vecGet, bind, Except.bind]
  · rw [hmean]
    intro h
    exact hm (Except.ok.inj h).symm

/-- C22, witness: the clone of `exampleParent`, whose parameters are 2 and 3, reports
"mean delta" 0.5 while the parent reports 2. -/
theorem C22_clone_has_default_parameters_witness :
    exampleParent.GetMeanNeighbouringDelta = .ok 2 ∧
    ∃ clone, exampleParent.CreateSrnModel = .ok clone ∧
      clone.GetMeanNeighbouringDelta = .ok 0.5 ∧
      clone.GetMeanNeighbouringDelta ≠ .ok 2 := by
  obtain ⟨clone, _, _, hrun, _, _, _, _, hmean, _, hdiff⟩ :=
    C22_clone_has_default_parameters [2, 3] [1, 1, 1, 1, 1, 1] 1 2 3 4 5 6
  have h := hdiff 2 [3] rfl (by norm_num)
  exact ⟨h.1, clone, hrun, hmean, h.2⟩

end DeltaNotch
